import Mathlib

/-!
# linuxkm/lkcapi_glue.c

A shallow embedding of the glue layer that registers the wolfCrypt AES modes
(CBC, CFB, GCM, XTS) with the Linux kernel crypto API, and of its
self-test-gated registration protocol.

Layout: definitions first (constants, registry, transport walk, primitive
interface, engines), then the theorems.
-/

namespace LkcapiGlue

/-! ## Constants taken from headers that are not part of `lkcapi_glue.c` -/

/-- Error numbers of the kernel (`errno`) and of wolfCrypt that the file uses by
name only.  Their values live in headers outside `src/`, so they are a
parameter of the embedding; the kernel convention that an `errno` constant is a
positive number is carried along as a field. -/
structure Consts where
  EEXIST : Int
  EINVAL : Int
  EBADMSG : Int
  AES_GCM_AUTH_E : Int
  EEXIST_pos : 0 < EEXIST
  EINVAL_pos : 0 < EINVAL
  EBADMSG_pos : 0 < EBADMSG
  AES_GCM_AUTH_E_ne : AES_GCM_AUTH_E ≠ 0

/-- The values of the constants on Linux (`errno-base.h`, `errno.h`) and in
wolfCrypt (`error-crypt.h`), used to evaluate the embedding on concrete inputs. -/
def linuxConsts : Consts where
  EEXIST := 17
  EINVAL := 22
  EBADMSG := 74
  AES_GCM_AUTH_E := -180
  EEXIST_pos := by decide
  EINVAL_pos := by decide
  EBADMSG_pos := by decide
  AES_GCM_AUTH_E_ne := by decide

/-! ## Registry: `linuxkm_lkcapi_register` / `linuxkm_lkcapi_unregister` -/

/-- The four algorithm descriptors of the file. -/
inductive Alg where
  | cbcAesAlg
  | cfbAesAlg
  | gcmAesAead
  | xtsAesAlg
  deriving DecidableEq

/-- Calls that the registration code makes into the kernel and into the
self-tests, recorded in the order in which they happen. -/
inductive Event where
  | installer (a : Alg) (ret : Int)
  | tester (a : Alg) (ret : Int)
  | uninstaller (a : Alg)
  deriving DecidableEq

/-- State of the registry: the `<alg>_loaded` flags of the file, whether the
kernel currently holds the algorithm (set by a successful installer, cleared by
the uninstaller), and the record of the calls made so far. -/
structure Registry where
  loaded : Alg → Int
  installed : Alg → Bool
  log : List Event

/-- State at module load: `static int <alg>_loaded = 0;` for each descriptor. -/
def Registry.init : Registry where
  loaded := fun _ => 0
  installed := fun _ => false
  log := []

/-- Results of the external calls of one registration pass:
`crypto_register_skcipher` / `crypto_register_aead` and the `linuxkm_test_*`
functions, per descriptor. -/
structure Outcomes where
  installer : Alg → Int
  tester : Alg → Int

/-- Pointwise update of a per-descriptor table. -/
def setAt {β : Type} (f : Alg → β) (a : Alg) (v : β) : Alg → β :=
  fun b => if b = a then v else f b

/-- The macro `REGISTER_ALG(alg, installer, tester)`.  `some r` is an early
`return r;` out of `linuxkm_lkcapi_register`, `none` means the macro body ran
to its end. -/
def REGISTER_ALG (K : Consts) (env : Outcomes) (a : Alg) (s : Registry) :
    Option Int × Registry :=
  if s.loaded a ≠ 0 then
    (some (-K.EEXIST), s)
  else
    let ret := env.installer a
    let s1 : Registry :=
      { s with
        installed := if ret = 0 then setAt s.installed a true else s.installed
        log := s.log ++ [Event.installer a ret] }
    if ret ≠ 0 then
      (some ret, s1)
    else
      let s2 : Registry := { s1 with loaded := setAt s1.loaded a 1 }
      let ret := env.tester a
      let s3 : Registry := { s2 with log := s2.log ++ [Event.tester a ret] }
      if ret ≠ 0 then (some ret, s3) else (none, s3)

/-- The macro expansions of `linuxkm_lkcapi_register`, one after the other. -/
def registerSteps (K : Consts) (env : Outcomes) : List Alg → Registry → Option Int × Registry
  | [], s => (none, s)
  | a :: rest, s =>
    match REGISTER_ALG K env a s with
    | (some r, s1) => (some r, s1)
    | (none, s1) => registerSteps K env rest s1

/-- The descriptors in the order in which the file registers them. -/
def allAlgs : List Alg :=
  [Alg.cbcAesAlg, Alg.cfbAesAlg, Alg.gcmAesAead, Alg.xtsAesAlg]

/-- The descriptors that the build configuration (`cfg`, the `#if` guards
around each macro call) compiles in, in registration order. -/
def enabledAlgs (cfg : Alg → Bool) : List Alg :=
  allAlgs.filter cfg

/-- `linuxkm_lkcapi_register`: the guarded `REGISTER_ALG` calls, then `return 0;`. -/
def linuxkm_lkcapi_register (K : Consts) (cfg : Alg → Bool) (env : Outcomes) (s : Registry) :
    Int × Registry :=
  match registerSteps K env (enabledAlgs cfg) s with
  | (some r, s1) => (r, s1)
  | (none, s1) => (0, s1)

/-- The macro `UNREGISTER_ALG(alg, uninstaller)`. -/
def UNREGISTER_ALG (a : Alg) (s : Registry) : Registry :=
  if s.loaded a ≠ 0 then
    { loaded := setAt s.loaded a 0
      installed := setAt s.installed a false
      log := s.log ++ [Event.uninstaller a] }
  else s

/-- The macro expansions of `linuxkm_lkcapi_unregister`, one after the other. -/
def unregisterSteps : List Alg → Registry → Registry
  | [], s => s
  | a :: rest, s => unregisterSteps rest (UNREGISTER_ALG a s)

/-- `linuxkm_lkcapi_unregister`. -/
def linuxkm_lkcapi_unregister (cfg : Alg → Bool) (s : Registry) : Registry :=
  unregisterSteps (enabledAlgs cfg) s

/-- Build configuration `LINUXKM_LKCAPI_REGISTER_ALL` with all four modes available. -/
def allEnabled : Alg → Bool := fun _ => true

/-- Outcomes in which every installer succeeds and the CBC self-test fails with `-1`. -/
def cbcSelfTestFails : Outcomes where
  installer := fun _ => 0
  tester := fun a => if a = Alg.cbcAesAlg then -1 else 0

/-- Outcomes in which every installer and every self-test succeeds. -/
def allSucceed : Outcomes where
  installer := fun _ => 0
  tester := fun _ => 0

/-- Registry at module load, except that the CFB descriptor is already marked loaded. -/
def cfbAlreadyLoaded : Registry where
  loaded := fun a => if a = Alg.cfbAesAlg then 1 else 0
  installed := fun a => if a = Alg.cfbAesAlg then true else false
  log := []

/-- The descriptor that an event is about. -/
def Event.alg : Event → Alg
  | Event.installer a _ => a
  | Event.tester a _ => a
  | Event.uninstaller a => a

/-! ## Transport: the kernel's scatter-gather walk -/

/-- Byte strings; a byte is a natural number below 256. -/
abbrev Bytes := List Nat

/-- Behaviour of the transport during one request: the result of starting the
walk (`skcipher_walk_virt`, `skcipher_walk_aead_encrypt`,
`skcipher_walk_aead_decrypt`), the result of the `k`-th call of
`skcipher_walk_done`, whether `scatterwalk_map` yields an error pointer, and
the lengths of the contiguous views in which the walk hands out the range. -/
structure Transport where
  start_err : Int
  done_err : Nat → Int
  map_err : Bool
  split : List Nat

/-- A transport without faults that hands out the whole range as one view. -/
def Transport.oneView : Transport where
  start_err := 0
  done_err := fun _ => 0
  map_err := false
  split := []

/-- A transport without faults that cuts the range into the given view lengths. -/
def Transport.cut (split : List Nat) : Transport where
  start_err := 0
  done_err := fun _ => 0
  map_err := false
  split := split

/-- Modelled from the spec: the decomposition of a logical byte range into the
contiguous views of the Segment Walk (section 4.1: every view is non-empty and
at most the remaining total).  The range is cut at the given lengths; a length
of 0 is skipped and what remains after the last cut forms the last view. -/
def splitViews : Bytes → List Nat → List Bytes
  | data, [] => if data.isEmpty then [] else [data]
  | data, k :: ks =>
    if data.isEmpty then []
    else if k = 0 then splitViews data ks
    else if data.length ≤ k then [data]
    else data.take k :: splitViews (data.drop k) ks

/-- The request of the symmetric-cipher interface (`struct skcipher_request`):
the logical source range (`cryptlen` is its length) and the IV or tweak. -/
structure skcipher_request where
  src : Bytes
  iv : Bytes

/-- Modelled from the spec: the cursor of the Segment Walk
(`struct skcipher_walk`, sections 3 and 4.1).  `views` are the source views not
yet committed, the head being the current one; `off` counts the bytes committed
so far and `ndone` the calls of `skcipher_walk_done`. -/
structure skcipher_walk where
  views : List Bytes
  iv : Bytes
  off : Nat
  ndone : Nat

/-- The field `walk.nbytes`: length of the current view, 0 when the walk is over. -/
def skcipher_walk.nbytes (w : skcipher_walk) : Nat :=
  (w.views.headD []).length

/-- The bytes behind `walk.src.virt.addr`: the current source view. -/
def skcipher_walk.src (w : skcipher_walk) : Bytes :=
  w.views.headD []

/-- Modelled from the spec: `start(request)` of the Segment Walk
(`skcipher_walk_virt`), which either fails with the transport's error or
positions the walk on the first view. -/
def skcipher_walk_virt (T : Transport) (req : skcipher_request) : Int × skcipher_walk :=
  if T.start_err ≠ 0 then (T.start_err, ⟨[], req.iv, 0, 0⟩)
  else (0, ⟨splitViews req.src T.split, req.iv, 0, 0⟩)

/-- Modelled from the spec: `advance(consumed_len)` of the Segment Walk
(`skcipher_walk_done(walk, residue)`), called with the number of bytes of the
current view that were not processed.  It either fails with the transport's
error or commits `nbytes - residue` bytes; an unprocessed rest of the view is
handed out again before the next view. -/
def skcipher_walk_done (T : Transport) (w : skcipher_walk) (residue : Nat) :
    Int × skcipher_walk :=
  if T.done_err w.ndone ≠ 0 then
    (T.done_err w.ndone, { w with views := [], ndone := w.ndone + 1 })
  else
    match w.views with
    | [] => (0, { w with ndone := w.ndone + 1 })
    | v :: rest =>
      let n := v.length - residue
      (0, { views := if (v.drop n).isEmpty then rest else v.drop n :: rest
            iv := w.iv
            off := w.off + n
            ndone := w.ndone + 1 })

/-- Calls that an engine makes into the transport and into the primitive,
recorded in the order in which they happen. -/
inductive Call where
  | walk_start (err : Int)
  | set_iv (iv : Bytes) (err : Int)
  | transform (sz : Nat) (err : Int)
  | walk_done (residue : Nat) (err : Int)
  | gcm_init (iv : Bytes) (err : Int)
  | map_assoc (failed : Bool)
  | gcm_aad (authIn : Bytes) (authInSz : Nat) (err : Int)
  | gcm_update (nbytes : Nat) (owed : Nat) (sz : Nat) (advance : Nat) (err : Int)
  | gcm_enc_final (authTagSz : Nat) (err : Int)
  | gcm_dec_final (authTag : Bytes) (err : Int)
  | copy_tag (off : Nat) (tag : Bytes)
  deriving DecidableEq

/-! ## The primitive layer (wolfCrypt), a parameter of the engines -/

/-- The wolfCrypt AES entry points that the engines call, over an abstract type
`σ` of `Aes` objects.  An `Aes *` argument is an `Option σ` (`none` is `NULL`);
each entry point returns its result code, the object after the call and, where
it has an output buffer, the bytes it wrote.  A buffer argument carries the
bytes that the call is given to read.  The GCM update entry points also carry
the two byte counts `sz` and `authInSz` that the caller passes. -/
structure Primitive (σ : Type) where
  wc_AesSetIV : Option σ → Bytes → Int × Option σ
  wc_AesCbcEncrypt : Option σ → Bytes → Int × Option σ × Bytes
  wc_AesCbcDecrypt : Option σ → Bytes → Int × Option σ × Bytes
  wc_AesCfbEncrypt : Option σ → Bytes → Int × Option σ × Bytes
  wc_AesCfbDecrypt : Option σ → Bytes → Int × Option σ × Bytes
  wc_AesGcmInit : Option σ → Bytes → Nat → Int × Option σ
  wc_AesGcmEncryptUpdate : Option σ → Bytes → Nat → Bytes → Nat → Int × Option σ × Bytes
  wc_AesGcmDecryptUpdate : Option σ → Bytes → Nat → Bytes → Nat → Int × Option σ × Bytes
  wc_AesGcmEncryptFinal : Option σ → Nat → Int × Option σ × Bytes
  wc_AesGcmDecryptFinal : Option σ → Bytes → Nat → Int × Option σ

/-- The wolfCrypt XTS entry points over an abstract type `τ` of `XtsAes`
objects: `wc_AesXtsEncrypt(aes, out, in, sz, iv, ivSz)` and its inverse.  A
call depends on the keyed object, the input and the tweak only (section 4.5:
no running state between calls) and returns its result code and the bytes
written. -/
structure XtsPrimitive (τ : Type) where
  wc_AesXtsEncrypt : Option τ → Bytes → Bytes → Int × Bytes
  wc_AesXtsDecrypt : Option τ → Bytes → Bytes → Int × Bytes

/-- `struct km_AesCtx`: the two separately allocated `Aes` objects. -/
structure km_AesCtx (σ : Type) where
  aes_encrypt : Option σ
  aes_decrypt : Option σ

/-- `struct km_AesXtsCtx`. -/
structure km_AesXtsCtx (τ : Type) where
  aesXts : Option τ

/-! ## CBC, CFB and XTS engines -/

/-- State in which a walk loop leaves the function: the value it returns (or,
for the GCM loop, carries on with), the `Aes` object it worked on, the bytes
written to the destination views in walk order, and the calls made. -/
structure SkRun (σ : Type) where
  ret : Int
  aes : Option σ
  dst : Bytes
  log : List Call

/-- Result of an skcipher entry point. -/
structure SkOut (σ : Type) where
  ret : Int
  ctx : km_AesCtx σ
  dst : Bytes
  log : List Call

/-- Result of an XTS entry point. -/
structure XtsOut where
  ret : Int
  dst : Bytes
  log : List Call
  deriving DecidableEq

/-- The `while ((nbytes = walk.nbytes) != 0)` loop shared, word for word, by
`km_AesCbcEncrypt`, `km_AesCbcDecrypt`, `km_AesCfbEncrypt` and
`km_AesCfbDecrypt`; `xform` is the transform entry point of the function at
hand and `aes` the object it passes.  Each iteration installs `walk.iv`,
transforms the `nbytes` bytes of the current view and commits the view with
`skcipher_walk_done(&walk, walk.nbytes - nbytes)`.  `fuel` bounds the number of
iterations; `none` means that it ran out. -/
def km_AesLoop {σ : Type} (K : Consts) (P : Primitive σ)
    (xform : Option σ → Bytes → Int × Option σ × Bytes) (T : Transport) :
    Nat → skcipher_walk → Option σ → Bytes → List Call → Int → Option (SkRun σ)
  | 0, _, _, _, _, _ => none
  | fuel + 1, walk, aes, dst, log, err =>
    let nbytes := walk.nbytes
    if nbytes = 0 then some ⟨err, aes, dst, log⟩
    else
      let r1 := P.wc_AesSetIV aes walk.iv
      let log1 := log ++ [Call.set_iv walk.iv r1.1]
      if r1.1 ≠ 0 then some ⟨-K.EINVAL, r1.2, dst, log1⟩
      else
        let r2 := xform r1.2 (walk.src.take nbytes)
        let log2 := log1 ++ [Call.transform nbytes r2.1]
        if r2.1 ≠ 0 then some ⟨-K.EINVAL, r2.2.1, dst ++ r2.2.2, log2⟩
        else
          let r3 := skcipher_walk_done T walk (walk.nbytes - nbytes)
          let log3 := log2 ++ [Call.walk_done (walk.nbytes - nbytes) r3.1]
          if r3.1 ≠ 0 then some ⟨r3.1, r2.2.1, dst ++ r2.2.2, log3⟩
          else km_AesLoop K P xform T fuel r3.2 r2.2.1 (dst ++ r2.2.2) log3 r3.1

/-- `km_AesCbcEncrypt`. -/
def km_AesCbcEncrypt {σ : Type} (K : Consts) (P : Primitive σ) (T : Transport) (fuel : Nat)
    (ctx : km_AesCtx σ) (req : skcipher_request) : Option (SkOut σ) :=
  let w := skcipher_walk_virt T req
  if w.1 ≠ 0 then some ⟨w.1, ctx, [], [Call.walk_start w.1]⟩
  else
    (km_AesLoop K P P.wc_AesCbcEncrypt T fuel w.2 ctx.aes_encrypt [] [Call.walk_start w.1]
      w.1).map
      fun r => ⟨r.ret, { ctx with aes_encrypt := r.aes }, r.dst, r.log⟩

/-- `km_AesCbcDecrypt`: the same loop on `ctx->aes_decrypt` with `wc_AesCbcDecrypt`. -/
def km_AesCbcDecrypt {σ : Type} (K : Consts) (P : Primitive σ) (T : Transport) (fuel : Nat)
    (ctx : km_AesCtx σ) (req : skcipher_request) : Option (SkOut σ) :=
  let w := skcipher_walk_virt T req
  if w.1 ≠ 0 then some ⟨w.1, ctx, [], [Call.walk_start w.1]⟩
  else
    (km_AesLoop K P P.wc_AesCbcDecrypt T fuel w.2 ctx.aes_decrypt [] [Call.walk_start w.1]
      w.1).map
      fun r => ⟨r.ret, { ctx with aes_decrypt := r.aes }, r.dst, r.log⟩

/-- `km_AesCfbEncrypt`. -/
def km_AesCfbEncrypt {σ : Type} (K : Consts) (P : Primitive σ) (T : Transport) (fuel : Nat)
    (ctx : km_AesCtx σ) (req : skcipher_request) : Option (SkOut σ) :=
  let w := skcipher_walk_virt T req
  if w.1 ≠ 0 then some ⟨w.1, ctx, [], [Call.walk_start w.1]⟩
  else
    (km_AesLoop K P P.wc_AesCfbEncrypt T fuel w.2 ctx.aes_encrypt [] [Call.walk_start w.1]
      w.1).map
      fun r => ⟨r.ret, { ctx with aes_encrypt := r.aes }, r.dst, r.log⟩

/-- `km_AesCfbDecrypt`: `wc_AesCfbDecrypt` on `ctx->aes_encrypt`. -/
def km_AesCfbDecrypt {σ : Type} (K : Consts) (P : Primitive σ) (T : Transport) (fuel : Nat)
    (ctx : km_AesCtx σ) (req : skcipher_request) : Option (SkOut σ) :=
  let w := skcipher_walk_virt T req
  if w.1 ≠ 0 then some ⟨w.1, ctx, [], [Call.walk_start w.1]⟩
  else
    (km_AesLoop K P P.wc_AesCfbDecrypt T fuel w.2 ctx.aes_encrypt [] [Call.walk_start w.1]
      w.1).map
      fun r => ⟨r.ret, { ctx with aes_encrypt := r.aes }, r.dst, r.log⟩

/-- The loop of `km_AesXtsEncrypt` and `km_AesXtsDecrypt`: each iteration hands
the current view and `walk.iv` to the XTS entry point `xform` and commits the
view. -/
def km_AesXtsLoop (K : Consts) (xform : Bytes → Bytes → Int × Bytes) (T : Transport) :
    Nat → skcipher_walk → Bytes → List Call → Int → Option XtsOut
  | 0, _, _, _, _ => none
  | fuel + 1, walk, dst, log, err =>
    let nbytes := walk.nbytes
    if nbytes = 0 then some ⟨err, dst, log⟩
    else
      let r2 := xform (walk.src.take nbytes) walk.iv
      let log2 := log ++ [Call.transform nbytes r2.1]
      if r2.1 ≠ 0 then some ⟨-K.EINVAL, dst ++ r2.2, log2⟩
      else
        let r3 := skcipher_walk_done T walk (walk.nbytes - nbytes)
        let log3 := log2 ++ [Call.walk_done (walk.nbytes - nbytes) r3.1]
        if r3.1 ≠ 0 then some ⟨r3.1, dst ++ r2.2, log3⟩
        else km_AesXtsLoop K xform T fuel r3.2 (dst ++ r2.2) log3 r3.1

/-- `km_AesXtsEncrypt`. -/
def km_AesXtsEncrypt {τ : Type} (K : Consts) (X : XtsPrimitive τ) (T : Transport) (fuel : Nat)
    (ctx : km_AesXtsCtx τ) (req : skcipher_request) : Option XtsOut :=
  let w := skcipher_walk_virt T req
  if w.1 ≠ 0 then some ⟨w.1, [], [Call.walk_start w.1]⟩
  else km_AesXtsLoop K (X.wc_AesXtsEncrypt ctx.aesXts) T fuel w.2 [] [Call.walk_start w.1] w.1

/-- `km_AesXtsDecrypt`. -/
def km_AesXtsDecrypt {τ : Type} (K : Consts) (X : XtsPrimitive τ) (T : Transport) (fuel : Nat)
    (ctx : km_AesXtsCtx τ) (req : skcipher_request) : Option XtsOut :=
  let w := skcipher_walk_virt T req
  if w.1 ≠ 0 then some ⟨w.1, [], [Call.walk_start w.1]⟩
  else km_AesXtsLoop K (X.wc_AesXtsDecrypt ctx.aesXts) T fuel w.2 [] [Call.walk_start w.1] w.1

/-! ## GCM engine -/

/-- Modelled from the spec: the block size of all four modes, 16 bytes
(section 6); `AES_BLOCK_SIZE` comes from `wolfssl/wolfcrypt/aes.h`. -/
def AES_BLOCK_SIZE : Nat := 16

/-- One entry of a scatterlist: the bytes of the segment, and the memory that
follows the segment's last byte at its mapped address.  The slack is not part
of the logical range; a read through a mapping of the segment that runs past
the segment's end sees it. -/
structure scatterlist where
  data : Bytes
  slack : Bytes
  deriving DecidableEq

/-- The logical byte range that a scatterlist represents: its segments in order. -/
def sgBytes : List scatterlist → Bytes
  | [] => []
  | s :: rest => s.data ++ sgBytes rest

/-- `struct aead_request`: source scatterlist, the logical destination range
(with its content before the call), `assoclen`, `cryptlen` and the IV. -/
structure aead_request where
  src : List scatterlist
  dst : Bytes
  assoclen : Nat
  cryptlen : Nat
  iv : Bytes

/-- Truncation to `unsigned int`. -/
def u32 (n : Nat) : Nat := n % 4294967296

/-- Subtraction of `unsigned int` values, which wraps around below zero. -/
def u32sub (a b : Nat) : Nat := (u32 a + (4294967296 - u32 b)) % 4294967296

/-- Replace the bytes of `buf` from offset `off` on by `data`. -/
def writeAt (buf : Bytes) (off : Nat) (data : Bytes) : Bytes :=
  buf.take off ++ data ++ buf.drop (off + data.length)

/-- Modelled from the spec: `scatterwalk_map_and_copy(buf, sg, start, n, 0)`,
which copies `n` bytes at offset `start` of the logical range out of the
scatterlist, across segment boundaries. -/
def sgRead (sg : List scatterlist) (start n : Nat) : Bytes :=
  ((sgBytes sg).drop start).take n

/-- Modelled from the spec: `scatterwalk_start` on the source followed by
`scatterwalk_map`, which maps the first segment and yields the address of its
first byte, or an error pointer (`none`).  The result is the memory readable
from that address on: the segment, then its slack. -/
def scatterwalk_map (T : Transport) (sg : List scatterlist) : Option Bytes :=
  if T.map_err then none
  else
    match sg with
    | [] => some []
    | s :: _ => some (s.data ++ s.slack)

/-- Modelled from the spec: start of the Segment Walk for an AEAD request
(`skcipher_walk_aead_encrypt` / `skcipher_walk_aead_decrypt`): the walk skips
the `assoclen` bytes of associated data and covers the following `total` bytes
of the source range. -/
def skcipher_walk_aead (T : Transport) (req : aead_request) (total : Nat) :
    Int × skcipher_walk :=
  if T.start_err ≠ 0 then (T.start_err, ⟨[], req.iv, 0, 0⟩)
  else (0, ⟨splitViews (((sgBytes req.src).drop req.assoclen).take total) T.split, req.iv, 0, 0⟩)

/-- `skcipher_walk_aead_encrypt`: the walk covers `cryptlen` bytes. -/
def skcipher_walk_aead_encrypt (T : Transport) (req : aead_request) : Int × skcipher_walk :=
  skcipher_walk_aead T req req.cryptlen

/-- `skcipher_walk_aead_decrypt`: the walk covers `cryptlen - authsize` bytes. -/
def skcipher_walk_aead_decrypt (T : Transport) (req : aead_request) (authsize : Nat) :
    Int × skcipher_walk :=
  skcipher_walk_aead T req (u32sub req.cryptlen authsize)

/-- State in which the payload loop of a GCM entry point stops.  `returned` is
`some r` when the function returned `r` from inside the loop. -/
structure GcmLoopOut (σ : Type) where
  returned : Option Int
  aes : Option σ
  dst : Bytes
  cryptLeft : Nat
  err : Int
  log : List Call

/-- Result of a GCM entry point. -/
structure AeadOut (σ : Type) where
  ret : Int
  ctx : km_AesCtx σ
  dst : Bytes
  log : List Call

/-- The payload loop of `km_AesGcmEncrypt` and `km_AesGcmDecrypt`; `update` is
`wc_AesGcmEncryptUpdate` or `wc_AesGcmDecryptUpdate`.  The primitive is called
on the current view with the byte count `cryptLeft`; the walk is then advanced
by `n = min(cryptLeft, nbytes)` through `skcipher_walk_done(&walk, nbytes - n)`.
The bytes that the primitive returns are stored at the position of the current
destination view, offset `assoclen + walk.off` of the destination range. -/
def km_AesGcmLoop {σ : Type} (K : Consts)
    (update : Option σ → Bytes → Nat → Bytes → Nat → Int × Option σ × Bytes)
    (T : Transport) (assoclen : Nat) :
    Nat → skcipher_walk → Option σ → Bytes → Nat → Int → List Call → Option (GcmLoopOut σ)
  | 0, _, _, _, _, _, _ => none
  | fuel + 1, walk, aes, dst, cryptLeft, err, log =>
    let nbytes := walk.nbytes
    if nbytes = 0 then some ⟨none, aes, dst, cryptLeft, err, log⟩
    else
      if cryptLeft ≠ 0 ∧ nbytes ≠ 0 then
        let n := if cryptLeft < nbytes then cryptLeft else nbytes
        let r := update aes (walk.src.take cryptLeft) cryptLeft [] 0
        let dst1 := writeAt dst (assoclen + walk.off) r.2.2
        let log1 := log ++ [Call.gcm_update nbytes cryptLeft cryptLeft n r.1]
        if r.1 ≠ 0 then some ⟨some (-K.EINVAL), r.2.1, dst1, cryptLeft - n, r.1, log1⟩
        else
          let r3 := skcipher_walk_done T walk (nbytes - n)
          let log3 := log1 ++ [Call.walk_done (nbytes - n) r3.1]
          if r3.1 ≠ 0 then some ⟨some r3.1, r.2.1, dst1, cryptLeft - n, r3.1, log3⟩
          else km_AesGcmLoop K update T assoclen fuel r3.2 r.2.1 dst1 (cryptLeft - n) r3.1 log3
      else
        if err ≠ 0 then some ⟨some (-K.EINVAL), aes, dst, cryptLeft, err, log⟩
        else
          let r3 := skcipher_walk_done T walk nbytes
          let log3 := log ++ [Call.walk_done nbytes r3.1]
          if r3.1 ≠ 0 then some ⟨some r3.1, aes, dst, cryptLeft, r3.1, log3⟩
          else km_AesGcmLoop K update T assoclen fuel r3.2 aes dst cryptLeft r3.1 log3

/-- `km_AesGcmEncrypt`; `authsize` is `tfm->authsize`. -/
def km_AesGcmEncrypt {σ : Type} (K : Consts) (P : Primitive σ) (T : Transport) (fuel : Nat)
    (ctx : km_AesCtx σ) (authsize : Nat) (req : aead_request) : Option (AeadOut σ) :=
  let assocLeft := req.assoclen
  let cryptLeft := req.cryptlen
  let w := skcipher_walk_aead_encrypt T req
  let log0 := [Call.walk_start w.1]
  if w.1 ≠ 0 then some ⟨-1, ctx, req.dst, log0⟩
  else
    let r1 := P.wc_AesGcmInit ctx.aes_encrypt (w.2.iv.take AES_BLOCK_SIZE) AES_BLOCK_SIZE
    let log1 := log0 ++ [Call.gcm_init (w.2.iv.take AES_BLOCK_SIZE) r1.1]
    if r1.1 ≠ 0 then some ⟨-K.EINVAL, { ctx with aes_encrypt := r1.2 }, req.dst, log1⟩
    else
      match scatterwalk_map T req.src with
      | none =>
        some ⟨r1.1, { ctx with aes_encrypt := r1.2 }, req.dst, log1 ++ [Call.map_assoc true]⟩
      | some assoc =>
        let r2 := P.wc_AesGcmEncryptUpdate r1.2 [] 0 (assoc.take assocLeft) assocLeft
        let log2 := log1 ++ [Call.map_assoc false,
          Call.gcm_aad (assoc.take assocLeft) assocLeft r2.1]
        if r2.1 ≠ 0 then some ⟨-K.EINVAL, { ctx with aes_encrypt := r2.2.1 }, req.dst, log2⟩
        else
          match km_AesGcmLoop K P.wc_AesGcmEncryptUpdate T req.assoclen fuel w.2 r2.2.1 req.dst
              cryptLeft r2.1 log2 with
          | none => none
          | some l =>
            match l.returned with
            | some r => some ⟨r, { ctx with aes_encrypt := l.aes }, l.dst, l.log⟩
            | none =>
              let r4 := P.wc_AesGcmEncryptFinal l.aes authsize
              let log4 := l.log ++ [Call.gcm_enc_final authsize r4.1]
              if r4.1 ≠ 0 then
                some ⟨-K.EINVAL, { ctx with aes_encrypt := r4.2.1 }, l.dst, log4⟩
              else
                some ⟨r4.1, { ctx with aes_encrypt := r4.2.1 },
                  writeAt l.dst (u32 (req.assoclen + req.cryptlen)) (r4.2.2.take authsize),
                  log4 ++ [Call.copy_tag (u32 (req.assoclen + req.cryptlen))
                    (r4.2.2.take authsize)]⟩

/-- `km_AesGcmDecrypt`; `authsize` is `tfm->authsize`. -/
def km_AesGcmDecrypt {σ : Type} (K : Consts) (P : Primitive σ) (T : Transport) (fuel : Nat)
    (ctx : km_AesCtx σ) (authsize : Nat) (req : aead_request) : Option (AeadOut σ) :=
  let assocLeft := req.assoclen
  let cryptLeft := u32sub req.cryptlen authsize
  let origAuthTag := sgRead req.src (u32sub (u32 (req.assoclen + req.cryptlen)) authsize) authsize
  let w := skcipher_walk_aead_decrypt T req authsize
  let log0 := [Call.walk_start w.1]
  if w.1 ≠ 0 then some ⟨w.1, ctx, req.dst, log0⟩
  else
    let r1 := P.wc_AesGcmInit ctx.aes_encrypt (w.2.iv.take AES_BLOCK_SIZE) AES_BLOCK_SIZE
    let log1 := log0 ++ [Call.gcm_init (w.2.iv.take AES_BLOCK_SIZE) r1.1]
    if r1.1 ≠ 0 then some ⟨-K.EINVAL, { ctx with aes_encrypt := r1.2 }, req.dst, log1⟩
    else
      match scatterwalk_map T req.src with
      | none =>
        some ⟨r1.1, { ctx with aes_encrypt := r1.2 }, req.dst, log1 ++ [Call.map_assoc true]⟩
      | some assoc =>
        let r2 := P.wc_AesGcmDecryptUpdate r1.2 [] 0 (assoc.take assocLeft) assocLeft
        let log2 := log1 ++ [Call.map_assoc false,
          Call.gcm_aad (assoc.take assocLeft) assocLeft r2.1]
        if r2.1 ≠ 0 then some ⟨-K.EINVAL, { ctx with aes_encrypt := r2.2.1 }, req.dst, log2⟩
        else
          match km_AesGcmLoop K P.wc_AesGcmDecryptUpdate T req.assoclen fuel w.2 r2.2.1 req.dst
              cryptLeft r2.1 log2 with
          | none => none
          | some l =>
            match l.returned with
            | some r => some ⟨r, { ctx with aes_encrypt := l.aes }, l.dst, l.log⟩
            | none =>
              let r4 := P.wc_AesGcmDecryptFinal l.aes origAuthTag authsize
              let log4 := l.log ++ [Call.gcm_dec_final origAuthTag r4.1]
              if r4.1 ≠ 0 then
                if r4.1 = K.AES_GCM_AUTH_E then
                  some ⟨-K.EBADMSG, { ctx with aes_encrypt := r4.2 }, l.dst, log4⟩
                else
                  some ⟨-K.EINVAL, { ctx with aes_encrypt := r4.2 }, l.dst, log4⟩
              else
                some ⟨r4.1, { ctx with aes_encrypt := r4.2 }, l.dst, log4⟩

/-! ## A small executable primitive, used to run the engines on concrete inputs -/

/-- State of the stand-in `Aes` object: the feedback register of the chaining
modes, and for GCM the nonce, the stream position, and the associated data and
ciphertext absorbed so far. -/
structure ToyAes where
  reg : Bytes
  nonce : Bytes
  pos : Nat
  aad : Bytes
  text : Bytes
  deriving DecidableEq

/-- A byte permutation standing in for the keyed block function. -/
def toyBlock (b : Nat) : Nat := (3 * b + 1) % 256

/-- The inverse of `toyBlock` on bytes. -/
def toyBlockInv (c : Nat) : Nat := (171 * (c + 255)) % 256

/-- CBC encryption over the register window `w` (the previous 16 ciphertext
bytes, at first the IV): each byte is mixed with the byte one block back, then
permuted.  Returns the ciphertext and the register after the call. -/
def toyCbcEnc : Bytes → Bytes → Bytes × Bytes
  | w, [] => ([], w)
  | w, p :: ps =>
    let c := toyBlock ((p + w.headD 0) % 256)
    let r := toyCbcEnc (w.tail ++ [c]) ps
    (c :: r.1, r.2)

/-- CBC decryption, the inverse of `toyCbcEnc` for the same register. -/
def toyCbcDec : Bytes → Bytes → Bytes × Bytes
  | w, [] => ([], w)
  | w, c :: cs =>
    let p := (toyBlockInv c + (256 - w.headD 0 % 256)) % 256
    let r := toyCbcDec (w.tail ++ [c]) cs
    (p :: r.1, r.2)

/-- CFB encryption: the byte one block back is permuted and added to the plaintext. -/
def toyCfbEnc : Bytes → Bytes → Bytes × Bytes
  | w, [] => ([], w)
  | w, p :: ps =>
    let c := (p + toyBlock (w.headD 0)) % 256
    let r := toyCfbEnc (w.tail ++ [c]) ps
    (c :: r.1, r.2)

/-- CFB decryption, the inverse of `toyCfbEnc` for the same register. -/
def toyCfbDec : Bytes → Bytes → Bytes × Bytes
  | w, [] => ([], w)
  | w, c :: cs =>
    let p := (c + (256 - toyBlock (w.headD 0))) % 256
    let r := toyCfbDec (w.tail ++ [c]) cs
    (p :: r.1, r.2)

/-- Key stream byte number `k` of the stand-in counter mode. -/
def toyStream (nonce : Bytes) (k : Nat) : Nat := (nonce.getD (k % 16) 0 + 7 * k + 1) % 256

/-- Counter-mode encryption from stream position `pos` on. -/
def toyCtrEnc (nonce : Bytes) : Nat → Bytes → Bytes
  | _, [] => []
  | pos, p :: ps => (p + toyStream nonce pos) % 256 :: toyCtrEnc nonce (pos + 1) ps

/-- Counter-mode decryption from stream position `pos` on. -/
def toyCtrDec (nonce : Bytes) : Nat → Bytes → Bytes
  | _, [] => []
  | pos, c :: cs => (c + (256 - toyStream nonce pos)) % 256 :: toyCtrDec nonce (pos + 1) cs

/-- The 16-byte tag of the stand-in AEAD: a checksum over nonce, associated
data and ciphertext. -/
def toyTag (a : ToyAes) : Bytes :=
  (List.range 16).map fun j =>
    (a.nonce.sum + 5 * a.aad.sum + 3 * a.text.sum + a.aad.length + a.text.length + j) % 256

/-- The stand-in primitive.  A `NULL` object is rejected with `BAD_FUNC_ARG`
(-173); a tag that differs from the computed one is reported as
`AES_GCM_AUTH_E`. -/
def toyPrimitive (K : Consts) : Primitive ToyAes where
  wc_AesSetIV := fun aes iv =>
    match aes with
    | none => (-173, none)
    | some a => (0, some { a with reg := iv })
  wc_AesCbcEncrypt := fun aes inp =>
    match aes with
    | none => (-173, none, [])
    | some a => (0, some { a with reg := (toyCbcEnc a.reg inp).2 }, (toyCbcEnc a.reg inp).1)
  wc_AesCbcDecrypt := fun aes inp =>
    match aes with
    | none => (-173, none, [])
    | some a => (0, some { a with reg := (toyCbcDec a.reg inp).2 }, (toyCbcDec a.reg inp).1)
  wc_AesCfbEncrypt := fun aes inp =>
    match aes with
    | none => (-173, none, [])
    | some a => (0, some { a with reg := (toyCfbEnc a.reg inp).2 }, (toyCfbEnc a.reg inp).1)
  wc_AesCfbDecrypt := fun aes inp =>
    match aes with
    | none => (-173, none, [])
    | some a => (0, some { a with reg := (toyCfbDec a.reg inp).2 }, (toyCfbDec a.reg inp).1)
  wc_AesGcmInit := fun aes iv _ =>
    match aes with
    | none => (-173, none)
    | some a => (0, some { a with nonce := iv, pos := 0, aad := [], text := [] })
  wc_AesGcmEncryptUpdate := fun aes inp _ authIn _ =>
    match aes with
    | none => (-173, none, [])
    | some a =>
      (0, some { a with pos := a.pos + inp.length, aad := a.aad ++ authIn,
                        text := a.text ++ toyCtrEnc a.nonce a.pos inp },
        toyCtrEnc a.nonce a.pos inp)
  wc_AesGcmDecryptUpdate := fun aes inp _ authIn _ =>
    match aes with
    | none => (-173, none, [])
    | some a =>
      (0, some { a with pos := a.pos + inp.length, aad := a.aad ++ authIn,
                        text := a.text ++ inp },
        toyCtrDec a.nonce a.pos inp)
  wc_AesGcmEncryptFinal := fun aes _ =>
    match aes with
    | none => (-173, none, [])
    | some a => (0, some a, toyTag a)
  wc_AesGcmDecryptFinal := fun aes tag authsize =>
    match aes with
    | none => (-173, none)
    | some a => if tag.take authsize = (toyTag a).take authsize then (0, some a)
                else (K.AES_GCM_AUTH_E, some a)

/-- The amount by which the stand-in XTS shifts byte number `i`: it depends on
the key, the tweak and the number `i / 16` of the block. -/
def toyXtsShift (key : Nat) (iv : Bytes) (i : Nat) : Nat :=
  (key + iv.getD (i % 16) 0 + 11 * (i / 16)) % 256

/-- The stand-in XTS primitive: inputs shorter than one block are rejected with
`BAD_FUNC_ARG`; the transform of a byte depends on the block it lies in. -/
def toyXts : XtsPrimitive Nat where
  wc_AesXtsEncrypt := fun aes inp iv =>
    match aes with
    | none => (-173, [])
    | some key =>
      if inp.length < 16 then (-173, [])
      else (0, List.zipWith (fun b i => (b + toyXtsShift key iv i) % 256) inp
              (List.range inp.length))
  wc_AesXtsDecrypt := fun aes inp iv =>
    match aes with
    | none => (-173, [])
    | some key =>
      if inp.length < 16 then (-173, [])
      else (0, List.zipWith (fun b i => (b + (256 - toyXtsShift key iv i)) % 256) inp
              (List.range inp.length))

/-- A context with both objects allocated and keyed. -/
def toyCtx : km_AesCtx ToyAes where
  aes_encrypt := some ⟨[], [], 0, [], []⟩
  aes_decrypt := some ⟨[], [], 0, [], []⟩

/-- An XTS context with its object allocated and keyed. -/
def toyXtsCtx : km_AesXtsCtx Nat where
  aesXts := some 5

/-- The IV of the self-tests, `"1234567890abcdef"`. -/
def testIv : Bytes :=
  [0x31, 0x32, 0x33, 0x34, 0x35, 0x36, 0x37, 0x38, 0x39, 0x30, 0x61, 0x62, 0x63, 0x64, 0x65, 0x66]

/-- The 32-byte vector of `linuxkm_test_aescbc`, "Now is the time for all good men". -/
def testVector : Bytes :=
  [0x4e, 0x6f, 0x77, 0x20, 0x69, 0x73, 0x20, 0x74, 0x68, 0x65, 0x20, 0x74, 0x69, 0x6d, 0x65, 0x20,
   0x66, 0x6f, 0x72, 0x20, 0x61, 0x6c, 0x6c, 0x20, 0x67, 0x6f, 0x6f, 0x64, 0x20, 0x6d, 0x65, 0x6e]

/-- The values of the fields of a result, for comparison. -/
def SkOut.view {σ : Type} (r : SkOut σ) : Int × Bytes × List Call := (r.ret, r.dst, r.log)

/-- One-shot use of the primitive, as in the first half of the self-tests:
install the IV, then transform the whole message with one call. -/
def oneShot {σ : Type} (P : Primitive σ)
    (xform : Option σ → Bytes → Int × Option σ × Bytes) (aes : Option σ) (iv m : Bytes) : Bytes :=
  (xform (P.wc_AesSetIV aes iv).2 m).2.2

/-- The values of the fields of an AEAD result, for comparison. -/
def AeadOut.view {σ : Type} (r : AeadOut σ) : Int × Bytes × List Call := (r.ret, r.dst, r.log)

/-- A GCM encryption request whose two bytes of associated data lie in two
source segments: `a1` in the first (followed in memory by the byte `ff`), `a2`
at the start of the second, which also holds the two payload bytes. -/
def aadTwoSegments : aead_request where
  src := [⟨[0xa1], [0xff]⟩, ⟨[0xa2, 0x10, 0x11], []⟩]
  dst := [0, 0, 0, 0, 0, 0, 0, 0]
  assoclen := 2
  cryptlen := 2
  iv := testIv

/-- The decryption counterpart of `aadTwoSegments`: the second segment ends
with a 4-byte tag. -/
def aadTwoSegmentsTag : aead_request where
  src := [⟨[0xa1], [0xff]⟩, ⟨[0xa2, 0x10, 0x11, 0x01, 0x02, 0x03, 0x04], []⟩]
  dst := [0, 0, 0, 0]
  assoclen := 2
  cryptlen := 6
  iv := testIv

/-- A GCM decryption request with two bytes of associated data, two payload
bytes and a 4-byte tag in one source segment. -/
def aadPayloadTagOneSegment : aead_request where
  src := [⟨[0xa1, 0xa2, 0x10, 0x11, 0x01, 0x02, 0x03, 0x04], []⟩]
  dst := [0, 0, 0, 0]
  assoclen := 2
  cryptlen := 6
  iv := testIv

/-- A GCM encryption request with two bytes of associated data and two payload
bytes in one source segment, and a zero-filled destination buffer of its own. -/
def aadPayloadOneSegment : aead_request where
  src := [⟨[0xa1, 0xa2, 0x10, 0x11], []⟩]
  dst := [0, 0, 0, 0, 0, 0, 0, 0]
  assoclen := 2
  cryptlen := 2
  iv := testIv

/-- What a sequence of primitive calls yields: the result codes of the calls
in order, the object after the last call, the text produced by the payload
update, and the tag (the first `authsize` bytes that finalisation wrote). -/
structure GcmSeq (σ : Type) where
  codes : List Int
  aes : Option σ
  text : Bytes
  tag : Bytes

/-- The primitive's own encryption sequence, as in the first half of
`linuxkm_test_aesgcm`: init with the IV, update with the associated data,
update with the payload, final. -/
def gcmEncryptSeq {σ : Type} (P : Primitive σ) (aes : Option σ) (iv aad m : Bytes)
    (authsize : Nat) : GcmSeq σ :=
  let i := P.wc_AesGcmInit aes (iv.take AES_BLOCK_SIZE) AES_BLOCK_SIZE
  let a := P.wc_AesGcmEncryptUpdate i.2 [] 0 aad aad.length
  let u := P.wc_AesGcmEncryptUpdate a.2.1 m m.length [] 0
  let f := P.wc_AesGcmEncryptFinal u.2.1 authsize
  ⟨[i.1, a.1, u.1, f.1], f.2.1, u.2.2, f.2.2.take authsize⟩

/-- The primitive's own decryption sequence: init with the IV, update with the
associated data, update with the ciphertext, final with the tag to verify. -/
def gcmDecryptSeq {σ : Type} (P : Primitive σ) (aes : Option σ) (iv aad ct tag : Bytes)
    (authsize : Nat) : GcmSeq σ :=
  let i := P.wc_AesGcmInit aes (iv.take AES_BLOCK_SIZE) AES_BLOCK_SIZE
  let a := P.wc_AesGcmDecryptUpdate i.2 [] 0 aad aad.length
  let u := P.wc_AesGcmDecryptUpdate a.2.1 ct ct.length [] 0
  let f := P.wc_AesGcmDecryptFinal u.2.1 tag authsize
  ⟨[i.1, a.1, u.1, f.1], f.2, u.2.2, tag⟩

/-- Whether a recorded call failed: its result code is not 0, or the mapping
yielded an error pointer. -/
def Call.failed : Call → Bool
  | Call.walk_start e => decide (e ≠ 0)
  | Call.set_iv _ e => decide (e ≠ 0)
  | Call.transform _ e => decide (e ≠ 0)
  | Call.walk_done _ e => decide (e ≠ 0)
  | Call.gcm_init _ e => decide (e ≠ 0)
  | Call.map_assoc f => f
  | Call.gcm_aad _ _ e => decide (e ≠ 0)
  | Call.gcm_update _ _ _ _ e => decide (e ≠ 0)
  | Call.gcm_enc_final _ e => decide (e ≠ 0)
  | Call.gcm_dec_final _ e => decide (e ≠ 0)
  | Call.copy_tag _ _ => false

/-- The calls made inside the payload loop of the GCM entry points. -/
def Call.inLoop : Call → Bool
  | Call.gcm_update _ _ _ _ _ => true
  | Call.walk_done _ _ => true
  | _ => false

/-- Number of bytes that a walk has not committed yet (`walk.total`). -/
def skcipher_walk.total (w : skcipher_walk) : Nat :=
  (w.views.map List.length).sum

/-- The associated data of `linuxkm_test_aesgcm` (20 bytes). -/
def testAssoc : Bytes :=
  [0xfe, 0xed, 0xfa, 0xce, 0xde, 0xad, 0xbe, 0xef, 0xfe, 0xed, 0xfa, 0xce, 0xde, 0xad, 0xbe, 0xef,
   0xab, 0xad, 0xda, 0xd2]

/-- The 24-byte vector of `linuxkm_test_aesgcm`, "Now is the time for all ". -/
def gcmVector : Bytes :=
  [0x4e, 0x6f, 0x77, 0x20, 0x69, 0x73, 0x20, 0x74, 0x68, 0x65, 0x20, 0x74, 0x69, 0x6d, 0x65, 0x20,
   0x66, 0x6f, 0x72, 0x20, 0x61, 0x6c, 0x6c, 0x20]

/-- The encryption request of `linuxkm_test_aesgcm`: the source segments are
`assoc2` and `dec2`, the destination segments `assoc2` and the zero-filled
`enc2`. -/
def gcmTestEncrypt : aead_request where
  src := [⟨testAssoc, []⟩, ⟨gcmVector, []⟩]
  dst := testAssoc ++ List.replicate 40 0
  assoclen := 20
  cryptlen := 24
  iv := testIv

/-- What the stand-in primitive's own encryption sequence yields on the
self-test data with a 16-byte tag. -/
def gcmTestSeq : GcmSeq ToyAes :=
  gcmEncryptSeq (toyPrimitive linuxConsts) toyCtx.aes_encrypt testIv testAssoc gcmVector 16

/-- The decryption request of `linuxkm_test_aesgcm`, source and destination
swapped: the source is the associated data followed by ciphertext and tag. -/
def gcmTestDecrypt : aead_request where
  src := [⟨testAssoc, []⟩, ⟨gcmTestSeq.text ++ gcmTestSeq.tag, []⟩]
  dst := testAssoc ++ List.replicate 24 0
  assoclen := 20
  cryptlen := 40
  iv := testIv

/-- Further constants that the file uses by name only: wolfCrypt's `MEMORY_E`
and `AES_KAT_FIPS_E` (`error-crypt.h`), the kernel's `ENOKEY`, `ENOMEM` and
`ENOENT`, and `WOLFSSL_MIN_AUTH_TAG_SZ` (`aes.h`).  wolfCrypt error codes are
negative, `errno` constants positive. -/
structure WcConsts where
  MEMORY_E : Int
  AES_KAT_FIPS_E : Int
  ENOKEY : Int
  ENOMEM : Int
  ENOENT : Int
  WOLFSSL_MIN_AUTH_TAG_SZ : Nat
  MEMORY_E_neg : MEMORY_E < 0
  AES_KAT_FIPS_E_neg : AES_KAT_FIPS_E < 0
  ENOKEY_pos : 0 < ENOKEY
  ENOMEM_pos : 0 < ENOMEM
  ENOENT_pos : 0 < ENOENT

/-- The values of these constants in wolfCrypt and on Linux. -/
def linuxWc : WcConsts where
  MEMORY_E := -125
  AES_KAT_FIPS_E := -205
  ENOKEY := 126
  ENOMEM := 12
  ENOENT := 2
  WOLFSSL_MIN_AUTH_TAG_SZ := 12
  MEMORY_E_neg := by decide
  AES_KAT_FIPS_E_neg := by decide
  ENOKEY_pos := by decide
  ENOMEM_pos := by decide
  ENOENT_pos := by decide

/-- The key direction argument of the set-key entry points: `AES_ENCRYPTION`,
`AES_DECRYPTION`, `AES_ENCRYPTION_AND_DECRYPTION`. -/
inductive Dir where
  | AES_ENCRYPTION
  | AES_DECRYPTION
  | AES_ENCRYPTION_AND_DECRYPTION
  deriving DecidableEq

/-- The pointers of the context structures that hold a separately allocated object. -/
inductive Slot where
  | aes_encrypt
  | aes_decrypt
  | aesXts
  deriving DecidableEq

/-- Allocator and primitive calls of the lifecycle functions, recorded in the
order in which they happen: `malloc` for a slot and whether it succeeded, the
primitive's init on the object of a slot and its result, the primitive's free
(`wc_AesFree`, `wc_AesXtsFree`) and `free` of the memory of a slot. -/
inductive MemEvent where
  | malloc (s : Slot) (ok : Bool)
  | init (s : Slot) (err : Int)
  | wc_free (s : Slot)
  | free (s : Slot)
  deriving DecidableEq

/-- Behaviour of the allocator during one call: whether `malloc` for a slot
succeeds, and the content of the memory it returns. -/
structure Heap (σ : Type) where
  malloc_ok : Slot → Bool
  raw : Slot → σ

/-- The wolfCrypt entry points that set up an `Aes` object, over the type `σ`
of objects: `wc_AesInit(aes, NULL, INVALID_DEVID)` and
`wc_AesSetKey(aes, key, len, iv, dir)`, each returning its result code and the
object after the call; `wc_AesGcmSetKey(aes, key, len)`; and the result code
`BAD_FUNC_ARG` that an entry point returns when it is handed `NULL`. -/
structure AesLifecycle (σ : Type) where
  BAD_FUNC_ARG : Int
  wc_AesInit : σ → Int × σ
  wc_AesSetKey : σ → Bytes → Option Bytes → Dir → Int × σ
  wc_AesGcmSetKey : σ → Bytes → Int × σ

/-- The wolfCrypt entry points that set up an `XtsAes` object: `wc_AesXtsInit`
and `wc_AesXtsSetKeyNoInit(aes, key, len, dir)`. -/
structure XtsLifecycle (τ : Type) where
  BAD_FUNC_ARG : Int
  wc_AesXtsInit : τ → Int × τ
  wc_AesXtsSetKeyNoInit : τ → Bytes → Dir → Int × τ

/-- A call of an entry point through a pointer: `NULL` is answered with
`nullRet`, otherwise the entry point runs on the object behind the pointer. -/
def onObject {σ : Type} (nullRet : Int) (f : σ → Int × σ) : Option σ → Int × Option σ
  | none => (nullRet, none)
  | some a => ((f a).1, some (f a).2)

/-- `km_AesExitCommon`: the context after the call, and the calls made. -/
def km_AesExitCommon {σ : Type} (ctx : km_AesCtx σ) : km_AesCtx σ × List MemEvent :=
  let e : List MemEvent :=
    if ctx.aes_encrypt.isSome then [MemEvent.wc_free Slot.aes_encrypt, MemEvent.free Slot.aes_encrypt]
    else []
  let d : List MemEvent :=
    if ctx.aes_decrypt.isSome then [MemEvent.wc_free Slot.aes_decrypt, MemEvent.free Slot.aes_decrypt]
    else []
  (⟨none, none⟩, e ++ d)

/-- `km_AesInitCommon(ctx, name, need_decryption)`: the value returned, the
context after the call, and the calls made. -/
def km_AesInitCommon {σ : Type} (K : Consts) (W : WcConsts) (L : AesLifecycle σ) (H : Heap σ)
    (ctx : km_AesCtx σ) (need_decryption : Int) : Int × km_AesCtx σ × List MemEvent :=
  if H.malloc_ok Slot.aes_encrypt = false then
    (W.MEMORY_E, { ctx with aes_encrypt := none }, [MemEvent.malloc Slot.aes_encrypt false])
  else
    let r := L.wc_AesInit (H.raw Slot.aes_encrypt)
    let log1 := [MemEvent.malloc Slot.aes_encrypt true, MemEvent.init Slot.aes_encrypt r.1]
    if r.1 ≠ 0 then
      (-K.EINVAL, { ctx with aes_encrypt := none }, log1 ++ [MemEvent.free Slot.aes_encrypt])
    else if need_decryption = 0 then
      (0, ⟨some r.2, none⟩, log1)
    else if H.malloc_ok Slot.aes_decrypt = false then
      let x := km_AesExitCommon (⟨some r.2, none⟩ : km_AesCtx σ)
      (W.MEMORY_E, x.1, log1 ++ [MemEvent.malloc Slot.aes_decrypt false] ++ x.2)
    else
      let r2 := L.wc_AesInit (H.raw Slot.aes_decrypt)
      let log2 := log1 ++ [MemEvent.malloc Slot.aes_decrypt true, MemEvent.init Slot.aes_decrypt r2.1]
      if r2.1 ≠ 0 then
        let x := km_AesExitCommon (⟨some r.2, none⟩ : km_AesCtx σ)
        (-K.EINVAL, x.1, log2 ++ [MemEvent.free Slot.aes_decrypt] ++ x.2)
      else
        (0, ⟨some r.2, some r2.2⟩, log2)

/-- `km_AesSetKeyCommon`: the value returned and the context after the call. -/
def km_AesSetKeyCommon {σ : Type} (W : WcConsts) (L : AesLifecycle σ) (ctx : km_AesCtx σ)
    (in_key : Bytes) : Int × km_AesCtx σ :=
  let r := onObject L.BAD_FUNC_ARG (fun a => L.wc_AesSetKey a in_key none Dir.AES_ENCRYPTION)
    ctx.aes_encrypt
  if r.1 ≠ 0 then (-W.ENOKEY, ⟨r.2, ctx.aes_decrypt⟩)
  else
    if ctx.aes_decrypt.isSome then
      let r2 := onObject L.BAD_FUNC_ARG
        (fun a => L.wc_AesSetKey a in_key none Dir.AES_DECRYPTION) ctx.aes_decrypt
      if r2.1 ≠ 0 then (-W.ENOKEY, ⟨r.2, r2.2⟩) else (0, ⟨r.2, r2.2⟩)
    else (0, ⟨r.2, ctx.aes_decrypt⟩)

/-- `km_AesCbcInit`. -/
def km_AesCbcInit {σ : Type} (K : Consts) (W : WcConsts) (L : AesLifecycle σ) (H : Heap σ)
    (ctx : km_AesCtx σ) : Int × km_AesCtx σ × List MemEvent :=
  km_AesInitCommon K W L H ctx 1

/-- `km_AesCfbInit`. -/
def km_AesCfbInit {σ : Type} (K : Consts) (W : WcConsts) (L : AesLifecycle σ) (H : Heap σ)
    (ctx : km_AesCtx σ) : Int × km_AesCtx σ × List MemEvent :=
  km_AesInitCommon K W L H ctx 0

/-- `km_AesGcmInit`. -/
def km_AesGcmInit {σ : Type} (K : Consts) (W : WcConsts) (L : AesLifecycle σ) (H : Heap σ)
    (ctx : km_AesCtx σ) : Int × km_AesCtx σ × List MemEvent :=
  km_AesInitCommon K W L H ctx 0

/-- `km_AesCbcSetKey`. -/
def km_AesCbcSetKey {σ : Type} (W : WcConsts) (L : AesLifecycle σ) (ctx : km_AesCtx σ)
    (in_key : Bytes) : Int × km_AesCtx σ :=
  km_AesSetKeyCommon W L ctx in_key

/-- `km_AesCfbSetKey`. -/
def km_AesCfbSetKey {σ : Type} (W : WcConsts) (L : AesLifecycle σ) (ctx : km_AesCtx σ)
    (in_key : Bytes) : Int × km_AesCtx σ :=
  km_AesSetKeyCommon W L ctx in_key

/-- `km_AesGcmSetAuthsize`; `authsize` is an `unsigned int`. -/
def km_AesGcmSetAuthsize (K : Consts) (W : WcConsts) (authsize : Nat) : Int :=
  if authsize > AES_BLOCK_SIZE ∨ authsize < W.WOLFSSL_MIN_AUTH_TAG_SZ then -K.EINVAL else 0

/-- `km_AesXtsInitCommon`: the value returned, the context after the call, and
the calls made. -/
def km_AesXtsInitCommon {τ : Type} (K : Consts) (W : WcConsts) (L : XtsLifecycle τ) (H : Heap τ)
    (_ctx : km_AesXtsCtx τ) : Int × km_AesXtsCtx τ × List MemEvent :=
  if H.malloc_ok Slot.aesXts = false then
    (-W.MEMORY_E, ⟨none⟩, [MemEvent.malloc Slot.aesXts false])
  else
    let r := L.wc_AesXtsInit (H.raw Slot.aesXts)
    let log1 := [MemEvent.malloc Slot.aesXts true, MemEvent.init Slot.aesXts r.1]
    if r.1 ≠ 0 then (-K.EINVAL, ⟨some r.2⟩, log1)
    else (0, ⟨some r.2⟩, log1)

/-- `km_AesXtsInit`. -/
def km_AesXtsInit {τ : Type} (K : Consts) (W : WcConsts) (L : XtsLifecycle τ) (H : Heap τ)
    (ctx : km_AesXtsCtx τ) : Int × km_AesXtsCtx τ × List MemEvent :=
  km_AesXtsInitCommon K W L H ctx

/-- `km_AesXtsExit`: `wc_AesXtsFree`, `free`, and the pointer set to `NULL`,
without a test of the pointer. -/
def km_AesXtsExit {τ : Type} (_ctx : km_AesXtsCtx τ) : km_AesXtsCtx τ × List MemEvent :=
  (⟨none⟩, [MemEvent.wc_free Slot.aesXts, MemEvent.free Slot.aesXts])

/-- `km_AesXtsSetKey`: the value returned and the context after the call. -/
def km_AesXtsSetKey {τ : Type} (K : Consts) (L : XtsLifecycle τ) (ctx : km_AesXtsCtx τ)
    (in_key : Bytes) : Int × km_AesXtsCtx τ :=
  let r := onObject L.BAD_FUNC_ARG
    (fun a => L.wc_AesXtsSetKeyNoInit a in_key Dir.AES_ENCRYPTION_AND_DECRYPTION) ctx.aesXts
  if r.1 ≠ 0 then (-K.EINVAL, ⟨r.2⟩) else (0, ⟨r.2⟩)

/-- Number of times that the memory of slot `s` is given back in a record of calls. -/
def freeCount (s : Slot) (log : List MemEvent) : Nat :=
  log.count (MemEvent.free s)

/-- Number of successful allocations for slot `s` in a record of calls. -/
def mallocCount (s : Slot) (log : List MemEvent) : Nat :=
  log.count (MemEvent.malloc s true)

/-- A context whose pointers are all `NULL`, as the kernel hands it to the
init function. -/
def km_AesCtx.null {σ : Type} : km_AesCtx σ := ⟨none, none⟩

/-- The set-up entry points of the stand-in primitive: init clears the object,
set-key accepts keys of 16, 24 and 32 bytes and installs the IV if one is given. -/
def toyLifecycle : AesLifecycle ToyAes where
  BAD_FUNC_ARG := -173
  wc_AesInit := fun _ => (0, ⟨[], [], 0, [], []⟩)
  wc_AesSetKey := fun a key iv _ =>
    if key.length = 16 ∨ key.length = 24 ∨ key.length = 32 then (0, { a with reg := iv.getD a.reg })
    else (-173, a)
  wc_AesGcmSetKey := fun a key =>
    if key.length = 16 ∨ key.length = 24 ∨ key.length = 32 then (0, a) else (-173, a)

/-- The set-up entry points of the stand-in XTS primitive, whose object is a
key byte: set-key accepts keys of 32 and 64 bytes and keeps the first byte. -/
def toyXtsLifecycle : XtsLifecycle Nat where
  BAD_FUNC_ARG := -173
  wc_AesXtsInit := fun _ => (0, 0)
  wc_AesXtsSetKeyNoInit := fun a key _ =>
    if key.length = 32 ∨ key.length = 64 then (0, key.headD 0) else (-173, a)

/-- An XTS set-up whose init entry point fails with `BAD_FUNC_ARG`. -/
def failingXtsInit : XtsLifecycle Nat where
  BAD_FUNC_ARG := -173
  wc_AesXtsInit := fun a => (-173, a)
  wc_AesXtsSetKeyNoInit := fun a _ _ => (0, a)

/-- An allocator on which every `malloc` succeeds and returns zeroed memory. -/
def toyHeap : Heap ToyAes where
  malloc_ok := fun _ => true
  raw := fun _ => ⟨[], [], 0, [], []⟩

/-- An allocator for XTS objects on which every `malloc` succeeds. -/
def toyXtsHeap : Heap Nat where
  malloc_ok := fun _ => true
  raw := fun _ => 0

/-- The 32-byte key of the CBC, CFB and GCM self-tests. -/
def key32 : Bytes :=
  [0x30, 0x31, 0x32, 0x33, 0x34, 0x35, 0x36, 0x37, 0x38, 0x39, 0x61, 0x62, 0x63, 0x64, 0x65, 0x66,
   0x30, 0x31, 0x32, 0x33, 0x34, 0x35, 0x36, 0x37, 0x38, 0x39, 0x61, 0x62, 0x63, 0x64, 0x65, 0x66]

/-- A transport whose walk fails to start with the error `e`. -/
def Transport.startFails (e : Int) : Transport where
  start_err := e
  done_err := fun _ => 0
  map_err := false
  split := []

/-- The primitive calls of the CBC, CFB and XTS engines: installing the IV and
transforming a view. -/
def Call.isPrimitive : Call → Bool
  | Call.set_iv _ _ => true
  | Call.transform _ _ => true
  | _ => false

/-- Every recorded call except the last one succeeded: nothing was called
after a call that failed. -/
def noCallAfterFailure : List Call → Bool
  | [] => true
  | [_] => true
  | c :: rest => !c.failed && noCallAfterFailure rest

/-- What an engine run does about a failing primitive call: no call follows a
failed call, and if the last call is a primitive call that failed the value
returned is `-EINVAL`. -/
def StopsAtPrimitiveFailure (K : Consts) (ret : Int) (log : List Call) : Prop :=
  noCallAfterFailure log = true ∧
  ∀ c, log.getLast? = some c → c.isPrimitive = true → c.failed = true → ret = -K.EINVAL

/-! ## Self-tests -/

/-- Modelled from the spec: `XMEMCMP(a, b, n)`, the byte comparison of the
self-tests (`memcmp`): 0 when the first `n` bytes agree, otherwise the
difference of the first pair of bytes that differ. -/
def XMEMCMP : Bytes → Bytes → Nat → Int
  | _, _, 0 => 0
  | a, b, n + 1 =>
    if a.headD 0 = b.headD 0 then XMEMCMP a.tail b.tail n
    else (a.headD 0 : Int) - (b.headD 0 : Int)

/-- Modelled from the spec: `IS_ERR` of the kernel (`linux/err.h`) on a pointer
that carries the value `e`: true exactly for the values `-4095 .. -1`.  `NULL`
(0) is not an error pointer. -/
def IS_ERR (e : Int) : Bool := decide (-4095 ≤ e ∧ e < 0)

/-- The separately allocated memory of the self-tests. -/
inductive TestBuf where
  | aes
  | buf
  | cipher
  | large_input
  | enc2
  | dec2
  | src
  | dst
  deriving DecidableEq

/-- Steps of the kernel part of a self-test, recorded in the order in which
they happen: a byte comparison and its result, an allocation with the capacity
asked for and whether it succeeded, an access of `len` bytes from the start of
a buffer of capacity `cap` (by `memcpy`, `memset`, the comparison, or the
request that is handed the buffer as source or destination), the allocation of
the transform handle with the error carried by the pointer returned (0 for a
valid handle), `crypto_skcipher_setkey`, the allocation of the request, and
`crypto_skcipher_encrypt` / `crypto_skcipher_decrypt` with their results. -/
inductive TestStep where
  | compare (ret : Int)
  | alloc (b : TestBuf) (cap : Nat) (ok : Bool)
  | access (b : TestBuf) (cap : Nat) (len : Nat)
  | alloc_tfm (err : Int)
  | setkey (ret : Int)
  | alloc_req (ok : Bool)
  | encrypt (ret : Int)
  | decrypt (ret : Int)
  deriving DecidableEq

/-- How a self-test run ends: it returns a value; or it dereferences a pointer
that is `NULL` or an error value that `IS_ERR` let through; or an engine ran
out of fuel. -/
inductive TestRun where
  | returned (ret : Int) (log : List TestStep)
  | bad_pointer (log : List TestStep)
  | out_of_fuel
  deriving DecidableEq

/-- What a self-test finds around it: which allocations succeed and what the
fresh memory holds; the error with which the kernel's lookup of the algorithm
fails (0: found); whether the implementation found for a generic name is this
driver; whether the request can be allocated; the build options
`WOLFSSL_SMALL_STACK` (with `malloc`) and `HAVE_FIPS`; the allocator seen by
the algorithm's init function; the content of the memory of the test's own
cipher object before `wc_AesInit`; and what `wc_AesFree` leaves in an object. -/
structure TestEnv (σ : Type) where
  alloc_ok : TestBuf → Bool
  raw : TestBuf → Bytes
  tfm_err : Int
  driver_ok : Bool
  req_ok : Bool
  small_stack : Bool
  have_fips : Bool
  heap : Heap σ
  object : σ
  wc_free : σ → σ

/-- The content of a buffer of `cap` bytes as the allocator hands it out. -/
def TestEnv.fresh {σ : Type} (E : TestEnv σ) (b : TestBuf) (cap : Nat) : Bytes :=
  (E.raw b ++ List.replicate cap 0).take cap

/-- Modelled from the spec: `crypto_alloc_skcipher`.  The kernel looks the
algorithm up, creates a handle whose context is zeroed and runs the
descriptor's `init` on it; when the lookup or `init` fails with the code `e`
the pointer returned is `ERR_PTR(e)`.  The result is the value carried by the
pointer (0 for a valid handle) and the context. -/
def crypto_alloc_skcipher {σ γ : Type} (E : TestEnv σ) (null : γ)
    (init : γ → Int × γ × List MemEvent) : Int × γ :=
  if E.tfm_err ≠ 0 then (E.tfm_err, null)
  else ((init null).1, (init null).2.1)

/-- `linuxkm_test_aescbc`.  The first half runs the primitive on the test's
own `Aes` object; the kernel part allocates `enc2` and `dec2`, obtains a
handle for the driver, sets the key and sends the vector through
`km_AesCbcEncrypt` and `km_AesCbcDecrypt` (`crypto_skcipher_encrypt` and
`crypto_skcipher_decrypt` on the driver's handle).  The releases at
`test_cbc_end` do not change the value returned and are left out. -/
def linuxkm_test_aescbc {σ : Type} (K : Consts) (W : WcConsts) (P : Primitive σ)
    (L : AesLifecycle σ) (E : TestEnv σ) (T : Transport) (fuel : Nat) : TestRun :=
  let r1 := L.wc_AesInit E.object
  if r1.1 ≠ 0 then TestRun.returned r1.1 [] else
  let r2 := L.wc_AesSetKey r1.2 key32 (some testIv) Dir.AES_ENCRYPTION
  if r2.1 ≠ 0 then TestRun.returned r2.1 [] else
  let r3 := P.wc_AesCbcEncrypt (some r2.2) testVector
  let enc := writeAt (List.replicate 32 0) 0 r3.2.2
  if r3.1 ≠ 0 then TestRun.returned r3.1 [] else
  let r4 := L.wc_AesInit (E.wc_free (r3.2.1.getD r2.2))
  if r4.1 ≠ 0 then TestRun.returned r4.1 [] else
  let r5 := L.wc_AesSetKey r4.2 key32 (some testIv) Dir.AES_DECRYPTION
  if r5.1 ≠ 0 then TestRun.returned r5.1 [] else
  let r6 := P.wc_AesCbcDecrypt (some r5.2) (enc.take 32)
  let dec := writeAt (List.replicate 32 0) 0 r6.2.2
  if r6.1 ≠ 0 then TestRun.returned r6.1 [] else
  let ret := XMEMCMP testVector dec 32
  let log0 := [TestStep.compare ret]
  if ret ≠ 0 then TestRun.returned ret log0 else
  let log1 := log0 ++ [TestStep.alloc TestBuf.enc2 32 (E.alloc_ok TestBuf.enc2)]
  if E.alloc_ok TestBuf.enc2 = false then TestRun.returned ret log1 else
  let log2 := log1 ++ [TestStep.alloc TestBuf.dec2 32 (E.alloc_ok TestBuf.dec2)]
  if E.alloc_ok TestBuf.dec2 = false then TestRun.returned ret log2 else
  let dec2 := writeAt (E.fresh TestBuf.dec2 32) 0 testVector
  let tfm := crypto_alloc_skcipher E km_AesCtx.null (km_AesCbcInit K W L E.heap)
  let log3 := log2 ++ [TestStep.access TestBuf.dec2 32 32, TestStep.alloc_tfm tfm.1]
  if IS_ERR tfm.1 = true then TestRun.returned ret log3 else
  if tfm.1 ≠ 0 then TestRun.bad_pointer log3 else
  let k := km_AesCbcSetKey W L tfm.2 key32
  let log4 := log3 ++ [TestStep.setkey k.1]
  if k.1 ≠ 0 then TestRun.returned k.1 log4 else
  let log5 := log4 ++ [TestStep.alloc_req E.req_ok]
  if E.req_ok = false then TestRun.bad_pointer log5 else
  match km_AesCbcEncrypt K P T fuel k.2 ⟨dec2.take 32, testIv⟩ with
  | none => TestRun.out_of_fuel
  | some e =>
    let enc2 := writeAt (E.fresh TestBuf.enc2 32) 0 e.dst
    let log6 := log5 ++ [TestStep.access TestBuf.dec2 32 32, TestStep.access TestBuf.enc2 32 32,
      TestStep.encrypt e.ret]
    if e.ret ≠ 0 then TestRun.returned e.ret log6 else
    let ret1 := XMEMCMP enc enc2 32
    let log7 := log6 ++ [TestStep.access TestBuf.enc2 32 32, TestStep.compare ret1]
    if ret1 ≠ 0 then TestRun.returned ret1 log7 else
    let dec2z := writeAt dec2 0 (List.replicate 32 0)
    match km_AesCbcDecrypt K P T fuel e.ctx ⟨enc2.take 32, testIv⟩ with
    | none => TestRun.out_of_fuel
    | some d =>
      let dec2d := writeAt dec2z 0 d.dst
      let log8 := log7 ++ [TestStep.access TestBuf.dec2 32 32, TestStep.access TestBuf.enc2 32 32,
        TestStep.access TestBuf.dec2 32 32, TestStep.decrypt d.ret]
      if d.ret ≠ 0 then TestRun.returned d.ret log8 else
      let ret2 := XMEMCMP dec dec2d 32
      TestRun.returned ret2 (log8 ++ [TestStep.access TestBuf.dec2 32 32, TestStep.compare ret2])

/-- Surroundings in which every allocation and lookup succeeds. -/
def toyEnv : TestEnv ToyAes where
  alloc_ok := fun _ => true
  raw := fun _ => []
  tfm_err := 0
  driver_ok := true
  req_ok := true
  small_stack := true
  have_fips := false
  heap := toyHeap
  object := ⟨[], [], 0, [], []⟩
  wc_free := fun a => a

/-- Whether a record of steps contains a call of `crypto_skcipher_encrypt` or
`crypto_skcipher_decrypt`. -/
def ranTransport (log : List TestStep) : Bool :=
  log.any fun s =>
    match s with
    | TestStep.encrypt _ => true
    | TestStep.decrypt _ => true
    | _ => false

/-- The key `k1` of `aes_xts_128_test` (32 bytes). -/
def aes_xts_128_test.k1 : Bytes :=
  [0xa1, 0xb9, 0x0c, 0xba, 0x3f, 0x06, 0xac, 0x35, 0x3b, 0x2c, 0x34, 0x38, 0x76, 0x08, 0x17, 0x62,
   0x09, 0x09, 0x23, 0x02, 0x6e, 0x91, 0x77, 0x18, 0x15, 0xf2, 0x9d, 0xab, 0x01, 0x93, 0x2f, 0x2f]

/-- The tweak `i1`. -/
def aes_xts_128_test.i1 : Bytes :=
  [0x4f, 0xae, 0xf7, 0x11, 0x7c, 0xda, 0x59, 0xc6, 0x6e, 0x4b, 0x92, 0x01, 0x3e, 0x76, 0x8a, 0xd5]

/-- The plaintext `p1` (16 bytes). -/
def aes_xts_128_test.p1 : Bytes :=
  [0xeb, 0xab, 0xce, 0x95, 0xb1, 0x4d, 0x3c, 0x8d, 0x6f, 0xb3, 0x50, 0x39, 0x07, 0x90, 0x31, 0x1c]

/-- The plaintext `pp` with a partial block (24 bytes). -/
def aes_xts_128_test.pp : Bytes :=
  [0xeb, 0xab, 0xce, 0x95, 0xb1, 0x4d, 0x3c, 0x8d, 0x6f, 0xb3, 0x50, 0x39, 0x07, 0x90, 0x31, 0x1c,
   0x6e, 0x4b, 0x92, 0x01, 0x3e, 0x76, 0x8a, 0xd5]

/-- The ciphertext `c1`. -/
def aes_xts_128_test.c1 : Bytes :=
  [0x77, 0x8a, 0xe8, 0xb4, 0x3c, 0xb9, 0x8d, 0x5a, 0x82, 0x50, 0x81, 0xd5, 0xbe, 0x47, 0x1c, 0x63]

/-- The ciphertext `cp` of `pp`. -/
def aes_xts_128_test.cp : Bytes :=
  [0x2b, 0xf7, 0x2c, 0xf3, 0xeb, 0x85, 0xef, 0x7b, 0x0b, 0x76, 0xa0, 0xaa, 0xf3, 0x3f, 0x25, 0x8b,
   0x77, 0x8a, 0xe8, 0xb4, 0x3c, 0xb9, 0x8d, 0x5a]

/-- The key `k2`. -/
def aes_xts_128_test.k2 : Bytes :=
  [0x39, 0x25, 0x79, 0x05, 0xdf, 0xcc, 0x77, 0x76, 0x6c, 0x87, 0x0a, 0x80, 0x6a, 0x60, 0xe3, 0xc0,
   0x93, 0xd1, 0x2a, 0xcf, 0xcb, 0x51, 0x42, 0xfa, 0x09, 0x69, 0x89, 0x62, 0x5b, 0x60, 0xdb, 0x16]

/-- The tweak `i2`. -/
def aes_xts_128_test.i2 : Bytes :=
  [0x5c, 0xf7, 0x9d, 0xb6, 0xc5, 0xcd, 0x99, 0x1a, 0x1c, 0x78, 0x81, 0x42, 0x24, 0x95, 0x1e, 0x84]

/-- The plaintext `p2` (32 bytes). -/
def aes_xts_128_test.p2 : Bytes :=
  [0xbd, 0xc5, 0x46, 0x8f, 0xbc, 0x8d, 0x50, 0xa1, 0x0d, 0x1c, 0x85, 0x7f, 0x79, 0x1c, 0x5c, 0xba,
   0xb3, 0x81, 0x0d, 0x0d, 0x73, 0xcf, 0x8f, 0x20, 0x46, 0xb1, 0xd1, 0x9e, 0x7d, 0x5d, 0x8a, 0x56]

/-- The ciphertext `c2`. -/
def aes_xts_128_test.c2 : Bytes :=
  [0xd6, 0xbe, 0x04, 0x6d, 0x41, 0xf2, 0x3b, 0x5e, 0xd7, 0x0b, 0x6b, 0x3d, 0x5c, 0x8e, 0x66, 0x23,
   0x2b, 0xe6, 0xb8, 0x07, 0xd4, 0xdc, 0xc6, 0x0e, 0xff, 0x8d, 0xbc, 0x1d, 0x9f, 0x7f, 0xc8, 0x22]

/-- The key `k3` of the in-place test. -/
def aes_xts_128_test.k3 : Bytes :=
  [0x20, 0x20, 0x20, 0x20, 0x20, 0x20, 0x20, 0x20, 0x20, 0x20, 0x20, 0x20, 0x20, 0x20, 0x20, 0x20,
   0x20, 0x20, 0x20, 0x20, 0x20, 0x20, 0x20, 0x20, 0x20, 0x20, 0x20, 0x20, 0x20, 0x20, 0x20, 0x20]

/-- The tweak `i3`. -/
def aes_xts_128_test.i3 : Bytes :=
  [0x20, 0x20, 0x20, 0x20, 0x20, 0x20, 0x20, 0x20, 0x20, 0x20, 0x20, 0x20, 0x20, 0x20, 0x20, 0x20]

/-- The plaintext `p3` (40 bytes). -/
def aes_xts_128_test.p3 : Bytes :=
  [0x20, 0x20, 0x20, 0x20, 0x20, 0x20, 0x20, 0x20, 0x20, 0x20, 0x20, 0x20, 0x20, 0x20, 0x20, 0x20,
   0x20, 0x20, 0x20, 0x20, 0x20, 0x20, 0x20, 0x20, 0x20, 0xff, 0x20, 0x20, 0x20, 0x20, 0x20, 0x20,
   0x20, 0x20, 0x20, 0x20, 0x20, 0x20, 0x20, 0x20]

/-- The ciphertext `c3`. -/
def aes_xts_128_test.c3 : Bytes :=
  [0xa2, 0x07, 0x47, 0x76, 0x3f, 0xec, 0x0c, 0x23, 0x1b, 0xd0, 0xbd, 0x46, 0x9a, 0x27, 0x38, 0x12,
   0x95, 0x02, 0x3d, 0x5d, 0xc6, 0x94, 0x51, 0x36, 0xa0, 0x85, 0xd2, 0x69, 0x6e, 0x87, 0x0a, 0xbf,
   0xb5, 0x5a, 0xdd, 0xcb, 0x80, 0xe0, 0xfc, 0xcd]

/-- `AES_XTS_128_TEST_BUF_SIZ`, the size of `buf` and `cipher`. -/
def AES_XTS_128_TEST_BUF_SIZ : Nat := AES_BLOCK_SIZE * 2 + 8

/-- `LARGE_XTS_SZ`. -/
def LARGE_XTS_SZ : Nat := 1024

/-- Where a part of a self-test leaves off: `ERROR_OUT(ret, out)` with the
value to return, or control reaches the next part. -/
inductive Stage (α : Type) where
  | exit (ret : Int)
  | next (a : α)
  deriving DecidableEq

/-- First part of `aes_xts_128_test`, up to the in-place test: the known-answer
tests on the test's own `XtsAes` object, with `OPENSSL_EXTRA`,
`WOLFSSL_ASYNC_CRYPT` and `DEBUG_VECTOR_REGISTER_ACCESS` not defined.  `buf`
and `cipher` are zeroed before each output is written to them.  The result
carries the object as the last set-key left it, and `buf`. -/
def aes_xts_128_test.kat {τ : Type} (W : WcConsts) (X : XtsPrimitive τ) (L : XtsLifecycle τ)
    (E : TestEnv τ) : Stage (τ × Bytes) :=
  let zero := List.replicate AES_XTS_128_TEST_BUF_SIZ 0
  if E.small_stack = true ∧ E.alloc_ok TestBuf.aes = false then Stage.exit W.MEMORY_E else
  if E.alloc_ok TestBuf.buf = false then Stage.exit W.MEMORY_E else
  if E.alloc_ok TestBuf.cipher = false then Stage.exit W.MEMORY_E else
  let a0 := L.wc_AesXtsInit E.object
  if a0.1 ≠ 0 then Stage.exit a0.1 else
  let a1 := L.wc_AesXtsSetKeyNoInit a0.2 aes_xts_128_test.k2 Dir.AES_ENCRYPTION
  if a1.1 ≠ 0 then Stage.exit a1.1 else
  let e2 := X.wc_AesXtsEncrypt (some a1.2) aes_xts_128_test.p2 aes_xts_128_test.i2
  if e2.1 ≠ 0 then Stage.exit e2.1 else
  if XMEMCMP aes_xts_128_test.c2 (writeAt zero 0 e2.2) 32 ≠ 0 then
    Stage.exit W.AES_KAT_FIPS_E else
  let a2 := L.wc_AesXtsSetKeyNoInit a1.2 aes_xts_128_test.k1 Dir.AES_ENCRYPTION
  if a2.1 ≠ 0 then Stage.exit a2.1 else
  let e1 := X.wc_AesXtsEncrypt (some a2.2) aes_xts_128_test.p1 aes_xts_128_test.i1
  if e1.1 ≠ 0 then Stage.exit e1.1 else
  if XMEMCMP aes_xts_128_test.c1 (writeAt zero 0 e1.2) AES_BLOCK_SIZE ≠ 0 then
    Stage.exit W.AES_KAT_FIPS_E else
  let ep := X.wc_AesXtsEncrypt (some a2.2) aes_xts_128_test.pp aes_xts_128_test.i1
  let cipher := writeAt zero 0 ep.2
  if ep.1 ≠ 0 then Stage.exit ep.1 else
  if XMEMCMP aes_xts_128_test.cp cipher 24 ≠ 0 then Stage.exit W.AES_KAT_FIPS_E else
  let a3 := L.wc_AesXtsSetKeyNoInit a2.2 aes_xts_128_test.k1 Dir.AES_DECRYPTION
  if a3.1 ≠ 0 then Stage.exit a3.1 else
  let dp := X.wc_AesXtsDecrypt (some a3.2) (cipher.take 24) aes_xts_128_test.i1
  if dp.1 ≠ 0 then Stage.exit dp.1 else
  if XMEMCMP aes_xts_128_test.pp (writeAt zero 0 dp.2) 24 ≠ 0 then
    Stage.exit W.AES_KAT_FIPS_E else
  let d1 := X.wc_AesXtsDecrypt (some a3.2) aes_xts_128_test.c1 aes_xts_128_test.i1
  if d1.1 ≠ 0 then Stage.exit d1.1 else
  if XMEMCMP aes_xts_128_test.p1 (writeAt zero 0 d1.2) AES_BLOCK_SIZE ≠ 0 then
    Stage.exit W.AES_KAT_FIPS_E else
  let dw := X.wc_AesXtsDecrypt (some a3.2) aes_xts_128_test.c2 aes_xts_128_test.i2
  if dw.1 ≠ 0 then Stage.exit dw.1 else
  if XMEMCMP aes_xts_128_test.p2 (writeAt zero 0 dw.2) 32 = 0 then
    Stage.exit W.AES_KAT_FIPS_E else
  let a4 := L.wc_AesXtsSetKeyNoInit a3.2 aes_xts_128_test.k2 Dir.AES_DECRYPTION
  if a4.1 ≠ 0 then Stage.exit a4.1 else
  let d2 := X.wc_AesXtsDecrypt (some a4.2) aes_xts_128_test.c2 aes_xts_128_test.i2
  if d2.1 ≠ 0 then Stage.exit d2.1 else
  if XMEMCMP aes_xts_128_test.p2 (writeAt zero 0 d2.2) 32 ≠ 0 then
    Stage.exit W.AES_KAT_FIPS_E else
  Stage.next (a4.2, writeAt zero 0 d2.2)

/-- Second part of `aes_xts_128_test`, compiled when `HAVE_FIPS` is not
defined: ciphertext stealing in place, on `buf` as the last test left it. -/
def aes_xts_128_test.in_place {τ : Type} (W : WcConsts) (X : XtsPrimitive τ)
    (L : XtsLifecycle τ) (a : τ) (buf : Bytes) : Stage τ :=
  let buf0 := writeAt buf 0 aes_xts_128_test.p3
  let a5 := L.wc_AesXtsSetKeyNoInit a aes_xts_128_test.k3 Dir.AES_ENCRYPTION
  if a5.1 ≠ 0 then Stage.exit a5.1 else
  let e3 := X.wc_AesXtsEncrypt (some a5.2) (buf0.take 40) aes_xts_128_test.i3
  let buf1 := writeAt buf0 0 e3.2
  if e3.1 ≠ 0 then Stage.exit e3.1 else
  if XMEMCMP aes_xts_128_test.c3 buf1 40 ≠ 0 then Stage.exit W.AES_KAT_FIPS_E else
  let a6 := L.wc_AesXtsSetKeyNoInit a5.2 aes_xts_128_test.k3 Dir.AES_DECRYPTION
  if a6.1 ≠ 0 then Stage.exit a6.1 else
  let d3 := X.wc_AesXtsDecrypt (some a6.2) (buf1.take 40) aes_xts_128_test.i3
  let buf2 := writeAt buf1 0 d3.2
  if d3.1 ≠ 0 then Stage.exit d3.1 else
  if XMEMCMP aes_xts_128_test.p3 buf2 40 ≠ 0 then Stage.exit W.AES_KAT_FIPS_E else
  Stage.next a6.2

/-- The loop `for (j = 16; j < (int)LARGE_XTS_SZ; j++)` of `aes_xts_128_test`:
`n` iterations from `j` on.  Each encrypts and decrypts the first `j` bytes of
`large_input` in place and compares them with the bytes `(byte)i`. -/
def aes_xts_128_test.large_loop {τ : Type} (W : WcConsts) (X : XtsPrimitive τ)
    (L : XtsLifecycle τ) : Nat → Nat → τ → Bytes → Stage (τ × Bytes)
  | 0, _, a, large_input => Stage.next (a, large_input)
  | n + 1, j, a, large_input =>
    let s1 := L.wc_AesXtsSetKeyNoInit a aes_xts_128_test.k1 Dir.AES_ENCRYPTION
    if s1.1 ≠ 0 then Stage.exit s1.1 else
    let e := X.wc_AesXtsEncrypt (some s1.2) (large_input.take j) aes_xts_128_test.i1
    let large1 := writeAt large_input 0 e.2
    if e.1 ≠ 0 then Stage.exit e.1 else
    let s2 := L.wc_AesXtsSetKeyNoInit s1.2 aes_xts_128_test.k1 Dir.AES_DECRYPTION
    if s2.1 ≠ 0 then Stage.exit s2.1 else
    let d := X.wc_AesXtsDecrypt (some s2.2) (large1.take j) aes_xts_128_test.i1
    let large2 := writeAt large1 0 d.2
    if d.1 ≠ 0 then Stage.exit d.1 else
    if (List.range j).all (fun i => decide (large2.getD i 0 = i % 256)) = false then
      Stage.exit W.AES_KAT_FIPS_E
    else aes_xts_128_test.large_loop W X L n (j + 1) s2.2 large2

/-- Third part of `aes_xts_128_test`: `large_input` is filled with the bytes
`(byte)i` and run through the loop for `j = 16 .. LARGE_XTS_SZ - 1`. -/
def aes_xts_128_test.large {τ : Type} (W : WcConsts) (X : XtsPrimitive τ) (L : XtsLifecycle τ)
    (E : TestEnv τ) (a : τ) : Stage τ :=
  if E.small_stack = true ∧ E.alloc_ok TestBuf.large_input = false then
    Stage.exit W.MEMORY_E
  else
    match aes_xts_128_test.large_loop W X L (LARGE_XTS_SZ - 16) 16 a
        ((List.range LARGE_XTS_SZ).map fun i => i % 256) with
    | Stage.exit e => Stage.exit e
    | Stage.next r => Stage.next r.1

/-- The kernel part of `aes_xts_128_test`.  `enc2` and `dec2` are allocated
with `sizeof(p1)` = 16 bytes; the capacity recorded for `src` and `dst` counts
scatterlist entries.  The handle is obtained by the generic name, so the
driver name is compared; its context is the one that `km_AesXtsInit` set up,
and `crypto_skcipher_setkey`, `crypto_skcipher_encrypt` and
`crypto_skcipher_decrypt` arrive at `km_AesXtsSetKey`, `km_AesXtsEncrypt` and
`km_AesXtsDecrypt`.  A buffer is a list of bytes from its first byte on: bytes
stored past the capacity are kept with the buffer, and every access is
recorded together with the capacity.  The releases at `test_xts_end` and
`out` do not change the value returned and are left out. -/
def aes_xts_128_test.lkcapi {τ : Type} (K : Consts) (W : WcConsts) (X : XtsPrimitive τ)
    (L : XtsLifecycle τ) (E : TestEnv τ) (T : Transport) (fuel : Nat) : TestRun :=
  let log1 := [TestStep.alloc TestBuf.enc2 16 (E.alloc_ok TestBuf.enc2)]
  if E.alloc_ok TestBuf.enc2 = false then TestRun.returned (-W.ENOMEM) log1 else
  let log2 := log1 ++ [TestStep.alloc TestBuf.dec2 16 (E.alloc_ok TestBuf.dec2)]
  if E.alloc_ok TestBuf.dec2 = false then TestRun.returned (-W.ENOMEM) log2 else
  let log3 := log2 ++ [TestStep.alloc TestBuf.src 2 (E.alloc_ok TestBuf.src)]
  if E.alloc_ok TestBuf.src = false then TestRun.returned (-W.ENOMEM) log3 else
  let log4 := log3 ++ [TestStep.alloc TestBuf.dst 2 (E.alloc_ok TestBuf.dst)]
  if E.alloc_ok TestBuf.dst = false then TestRun.returned (-W.ENOMEM) log4 else
  let tfm := crypto_alloc_skcipher E (⟨none⟩ : km_AesXtsCtx τ) (km_AesXtsInit K W L E.heap)
  let log5 := log4 ++ [TestStep.alloc_tfm tfm.1]
  if IS_ERR tfm.1 = true then TestRun.returned tfm.1 log5 else
  if tfm.1 ≠ 0 then TestRun.bad_pointer log5 else
  if E.driver_ok = false then TestRun.returned (-W.ENOENT) log5 else
  if (AES_BLOCK_SIZE : Int) ≠ 16 then TestRun.returned (-K.EINVAL) log5 else
  let k := km_AesXtsSetKey K L tfm.2 aes_xts_128_test.k1
  let log6 := log5 ++ [TestStep.setkey k.1]
  if k.1 ≠ 0 then TestRun.returned k.1 log6 else
  let dec2a := writeAt (E.fresh TestBuf.dec2 16) 0 aes_xts_128_test.p1
  let enc2a := writeAt (E.fresh TestBuf.enc2 16) 0 (List.replicate 16 0)
  let log7 := log6 ++ [TestStep.alloc_req E.req_ok, TestStep.access TestBuf.dec2 16 16,
    TestStep.access TestBuf.enc2 16 16]
  if E.req_ok = false then TestRun.bad_pointer log7 else
  match km_AesXtsEncrypt K X T fuel k.2 ⟨dec2a.take 16, aes_xts_128_test.i1⟩ with
  | none => TestRun.out_of_fuel
  | some r1 =>
    let enc2b := writeAt enc2a 0 r1.dst
    let log8 := log7 ++ [TestStep.access TestBuf.dec2 16 16, TestStep.access TestBuf.enc2 16 16,
      TestStep.encrypt r1.ret]
    if r1.ret ≠ 0 then TestRun.returned r1.ret log8 else
    let m1 := XMEMCMP aes_xts_128_test.c1 enc2b 16
    let log9 := log8 ++ [TestStep.access TestBuf.enc2 16 16, TestStep.compare m1]
    if m1 ≠ 0 then TestRun.returned (-K.EINVAL) log9 else
    let dec2b := writeAt dec2a 0 (List.replicate 16 0)
    match km_AesXtsDecrypt K X T fuel k.2 ⟨enc2b.take 16, aes_xts_128_test.i1⟩ with
    | none => TestRun.out_of_fuel
    | some r2 =>
      let dec2c := writeAt dec2b 0 r2.dst
      let log10 := log9 ++ [TestStep.access TestBuf.dec2 16 16,
        TestStep.access TestBuf.enc2 16 16, TestStep.access TestBuf.dec2 16 16,
        TestStep.decrypt r2.ret]
      if r2.ret ≠ 0 then TestRun.returned r2.ret log10 else
      let m2 := XMEMCMP aes_xts_128_test.p1 dec2c 16
      let log11 := log10 ++ [TestStep.access TestBuf.dec2 16 16, TestStep.compare m2]
      if m2 ≠ 0 then TestRun.returned (-K.EINVAL) log11 else
      let dec2d := writeAt dec2c 0 aes_xts_128_test.pp
      let enc2c := writeAt enc2b 0 (List.replicate 24 0)
      match km_AesXtsEncrypt K X T fuel k.2 ⟨dec2d.take 24, aes_xts_128_test.i1⟩ with
      | none => TestRun.out_of_fuel
      | some r3 =>
        let enc2d := writeAt enc2c 0 r3.dst
        let log12 := log11 ++ [TestStep.access TestBuf.dec2 16 24,
          TestStep.access TestBuf.enc2 16 24, TestStep.access TestBuf.dec2 16 24,
          TestStep.access TestBuf.enc2 16 24, TestStep.encrypt r3.ret]
        if r3.ret ≠ 0 then TestRun.returned r3.ret log12 else
        let m3 := XMEMCMP aes_xts_128_test.cp enc2d 24
        let log13 := log12 ++ [TestStep.access TestBuf.enc2 16 24, TestStep.compare m3]
        if m3 ≠ 0 then TestRun.returned (-K.EINVAL) log13 else
        let dec2e := writeAt dec2d 0 (List.replicate 24 0)
        match km_AesXtsDecrypt K X T fuel k.2 ⟨enc2d.take 24, aes_xts_128_test.i1⟩ with
        | none => TestRun.out_of_fuel
        | some r4 =>
          let dec2f := writeAt dec2e 0 r4.dst
          let log14 := log13 ++ [TestStep.access TestBuf.dec2 16 24,
            TestStep.access TestBuf.enc2 16 24, TestStep.access TestBuf.dec2 16 24,
            TestStep.decrypt r4.ret]
          if r4.ret ≠ 0 then TestRun.returned r4.ret log14 else
          let m4 := XMEMCMP aes_xts_128_test.pp dec2f 24
          let log15 := log14 ++ [TestStep.access TestBuf.dec2 16 24, TestStep.compare m4]
          if m4 ≠ 0 then TestRun.returned (-K.EINVAL) log15 else
          TestRun.returned m4 log15

/-- `aes_xts_128_test`: the known-answer tests, the in-place test unless
`HAVE_FIPS` is defined, the loop over `large_input`, and the kernel part. -/
def aes_xts_128_test {τ : Type} (K : Consts) (W : WcConsts) (X : XtsPrimitive τ)
    (L : XtsLifecycle τ) (E : TestEnv τ) (T : Transport) (fuel : Nat) : TestRun :=
  match aes_xts_128_test.kat W X L E with
  | Stage.exit e => TestRun.returned e []
  | Stage.next s =>
    match (if E.have_fips = true then Stage.next s.1
           else aes_xts_128_test.in_place W X L s.1 s.2) with
    | Stage.exit e => TestRun.returned e []
    | Stage.next a =>
      match aes_xts_128_test.large W X L E a with
      | Stage.exit e => TestRun.returned e []
      | Stage.next _ => aes_xts_128_test.lkcapi K W X L E T fuel

/-- The test's `XtsAes` object when `p1` and `pp` are encrypted: initialised,
keyed with `k2`, then keyed with `k1` for encryption. -/
def aes_xts_128_test.encObject {τ : Type} (L : XtsLifecycle τ) (E : TestEnv τ) : τ :=
  (L.wc_AesXtsSetKeyNoInit
    (L.wc_AesXtsSetKeyNoInit (L.wc_AesXtsInit E.object).2 aes_xts_128_test.k2
      Dir.AES_ENCRYPTION).2
    aes_xts_128_test.k1 Dir.AES_ENCRYPTION).2

/-- The test's `XtsAes` object when `c1` and `cp` are decrypted: the object of
the encryptions, keyed with `k1` for decryption. -/
def aes_xts_128_test.decObject {τ : Type} (L : XtsLifecycle τ) (E : TestEnv τ) : τ :=
  (L.wc_AesXtsSetKeyNoInit (aes_xts_128_test.encObject L E) aes_xts_128_test.k1
    Dir.AES_DECRYPTION).2

/-- The context of the handle in the kernel part: set up by `km_AesXtsInit`
and keyed with `k1` by `km_AesXtsSetKey`. -/
def aes_xts_128_test.tfmCtx {τ : Type} (K : Consts) (W : WcConsts) (L : XtsLifecycle τ)
    (E : TestEnv τ) : km_AesXtsCtx τ :=
  (km_AesXtsSetKey K L (km_AesXtsInit K W L E.heap ⟨none⟩).2.1 aes_xts_128_test.k1).2

/-- A call succeeded and, having written as many bytes as expected, wrote the
expected bytes. -/
def Gives (ret : Int) (out expected : Bytes) : Prop :=
  ret = 0 ∧ (out.length = expected.length → out = expected)

/-- The object of the look-up primitive is the key last installed. -/
def katXtsLifecycle : XtsLifecycle Bytes where
  BAD_FUNC_ARG := -173
  wc_AesXtsInit := fun _ => (0, [])
  wc_AesXtsSetKeyNoInit := fun _ key _ => (0, key)

/-- A primitive that answers the vectors of `aes_xts_128_test` from a table and
leaves every other input as it is; `c2` is turned into `p2` under `k2` only. -/
def katXts : XtsPrimitive Bytes where
  wc_AesXtsEncrypt := fun aes inp _ =>
    match aes with
    | none => (-173, [])
    | some _ =>
      if inp.headD 0 = 0 then (0, inp)
      else if inp = aes_xts_128_test.p1 then (0, aes_xts_128_test.c1)
      else if inp = aes_xts_128_test.pp then (0, aes_xts_128_test.cp)
      else if inp = aes_xts_128_test.p2 then (0, aes_xts_128_test.c2)
      else if inp = aes_xts_128_test.p3 then (0, aes_xts_128_test.c3)
      else (0, inp)
  wc_AesXtsDecrypt := fun aes inp _ =>
    match aes with
    | none => (-173, [])
    | some key =>
      if inp.headD 0 = 0 then (0, inp)
      else if inp = aes_xts_128_test.c1 then (0, aes_xts_128_test.p1)
      else if inp = aes_xts_128_test.cp then (0, aes_xts_128_test.pp)
      else if inp = aes_xts_128_test.c2 then
        (0, if key = aes_xts_128_test.k2 then aes_xts_128_test.p2 else aes_xts_128_test.c2)
      else if inp = aes_xts_128_test.c3 then (0, aes_xts_128_test.p3)
      else (0, inp)

/-- Surroundings of the look-up primitive in which every allocation and lookup
succeeds. -/
def katEnv : TestEnv Bytes where
  alloc_ok := fun _ => true
  raw := fun _ => []
  tfm_err := 0
  driver_ok := true
  req_ok := true
  small_stack := true
  have_fips := false
  heap := ⟨fun _ => true, fun _ => []⟩
  object := []
  wc_free := fun a => a

/-- The steps of the kernel part of `aes_xts_128_test` when nothing fails. -/
def aes_xts_128_test.passLog : List TestStep :=
  [TestStep.alloc TestBuf.enc2 16 true, TestStep.alloc TestBuf.dec2 16 true,
   TestStep.alloc TestBuf.src 2 true, TestStep.alloc TestBuf.dst 2 true,
   TestStep.alloc_tfm 0, TestStep.setkey 0, TestStep.alloc_req true,
   TestStep.access TestBuf.dec2 16 16, TestStep.access TestBuf.enc2 16 16,
   TestStep.access TestBuf.dec2 16 16, TestStep.access TestBuf.enc2 16 16,
   TestStep.encrypt 0, TestStep.access TestBuf.enc2 16 16, TestStep.compare 0,
   TestStep.access TestBuf.dec2 16 16, TestStep.access TestBuf.enc2 16 16,
   TestStep.access TestBuf.dec2 16 16, TestStep.decrypt 0,
   TestStep.access TestBuf.dec2 16 16, TestStep.compare 0,
   TestStep.access TestBuf.dec2 16 24, TestStep.access TestBuf.enc2 16 24,
   TestStep.access TestBuf.dec2 16 24, TestStep.access TestBuf.enc2 16 24,
   TestStep.encrypt 0, TestStep.access TestBuf.enc2 16 24, TestStep.compare 0,
   TestStep.access TestBuf.dec2 16 24, TestStep.access TestBuf.enc2 16 24,
   TestStep.access TestBuf.dec2 16 24, TestStep.decrypt 0,
   TestStep.access TestBuf.dec2 16 24, TestStep.compare 0]

/-- Every value with which a part of a self-test jumps to `out` is non-zero. -/
def Stage.ExitsNonzero {α : Type} (s : Stage α) : Prop :=
  ∀ e, s = Stage.exit e → e ≠ 0

/-! ## Sequences of registry calls -/

/-- A call into the registry: `linuxkm_lkcapi_register`, with the outcomes of
the installers and self-tests during that call, or `linuxkm_lkcapi_unregister`. -/
inductive RegistryOp where
  | register (env : Outcomes)
  | unregister

/-- The registry after a sequence of calls. -/
def runOps (K : Consts) (cfg : Alg → Bool) : List RegistryOp → Registry → Registry
  | [], s => s
  | RegistryOp.register env :: rest, s =>
    runOps K cfg rest (linuxkm_lkcapi_register K cfg env s).2
  | RegistryOp.unregister :: rest, s => runOps K cfg rest (linuxkm_lkcapi_unregister cfg s)

/-- The loaded flag agrees with the installation for every descriptor: either
the flag is 0 and the descriptor is not installed, or the descriptor is
compiled in, its flag is 1 and it is installed. -/
def Registry.Consistent (cfg : Alg → Bool) (s : Registry) : Prop :=
  ∀ a, (s.loaded a = 0 ∧ s.installed a = false) ∨
    (cfg a = true ∧ s.loaded a = 1 ∧ s.installed a = true)

/-- The uninstaller calls that `linuxkm_lkcapi_unregister` is to make on the
state `s`: one for each compiled-in descriptor whose flag is set, in the order
of the file. -/
def uninstallerCalls (cfg : Alg → Bool) (s : Registry) : List Event :=
  ((enabledAlgs cfg).filter fun a => decide (s.loaded a ≠ 0)).map Event.uninstaller

/-- The stand-in primitive with a CBC decryption that writes zero bytes. -/
def zeroDecPrimitive (K : Consts) : Primitive ToyAes :=
  { toyPrimitive K with
    wc_AesCbcDecrypt := fun aes inp => (0, aes, List.replicate inp.length 0) }

/-- The value that a self-test hands to `REGISTER_ALG`, if it returns. -/
def TestRun.ret : TestRun → Option Int
  | TestRun.returned r _ => some r
  | _ => none

/-- Outcomes of a registration pass in which every installer succeeds, the CBC
self-test is the given run, and the other self-tests pass. -/
def cbcSelfTestIs (run : TestRun) : Outcomes where
  installer := fun _ => 0
  tester := fun a => if a = Alg.cbcAesAlg then run.ret.getD 0 else 0

/-! ## Algorithm descriptors -/

/-- Modelled from the spec: `AES_128_KEY_SIZE` (`aes.h`), the smallest key size
of section 6. -/
def AES_128_KEY_SIZE : Nat := 16

/-- Modelled from the spec: `AES_256_KEY_SIZE` (`aes.h`), the largest key size
of section 6. -/
def AES_256_KEY_SIZE : Nat := 32

/-- The size fields of a `struct skcipher_alg` initialiser: `base.cra_blocksize`,
`min_keysize`, `max_keysize`, `ivsize` and `walksize` (0 when the initialiser
does not name it). -/
structure skcipher_alg where
  cra_blocksize : Nat
  min_keysize : Nat
  max_keysize : Nat
  ivsize : Nat
  walksize : Nat
  deriving DecidableEq

/-- The size fields of a `struct aead_alg` initialiser: `base.cra_blocksize`,
`ivsize`, `maxauthsize` and `chunksize`. -/
structure aead_alg where
  cra_blocksize : Nat
  ivsize : Nat
  maxauthsize : Nat
  chunksize : Nat
  deriving DecidableEq

/-- The descriptor `cbcAesAlg`. -/
def cbcAesAlg : skcipher_alg where
  cra_blocksize := AES_BLOCK_SIZE
  min_keysize := AES_128_KEY_SIZE
  max_keysize := AES_256_KEY_SIZE
  ivsize := AES_BLOCK_SIZE
  walksize := 0

/-- The descriptor `cfbAesAlg`. -/
def cfbAesAlg : skcipher_alg where
  cra_blocksize := AES_BLOCK_SIZE
  min_keysize := AES_128_KEY_SIZE
  max_keysize := AES_256_KEY_SIZE
  ivsize := AES_BLOCK_SIZE
  walksize := 0

/-- The descriptor `gcmAesAead`. -/
def gcmAesAead : aead_alg where
  cra_blocksize := 1
  ivsize := AES_BLOCK_SIZE
  maxauthsize := AES_BLOCK_SIZE
  chunksize := AES_BLOCK_SIZE

/-- The descriptor `xtsAesAlg`. -/
def xtsAesAlg : skcipher_alg where
  cra_blocksize := AES_BLOCK_SIZE
  min_keysize := 2 * AES_128_KEY_SIZE
  max_keysize := 2 * AES_256_KEY_SIZE
  ivsize := AES_BLOCK_SIZE
  walksize := 2 * AES_BLOCK_SIZE

/-! ## Further inputs for running the code -/

/-- A transport on which the mapping of the associated data fails. -/
def Transport.mapFails : Transport where
  start_err := 0
  done_err := fun _ => 0
  map_err := true
  split := []

/-- An allocator on which every `malloc` fails. -/
def noMemory : Heap ToyAes where
  malloc_ok := fun _ => false
  raw := fun _ => ⟨[], [], 0, [], []⟩

/-- An allocator for XTS objects on which every `malloc` fails. -/
def noXtsMemory : Heap Nat where
  malloc_ok := fun _ => false
  raw := fun _ => 0

/-- Whether a step stays inside the buffer it touches: an access of `len`
bytes from the start of a buffer of capacity `cap` does if `len <= cap`. -/
def TestStep.inBounds : TestStep → Bool
  | TestStep.access _ cap len => decide (len ≤ cap)
  | _ => true

/-- The plaintext `p1` of `aes_xts_256_test` (32 bytes). -/
def aes_xts_256_test.p1 : Bytes :=
  [0x2e, 0xed, 0xea, 0x52, 0xcd, 0x82, 0x15, 0xe1, 0xac, 0xc6, 0x47, 0xe8, 0x10, 0xbb, 0xc3, 0x64,
   0x2e, 0x87, 0x28, 0x7f, 0x8d, 0x2e, 0x57, 0xe3, 0x6c, 0x0a, 0x24, 0xfb, 0xc1, 0x2a, 0x20, 0x2e]

/-- The plaintext `pp` of `aes_xts_256_test` (24 bytes). -/
def aes_xts_256_test.pp : Bytes :=
  [0xeb, 0xab, 0xce, 0x95, 0xb1, 0x4d, 0x3c, 0x8d, 0x6f, 0xb3, 0x50, 0x39, 0x07, 0x90, 0x31, 0x1c,
   0x6e, 0x4b, 0x92, 0x01, 0x3e, 0x76, 0x8a, 0xd5]

/-- Total length of a list of views. -/
def viewsTotal (views : List Bytes) : Nat :=
  (views.map List.length).sum

/-- The calls of a payload loop that, at the start of each iteration, owes
exactly the bytes that the walk has not committed: for the view `v` with the
views `rest` after it, an update on the `v.length` bytes of the view with the
counter at the length of `v` and `rest` together, which advances by
`v.length` bytes, and a commit with nothing left of the view. -/
def gcmLoopTrace : List Bytes → List Call
  | [] => []
  | v :: rest =>
    [Call.gcm_update v.length (viewsTotal (v :: rest)) (viewsTotal (v :: rest)) v.length 0,
      Call.walk_done 0 0] ++ gcmLoopTrace rest

/-- The update calls of the payload loop. -/
def Call.isUpdate : Call → Bool
  | Call.gcm_update _ _ _ _ _ => true
  | _ => false

/-! ## A primitive that records the calls made on each object -/

/-- The entry points of the primitive that the engines call on an `Aes` object. -/
inductive EntryPoint where
  | wc_AesSetIV
  | wc_AesCbcEncrypt
  | wc_AesCbcDecrypt
  | wc_AesCfbEncrypt
  | wc_AesCfbDecrypt
  | wc_AesGcmInit
  | wc_AesGcmEncryptUpdate
  | wc_AesGcmDecryptUpdate
  | wc_AesGcmEncryptFinal
  | wc_AesGcmDecryptFinal
  deriving DecidableEq

/-- An `Aes` object that remembers for which pointer of the context it was
allocated and which entry points were called on it, in order. -/
structure Probe where
  slot : Slot
  calls : List EntryPoint
  deriving DecidableEq

/-- The object after a call of the entry point `ep` on it. -/
def Probe.record (ep : EntryPoint) (o : Probe) : Probe :=
  ⟨o.slot, o.calls ++ [ep]⟩

/-- A primitive whose every entry point succeeds on an object, records itself
in the object and hands the input back as output; handed `NULL` it fails with
`BAD_FUNC_ARG` (-173).  A call on `NULL` is thus visible as a failed call, a
call on an object as an entry in that object. -/
def probePrimitive : Primitive Probe where
  wc_AesSetIV := fun aes _ =>
    match aes with
    | none => (-173, none)
    | some o => (0, some (o.record EntryPoint.wc_AesSetIV))
  wc_AesCbcEncrypt := fun aes inp =>
    match aes with
    | none => (-173, none, [])
    | some o => (0, some (o.record EntryPoint.wc_AesCbcEncrypt), inp)
  wc_AesCbcDecrypt := fun aes inp =>
    match aes with
    | none => (-173, none, [])
    | some o => (0, some (o.record EntryPoint.wc_AesCbcDecrypt), inp)
  wc_AesCfbEncrypt := fun aes inp =>
    match aes with
    | none => (-173, none, [])
    | some o => (0, some (o.record EntryPoint.wc_AesCfbEncrypt), inp)
  wc_AesCfbDecrypt := fun aes inp =>
    match aes with
    | none => (-173, none, [])
    | some o => (0, some (o.record EntryPoint.wc_AesCfbDecrypt), inp)
  wc_AesGcmInit := fun aes _ _ =>
    match aes with
    | none => (-173, none)
    | some o => (0, some (o.record EntryPoint.wc_AesGcmInit))
  wc_AesGcmEncryptUpdate := fun aes inp _ _ _ =>
    match aes with
    | none => (-173, none, [])
    | some o => (0, some (o.record EntryPoint.wc_AesGcmEncryptUpdate), inp)
  wc_AesGcmDecryptUpdate := fun aes inp _ _ _ =>
    match aes with
    | none => (-173, none, [])
    | some o => (0, some (o.record EntryPoint.wc_AesGcmDecryptUpdate), inp)
  wc_AesGcmEncryptFinal := fun aes authTagSz =>
    match aes with
    | none => (-173, none, [])
    | some o => (0, some (o.record EntryPoint.wc_AesGcmEncryptFinal), List.replicate authTagSz 0)
  wc_AesGcmDecryptFinal := fun aes _ _ =>
    match aes with
    | none => (-173, none)
    | some o => (0, some (o.record EntryPoint.wc_AesGcmDecryptFinal))

/-- The set-up entry points for recording objects: they succeed and leave the
object as it is. -/
def probeLifecycle : AesLifecycle Probe where
  BAD_FUNC_ARG := -173
  wc_AesInit := fun a => (0, a)
  wc_AesSetKey := fun a _ _ _ => (0, a)
  wc_AesGcmSetKey := fun a _ => (0, a)

/-- An allocator on which every `malloc` succeeds; the memory it returns for a
pointer of the context is marked with that pointer and holds no call. -/
def probeHeap : Heap Probe where
  malloc_ok := fun _ => true
  raw := fun s => ⟨s, []⟩

/-- The entry point behind a recorded call of an engine, where `transform` is
the transform entry point of the engine at hand and `update` its GCM update
entry point; calls into the transport have none. -/
def Call.entryPoint (transform update : EntryPoint) : Call → Option EntryPoint
  | Call.set_iv _ _ => some EntryPoint.wc_AesSetIV
  | Call.transform _ _ => some transform
  | Call.gcm_init _ _ => some EntryPoint.wc_AesGcmInit
  | Call.gcm_aad _ _ _ => some update
  | Call.gcm_update _ _ _ _ _ => some update
  | Call.gcm_enc_final _ _ => some EntryPoint.wc_AesGcmEncryptFinal
  | Call.gcm_dec_final _ _ => some EntryPoint.wc_AesGcmDecryptFinal
  | _ => none

/-- The entry points behind the primitive calls of a call record, in order. -/
def callsOf (transform update : EntryPoint) (log : List Call) : List EntryPoint :=
  log.filterMap (Call.entryPoint transform update)

/-- The calls `l`, `n` times over. -/
def repeatCalls : Nat → List EntryPoint → List EntryPoint
  | 0, _ => []
  | n + 1, l => l ++ repeatCalls n l

/-- What a run of an engine with the recording primitive shows about the
object `o` it ended with: the object is the one allocated for `slot`; the
calls it has received are exactly the primitive calls of the call record, the
transforms through `transform` and the GCM updates through `update`; and no
primitive call of the record failed, so none was made on `NULL`. -/
def CallsLandOn (slot : Slot) (transform update : EntryPoint) (o : Option Probe)
    (log : List Call) : Prop :=
  o = some ⟨slot, callsOf transform update log⟩ ∧
  ∀ c ∈ log, (c.entryPoint transform update).isSome = true → c.failed = false

/-! ## Theorems -/

theorem REGISTER_ALG_cases (K : Consts) (env : Outcomes) (a : Alg) (s : Registry) :
    (s.loaded a ≠ 0 ∧ REGISTER_ALG K env a s = (some (-K.EEXIST), s)) ∨
    (s.loaded a = 0 ∧ env.installer a ≠ 0 ∧
      REGISTER_ALG K env a s =
        (some (env.installer a),
          ⟨s.loaded, s.installed, s.log ++ [Event.installer a (env.installer a)]⟩)) ∨
    (s.loaded a = 0 ∧ env.installer a = 0 ∧ env.tester a ≠ 0 ∧
      REGISTER_ALG K env a s =
        (some (env.tester a),
          ⟨setAt s.loaded a 1, setAt s.installed a true,
            s.log ++ [Event.installer a 0, Event.tester a (env.tester a)]⟩)) ∨
    (s.loaded a = 0 ∧ env.installer a = 0 ∧ env.tester a = 0 ∧
      REGISTER_ALG K env a s =
        (none,
          ⟨setAt s.loaded a 1, setAt s.installed a true,
            s.log ++ [Event.installer a 0, Event.tester a 0]⟩)) := by
  by_cases h1 : s.loaded a = 0
  · by_cases h2 : env.installer a = 0
    · by_cases h3 : env.tester a = 0
      · right; right; right
        refine ⟨h1, h2, h3, ?_⟩
        simp [REGISTER_ALG, h1, h2, h3]
      · right; right; left
        refine ⟨h1, h2, h3, ?_⟩
        simp [REGISTER_ALG, h1, h2, h3]
    · right; left
      refine ⟨h1, h2, ?_⟩
      simp [REGISTER_ALG, h1, h2]
  · left
    exact ⟨h1, by simp [REGISTER_ALG, h1]⟩

theorem setAt_same {β : Type} (f : Alg → β) (a : Alg) (v : β) : setAt f a v a = v := by
  simp [setAt]

theorem setAt_other {β : Type} (f : Alg → β) (a b : Alg) (v : β) (h : b ≠ a) :
    setAt f a v b = f b := by
  simp [setAt, h]

theorem registerSteps_cons_some (K : Consts) (env : Outcomes) (a : Alg) (rest : List Alg)
    (s s1 : Registry) (r : Int) (h : REGISTER_ALG K env a s = (some r, s1)) :
    registerSteps K env (a :: rest) s = (some r, s1) := by
  simp [registerSteps, h]

theorem registerSteps_cons_none (K : Consts) (env : Outcomes) (a : Alg) (rest : List Alg)
    (s s1 : Registry) (h : REGISTER_ALG K env a s = (none, s1)) :
    registerSteps K env (a :: rest) s = registerSteps K env rest s1 := by
  simp [registerSteps, h]

/-- What one run of the registration steps over a duplicate-free list of
descriptors does: which calls it records, which flags it touches, and in which
state it stops after a failing installer or self-test. -/
theorem registerSteps_run (K : Consts) (env : Outcomes) :
    ∀ (l : List Alg) (s : Registry), l.Nodup →
    ∃ evs : List Event,
      (registerSteps K env l s).2.log = s.log ++ evs ∧
      (∀ ev ∈ evs, ev.alg ∈ l ∧ ∀ b, ev ≠ Event.uninstaller b) ∧
      (∀ a, a ∉ l → (registerSteps K env l s).2.loaded a = s.loaded a ∧
          (registerSteps K env l s).2.installed a = s.installed a) ∧
      (∀ a e, e ≠ 0 → evs.getLast? = some (Event.installer a e) →
          (registerSteps K env l s).1 = some e ∧
          (registerSteps K env l s).2.loaded a = 0 ∧
          (registerSteps K env l s).2.installed a = s.installed a) ∧
      (∀ a e, e ≠ 0 → evs.getLast? = some (Event.tester a e) →
          (registerSteps K env l s).1 = some e ∧
          (registerSteps K env l s).2.loaded a = 1 ∧
          (registerSteps K env l s).2.installed a = true) ∧
      (∀ a, (registerSteps K env l s).2.loaded a = 1 →
          s.loaded a = 1 ∨ Event.installer a 0 ∈ evs) := by
  intro l
  induction l with
  | nil =>
    intro s _
    exact ⟨[], by simp [registerSteps], by simp, by simp [registerSteps],
      by simp, by simp, by simp [registerSteps]⟩
  | cons a rest ih =>
    intro s hnd
    have hna : a ∉ rest := (List.nodup_cons.mp hnd).1
    have hrest : rest.Nodup := (List.nodup_cons.mp hnd).2
    rcases REGISTER_ALG_cases K env a s with ⟨_, hR⟩ | ⟨h1, h2, hR⟩ | ⟨h1, h2, h3, hR⟩ |
      ⟨h1, h2, h3, hR⟩
    · rw [registerSteps_cons_some K env a rest s s _ hR]
      exact ⟨[], by simp, by simp, by simp, by simp, by simp, by simp⟩
    · rw [registerSteps_cons_some K env a rest s _ _ hR]
      refine ⟨[Event.installer a (env.installer a)], rfl, ?_, by simp, ?_, by simp, ?_⟩
      · intro ev hev
        simp at hev
        subst hev
        simp [Event.alg]
      · intro a1 e _ hlast
        simp at hlast
        obtain ⟨rfl, rfl⟩ := hlast
        exact ⟨rfl, h1, rfl⟩
      · intro a1 h
        exact Or.inl h
    · rw [registerSteps_cons_some K env a rest s _ _ hR]
      refine ⟨[Event.installer a 0, Event.tester a (env.tester a)], rfl, ?_, ?_, by simp, ?_, ?_⟩
      · intro ev hev
        simp at hev
        rcases hev with rfl | rfl <;> simp [Event.alg]
      · intro a1 ha1
        have : a1 ≠ a := fun h => ha1 (by simp [h])
        simp [setAt, this]
      · intro a1 e _ hlast
        simp at hlast
        obtain ⟨rfl, rfl⟩ := hlast
        simp [setAt]
      · intro a1 h
        by_cases ha : a1 = a
        · subst ha
          exact Or.inr (by simp)
        · left
          simpa [setAt, ha] using h
    · rw [registerSteps_cons_none K env a rest s _ hR]
      obtain ⟨evs1, hlog, hev, hframe, hinst, htest, hflag⟩ := ih
        ⟨setAt s.loaded a 1, setAt s.installed a true,
          s.log ++ [Event.installer a 0, Event.tester a 0]⟩ hrest
      refine ⟨[Event.installer a 0, Event.tester a 0] ++ evs1, ?_, ?_, ?_, ?_, ?_, ?_⟩
      · rw [hlog]
        simp
      · intro ev hmem
        rcases List.mem_append.mp hmem with h | h
        · simp at h
          rcases h with rfl | rfl <;> simp [Event.alg]
        · exact ⟨List.mem_cons_of_mem _ (hev ev h).1, (hev ev h).2⟩
      · intro a1 ha1
        have hne : a1 ≠ a := fun h => ha1 (by simp [h])
        have hnr : a1 ∉ rest := fun h => ha1 (List.mem_cons_of_mem _ h)
        obtain ⟨p, q⟩ := hframe a1 hnr
        rw [p, q]
        simp [setAt, hne]
      · intro a1 e he hlast
        rw [List.getLast?_append] at hlast
        cases hl : evs1.getLast? with
        | none =>
          rw [hl] at hlast
          simp at hlast
        | some x =>
          rw [hl] at hlast
          simp at hlast
          subst hlast
          obtain ⟨p, q, r⟩ := hinst a1 e he hl
          have hmem : Event.installer a1 e ∈ evs1 := List.mem_of_mem_getLast? hl
          have ha1 : a1 ∈ rest := by simpa [Event.alg] using (hev _ hmem).1
          have hne : a1 ≠ a := fun h => hna (h ▸ ha1)
          refine ⟨p, q, ?_⟩
          rw [r]
          simp [setAt, hne]
      · intro a1 e he hlast
        rw [List.getLast?_append] at hlast
        cases hl : evs1.getLast? with
        | none =>
          rw [hl] at hlast
          simp at hlast
          exact absurd hlast.2.symm he
        | some x =>
          rw [hl] at hlast
          simp at hlast
          subst hlast
          exact htest a1 e he hl
      · intro a1 h
        rcases hflag a1 h with h' | h'
        · by_cases ha : a1 = a
          · subst ha
            exact Or.inr (by simp)
          · left
            simpa [setAt, ha] using h'
        · exact Or.inr (List.mem_append_right _ h')

theorem allAlgs_nodup : allAlgs.Nodup := by decide

theorem enabledAlgs_nodup (cfg : Alg → Bool) : (enabledAlgs cfg).Nodup :=
  List.Nodup.filter _ allAlgs_nodup

theorem UNREGISTER_ALG_other (a b : Alg) (s : Registry) (h : b ≠ a) :
    (UNREGISTER_ALG a s).loaded b = s.loaded b ∧
    (UNREGISTER_ALG a s).installed b = s.installed b := by
  unfold UNREGISTER_ALG
  split <;> simp [setAt, h]

theorem UNREGISTER_ALG_log (a : Alg) (s : Registry) (ev : Event) (h : ev ∈ s.log) :
    ev ∈ (UNREGISTER_ALG a s).log := by
  unfold UNREGISTER_ALG
  split <;> simp [h]

/-- Flags that are clear stay clear, and recorded calls stay recorded. -/
theorem unregisterSteps_keeps (l : List Alg) :
    ∀ (s : Registry) (a : Alg),
      (s.loaded a = 0 → (unregisterSteps l s).loaded a = 0 ∧
        (unregisterSteps l s).installed a = s.installed a) ∧
      (∀ ev ∈ s.log, ev ∈ (unregisterSteps l s).log) := by
  induction l with
  | nil => intro s a; simp [unregisterSteps]
  | cons b rest ih =>
    intro s a
    simp only [unregisterSteps]
    constructor
    · intro h0
      by_cases hb : a = b
      · subst hb
        have hs : UNREGISTER_ALG a s = s := by simp [UNREGISTER_ALG, h0]
        rw [hs]
        exact (ih s a).1 h0
      · obtain ⟨p, q⟩ := UNREGISTER_ALG_other b a s hb
        obtain ⟨p1, q1⟩ := (ih (UNREGISTER_ALG b s) a).1 (by rw [p]; exact h0)
        exact ⟨p1, by rw [q1, q]⟩
    · intro ev hev
      exact (ih (UNREGISTER_ALG b s) a).2 ev (UNREGISTER_ALG_log b s ev hev)

/-- A descriptor in the list whose flag is set is uninstalled and its flag cleared. -/
theorem unregisterSteps_clears (l : List Alg) :
    ∀ (s : Registry) (a : Alg), a ∈ l → s.loaded a ≠ 0 →
      (unregisterSteps l s).loaded a = 0 ∧
      (unregisterSteps l s).installed a = false ∧
      Event.uninstaller a ∈ (unregisterSteps l s).log := by
  induction l with
  | nil => intro s a h; simp at h
  | cons b rest ih =>
    intro s a hmem hl
    simp only [unregisterSteps]
    by_cases hb : a = b
    · subst hb
      have h0 : (UNREGISTER_ALG a s).loaded a = 0 := by simp [UNREGISTER_ALG, hl, setAt]
      have h1 : (UNREGISTER_ALG a s).installed a = false := by simp [UNREGISTER_ALG, hl, setAt]
      have h2 : Event.uninstaller a ∈ (UNREGISTER_ALG a s).log := by simp [UNREGISTER_ALG, hl]
      obtain ⟨k1, k2⟩ := unregisterSteps_keeps rest (UNREGISTER_ALG a s) a
      obtain ⟨p, q⟩ := k1 h0
      exact ⟨p, by rw [q, h1], k2 _ h2⟩
    · have hr : a ∈ rest := by
        rcases List.mem_cons.mp hmem with h | h
        · exact absurd h hb
        · exact h
      obtain ⟨p, _⟩ := UNREGISTER_ALG_other b a s hb
      exact ih (UNREGISTER_ALG b s) a hr (by rw [p]; exact hl)

theorem register_eq (K : Consts) (cfg : Alg → Bool) (env : Outcomes) (s : Registry) :
    (linuxkm_lkcapi_register K cfg env s).2 = (registerSteps K env (enabledAlgs cfg) s).2 ∧
    (linuxkm_lkcapi_register K cfg env s).1 =
      ((registerSteps K env (enabledAlgs cfg) s).1).getD 0 := by
  unfold linuxkm_lkcapi_register
  rcases h : registerSteps K env (enabledAlgs cfg) s with ⟨r, s1⟩
  cases r <;> simp

/-- An early return out of the registration steps never carries the value 0. -/
theorem registerSteps_some_ne_zero (K : Consts) (env : Outcomes) :
    ∀ (l : List Alg) (s : Registry) (r : Int),
      (registerSteps K env l s).1 = some r → r ≠ 0 := by
  intro l
  induction l with
  | nil => intro s r h; simp [registerSteps] at h
  | cons a rest ih =>
    intro s r h
    rcases REGISTER_ALG_cases K env a s with ⟨_, hR⟩ | ⟨_, h2, hR⟩ | ⟨_, _, h3, hR⟩ |
      ⟨_, _, _, hR⟩
    · rw [registerSteps_cons_some K env a rest s _ _ hR] at h
      simp at h
      have := K.EEXIST_pos
      omega
    · rw [registerSteps_cons_some K env a rest s _ _ hR] at h
      simp at h
      exact h ▸ h2
    · rw [registerSteps_cons_some K env a rest s _ _ hR] at h
      simp at h
      exact h ▸ h3
    · rw [registerSteps_cons_none K env a rest s _ hR] at h
      exact ih _ r h

/-- A flag that is 1 stays 1 through the registration steps. -/
theorem registerSteps_keeps_flag (K : Consts) (env : Outcomes) :
    ∀ (l : List Alg) (s : Registry) (a : Alg),
      s.loaded a = 1 → (registerSteps K env l s).2.loaded a = 1 := by
  intro l
  induction l with
  | nil => intro s a h; simpa [registerSteps] using h
  | cons b rest ih =>
    intro s a h
    rcases REGISTER_ALG_cases K env b s with ⟨_, hR⟩ | ⟨_, _, hR⟩ | ⟨_, _, _, hR⟩ |
      ⟨_, _, _, hR⟩
    · rw [registerSteps_cons_some K env b rest s _ _ hR]; exact h
    · rw [registerSteps_cons_some K env b rest s _ _ hR]; exact h
    · rw [registerSteps_cons_some K env b rest s _ _ hR]
      by_cases hb : a = b <;> simp [setAt, hb, h]
    · rw [registerSteps_cons_none K env b rest s _ hR]
      apply ih
      by_cases hb : a = b <;> simp [setAt, hb, h]

/-- When all steps run to their end, every descriptor of the list is marked loaded. -/
theorem registerSteps_none_loaded (K : Consts) (env : Outcomes) :
    ∀ (l : List Alg) (s : Registry), (registerSteps K env l s).1 = none →
      ∀ a ∈ l, (registerSteps K env l s).2.loaded a = 1 := by
  intro l
  induction l with
  | nil => intro s _ a ha; simp at ha
  | cons b rest ih =>
    intro s h a ha
    rcases REGISTER_ALG_cases K env b s with ⟨_, hR⟩ | ⟨_, _, hR⟩ | ⟨_, _, _, hR⟩ |
      ⟨_, _, _, hR⟩
    · rw [registerSteps_cons_some K env b rest s _ _ hR] at h; simp at h
    · rw [registerSteps_cons_some K env b rest s _ _ hR] at h; simp at h
    · rw [registerSteps_cons_some K env b rest s _ _ hR] at h; simp at h
    · rw [registerSteps_cons_none K env b rest s _ hR] at h ⊢
      rcases List.mem_cons.mp ha with hb | hb
      · subst hb
        exact registerSteps_keeps_flag K env rest _ a (by simp [setAt])
      · exact ih _ h a hb

/-- Running the steps of `pre ++ l` is running `pre` and, unless that returned, `l`. -/
theorem registerSteps_append (K : Consts) (env : Outcomes) :
    ∀ (pre l : List Alg) (s : Registry), (registerSteps K env pre s).1 = none →
      registerSteps K env (pre ++ l) s = registerSteps K env l (registerSteps K env pre s).2 := by
  intro pre
  induction pre with
  | nil => intro l s _; simp [registerSteps]
  | cons b rest ih =>
    intro l s h
    rcases REGISTER_ALG_cases K env b s with ⟨_, hR⟩ | ⟨_, _, hR⟩ | ⟨_, _, _, hR⟩ |
      ⟨_, _, _, hR⟩
    · rw [registerSteps_cons_some K env b rest s _ _ hR] at h; simp at h
    · rw [registerSteps_cons_some K env b rest s _ _ hR] at h; simp at h
    · rw [registerSteps_cons_some K env b rest s _ _ hR] at h; simp at h
    · rw [registerSteps_cons_none K env b rest s _ hR] at h
      rw [List.cons_append, registerSteps_cons_none K env b (rest ++ l) s _ hR,
        registerSteps_cons_none K env b rest s _ hR]
      exact ih l _ h

/-! ### C1 -/

/-- C1, counterexample.  All four descriptors enabled, every installer succeeds,
the CBC self-test returns -1: `linuxkm_lkcapi_register` returns -1 because of
that self-test, it has called no uninstaller, and the CBC descriptor is still
installed with its loaded flag equal to 1, not 0. -/
theorem register_selftest_failure_not_undone :
    (linuxkm_lkcapi_register linuxConsts allEnabled cbcSelfTestFails Registry.init).1 = -1 ∧
    cbcSelfTestFails.installer Alg.cbcAesAlg = 0 ∧
    cbcSelfTestFails.tester Alg.cbcAesAlg = -1 ∧
    (linuxkm_lkcapi_register linuxConsts allEnabled cbcSelfTestFails Registry.init).2.log =
      [Event.installer Alg.cbcAesAlg 0, Event.tester Alg.cbcAesAlg (-1)] ∧
    Event.uninstaller Alg.cbcAesAlg ∉
      (linuxkm_lkcapi_register linuxConsts allEnabled cbcSelfTestFails Registry.init).2.log ∧
    (linuxkm_lkcapi_register linuxConsts allEnabled cbcSelfTestFails Registry.init).2.installed
      Alg.cbcAesAlg = true ∧
    (linuxkm_lkcapi_register linuxConsts allEnabled cbcSelfTestFails Registry.init).2.loaded
      Alg.cbcAesAlg = 1 ∧
    ¬ (linuxkm_lkcapi_register linuxConsts allEnabled cbcSelfTestFails Registry.init).2.loaded
      Alg.cbcAesAlg = 0 := by
  decide

/-- C1, amended.  Let `evs` be the calls that one `linuxkm_lkcapi_register` makes.
It never calls an uninstaller.  If it stops because the installer of `a` failed
with `e`, it returns `e`, the loaded flag of `a` is 0 and `a` is installed
exactly if it was before the call.  If it stops because the self-test of `a`
failed with `e`, it returns `e` and `a` stays installed with its loaded flag
equal to 1; the following `linuxkm_lkcapi_unregister` then runs the uninstaller
of `a` and clears the flag.  A loaded flag is 1 on return only if it was 1 on
entry or the installer of `a` returned 0 during the call. -/
theorem register_failure_state (K : Consts) (cfg : Alg → Bool) (env : Outcomes)
    (s : Registry) (a : Alg) (e : Int) (evs : List Event)
    (hlog : (linuxkm_lkcapi_register K cfg env s).2.log = s.log ++ evs) (he : e ≠ 0) :
    (∀ b, Event.uninstaller b ∉ evs) ∧
    (evs.getLast? = some (Event.installer a e) →
      (linuxkm_lkcapi_register K cfg env s).1 = e ∧
      (linuxkm_lkcapi_register K cfg env s).2.loaded a = 0 ∧
      (linuxkm_lkcapi_register K cfg env s).2.installed a = s.installed a) ∧
    (evs.getLast? = some (Event.tester a e) →
      (linuxkm_lkcapi_register K cfg env s).1 = e ∧
      (linuxkm_lkcapi_register K cfg env s).2.loaded a = 1 ∧
      (linuxkm_lkcapi_register K cfg env s).2.installed a = true ∧
      (linuxkm_lkcapi_unregister cfg (linuxkm_lkcapi_register K cfg env s).2).loaded a = 0 ∧
      (linuxkm_lkcapi_unregister cfg (linuxkm_lkcapi_register K cfg env s).2).installed a
        = false ∧
      Event.uninstaller a ∈
        (linuxkm_lkcapi_unregister cfg (linuxkm_lkcapi_register K cfg env s).2).log) ∧
    ((linuxkm_lkcapi_register K cfg env s).2.loaded a = 1 →
      s.loaded a = 1 ∨ Event.installer a 0 ∈ evs) := by
  obtain ⟨h2, h1⟩ := register_eq K cfg env s
  obtain ⟨evs1, hl, hev, _, hinst, htest, hflag⟩ :=
    registerSteps_run K env (enabledAlgs cfg) s (enabledAlgs_nodup cfg)
  rw [h2] at hlog
  have hEq : evs = evs1 := by
    rw [hl] at hlog
    exact (List.append_cancel_left hlog).symm
  subst hEq
  rw [h1, h2]
  refine ⟨?_, ?_, ?_, ?_⟩
  · intro b hb
    exact (hev _ hb).2 b rfl
  · intro hlast
    obtain ⟨p, q, r⟩ := hinst a e he hlast
    exact ⟨by rw [p]; rfl, q, r⟩
  · intro hlast
    obtain ⟨p, q, r⟩ := htest a e he hlast
    have hmem : a ∈ enabledAlgs cfg := by
      simpa [Event.alg] using (hev _ (List.mem_of_mem_getLast? hlast)).1
    have hne : (registerSteps K env (enabledAlgs cfg) s).2.loaded a ≠ 0 := by
      rw [q]; decide
    obtain ⟨u1, u2, u3⟩ := unregisterSteps_clears (enabledAlgs cfg) _ a hmem hne
    exact ⟨by rw [p]; rfl, q, r, u1, u2, u3⟩
  · exact hflag a

/-- Witness for `register_failure_state`: the run in which the CBC self-test fails. -/
theorem register_failure_state_witness :
    (linuxkm_lkcapi_register linuxConsts allEnabled cbcSelfTestFails Registry.init).2.log =
      Registry.init.log ++ [Event.installer Alg.cbcAesAlg 0, Event.tester Alg.cbcAesAlg (-1)] ∧
    (linuxkm_lkcapi_register linuxConsts allEnabled cbcSelfTestFails Registry.init).1 = -1 ∧
    (linuxkm_lkcapi_unregister allEnabled
      (linuxkm_lkcapi_register linuxConsts allEnabled cbcSelfTestFails Registry.init).2).loaded
      Alg.cbcAesAlg = 0 :=
  have h := register_failure_state linuxConsts allEnabled cbcSelfTestFails Registry.init
    Alg.cbcAesAlg (-1) [Event.installer Alg.cbcAesAlg 0, Event.tester Alg.cbcAesAlg (-1)]
    (by decide) (by decide)
  ⟨by decide, (h.2.2.1 (by decide)).1, (h.2.2.1 (by decide)).2.2.2.1⟩

/-! ### C2 -/

/-- C2.  If the enabled descriptors are `pre ++ a :: rest`, the steps for `pre`
ran to their end, and the loaded flag of `a` is set when the step of `a` begins,
then that step returns `-EEXIST` without changing the registry (no call is
recorded and every flag is as before), and `linuxkm_lkcapi_register` returns
`-EEXIST` in the state in which the step of `a` began.  In particular, with at
least one descriptor enabled, a call directly after a call that returned 0
returns `-EEXIST` and leaves the registry as it was. -/
theorem register_conflict (K : Consts) (cfg : Alg → Bool) (env : Outcomes) (s : Registry)
    (pre rest : List Alg) (a : Alg)
    (hsplit : enabledAlgs cfg = pre ++ a :: rest)
    (hpre : (registerSteps K env pre s).1 = none)
    (hloaded : (registerSteps K env pre s).2.loaded a ≠ 0) :
    REGISTER_ALG K env a (registerSteps K env pre s).2 =
        (some (-K.EEXIST), (registerSteps K env pre s).2) ∧
    linuxkm_lkcapi_register K cfg env s = (-K.EEXIST, (registerSteps K env pre s).2) ∧
    (∀ (env1 env2 : Outcomes) (s0 : Registry), (∃ b, cfg b = true) →
      (linuxkm_lkcapi_register K cfg env1 s0).1 = 0 →
      linuxkm_lkcapi_register K cfg env2 (linuxkm_lkcapi_register K cfg env1 s0).2 =
        (-K.EEXIST, (linuxkm_lkcapi_register K cfg env1 s0).2)) := by
  have hstep : ∀ (env0 : Outcomes) (b : Alg) (t : Registry), t.loaded b ≠ 0 →
      REGISTER_ALG K env0 b t = (some (-K.EEXIST), t) := by
    intro env0 b t ht
    simp [REGISTER_ALG, ht]
  refine ⟨hstep env a _ hloaded, ?_, ?_⟩
  · unfold linuxkm_lkcapi_register
    rw [hsplit, registerSteps_append K env pre (a :: rest) s hpre,
      registerSteps_cons_some K env a rest _ _ _ (hstep env a _ hloaded)]
  · intro env1 env2 s0 hex h0
    obtain ⟨h2, h1⟩ := register_eq K cfg env1 s0
    have hnone : (registerSteps K env1 (enabledAlgs cfg) s0).1 = none := by
      cases hr : (registerSteps K env1 (enabledAlgs cfg) s0).1 with
      | none => rfl
      | some r =>
        rw [h1, hr] at h0
        exact absurd h0 (registerSteps_some_ne_zero K env1 _ s0 r hr)
    obtain ⟨b, hb⟩ := hex
    have hbmem : b ∈ enabledAlgs cfg := by
      unfold enabledAlgs
      rw [List.mem_filter]
      exact ⟨by cases b <;> decide, hb⟩
    cases hl : enabledAlgs cfg with
    | nil => rw [hl] at hbmem; simp at hbmem
    | cons c tl =>
      have hc : (registerSteps K env1 (enabledAlgs cfg) s0).2.loaded c = 1 :=
        registerSteps_none_loaded K env1 _ s0 hnone c (by rw [hl]; simp)
      have hc0 : (linuxkm_lkcapi_register K cfg env1 s0).2.loaded c ≠ 0 := by
        rw [h2, hc]; decide
      generalize (linuxkm_lkcapi_register K cfg env1 s0).2 = t at hc0 ⊢
      unfold linuxkm_lkcapi_register
      rw [hl, registerSteps_cons_some K env2 c tl _ _ _ (hstep env2 c _ hc0)]

/-- Witness for `register_conflict`: CFB is already marked loaded when its step
begins, after the CBC step ran to its end. -/
theorem register_conflict_witness :
    enabledAlgs allEnabled = [Alg.cbcAesAlg] ++ Alg.cfbAesAlg :: [Alg.gcmAesAead, Alg.xtsAesAlg] ∧
    (registerSteps linuxConsts allSucceed [Alg.cbcAesAlg] cfbAlreadyLoaded).2.loaded
      Alg.cfbAesAlg ≠ 0 ∧
    (linuxkm_lkcapi_register linuxConsts allEnabled allSucceed cfbAlreadyLoaded).1 = -17 ∧
    (linuxkm_lkcapi_register linuxConsts allEnabled allSucceed
      (linuxkm_lkcapi_register linuxConsts allEnabled allSucceed Registry.init).2).1 = -17 :=
  have h := register_conflict linuxConsts allEnabled allSucceed cfbAlreadyLoaded
    [Alg.cbcAesAlg] [Alg.gcmAesAead, Alg.xtsAesAlg] Alg.cfbAesAlg
    (by decide) (by decide) (by decide)
  ⟨by decide, by decide, by rw [h.2.1]; rfl,
    by rw [h.2.2 allSucceed allSucceed Registry.init ⟨Alg.cbcAesAlg, rfl⟩ (by decide)]; rfl⟩

/-! ### C3 -/

set_option maxRecDepth 100000 in
/-- C3, the code at a failing input.  The 32-byte self-test vector is handed
out as two views of one block each.  `km_AesCbcEncrypt` returns 0, installs the
request's IV before each of the two transform calls, and writes the one-shot
encryption of the first block followed by the one-shot encryption of the second
block under the request's IV; this differs from the one-shot encryption of the
whole vector, in which the second block is chained to the first ciphertext
block. -/
theorem km_AesCbcEncrypt_two_views_restart :
    (km_AesCbcEncrypt linuxConsts (toyPrimitive linuxConsts) (Transport.cut [16]) 3 toyCtx
      ⟨testVector, testIv⟩).map SkOut.view =
    some (0,
      oneShot (toyPrimitive linuxConsts) (toyPrimitive linuxConsts).wc_AesCbcEncrypt
          toyCtx.aes_encrypt testIv (testVector.take 16) ++
        oneShot (toyPrimitive linuxConsts) (toyPrimitive linuxConsts).wc_AesCbcEncrypt
          toyCtx.aes_encrypt testIv (testVector.drop 16),
      [Call.walk_start 0, Call.set_iv testIv 0, Call.transform 16 0, Call.walk_done 0 0,
        Call.set_iv testIv 0, Call.transform 16 0, Call.walk_done 0 0]) ∧
    (km_AesCbcEncrypt linuxConsts (toyPrimitive linuxConsts) (Transport.cut [16]) 3 toyCtx
      ⟨testVector, testIv⟩).map (fun r => r.dst) ≠
    some (oneShot (toyPrimitive linuxConsts) (toyPrimitive linuxConsts).wc_AesCbcEncrypt
          toyCtx.aes_encrypt testIv testVector) := by
  decide

/-! ### C4 -/

set_option maxRecDepth 100000 in
/-- C4, the code at a failing input.  The 32-byte self-test vector is encrypted
with the walk handing it out as one view, and the result is decrypted with the
walk handing it out as two views of one block each, same key and IV.  Both
calls return 0, for CBC and for CFB, and the decrypted bytes differ from the
vector.  When the decryption request is handed out as one view as well, the
vector comes back. -/
theorem km_Aes_round_trip_split_mismatch :
    ((km_AesCbcEncrypt linuxConsts (toyPrimitive linuxConsts) Transport.oneView 2 toyCtx
        ⟨testVector, testIv⟩).bind fun e =>
      (km_AesCbcDecrypt linuxConsts (toyPrimitive linuxConsts) Transport.oneView 2 e.ctx
        ⟨e.dst, testIv⟩).map fun d => (e.ret, d.ret, decide (d.dst = testVector)))
      = some (0, 0, true) ∧
    ((km_AesCfbEncrypt linuxConsts (toyPrimitive linuxConsts) Transport.oneView 2 toyCtx
        ⟨testVector, testIv⟩).bind fun e =>
      (km_AesCfbDecrypt linuxConsts (toyPrimitive linuxConsts) Transport.oneView 2 e.ctx
        ⟨e.dst, testIv⟩).map fun d => (e.ret, d.ret, decide (d.dst = testVector)))
      = some (0, 0, true) ∧
    ((km_AesCbcEncrypt linuxConsts (toyPrimitive linuxConsts) Transport.oneView 2 toyCtx
        ⟨testVector, testIv⟩).bind fun e =>
      (km_AesCbcDecrypt linuxConsts (toyPrimitive linuxConsts) (Transport.cut [16]) 3 e.ctx
        ⟨e.dst, testIv⟩).map fun d => (e.ret, d.ret, decide (d.dst = testVector)))
      = some (0, 0, false) ∧
    ((km_AesCfbEncrypt linuxConsts (toyPrimitive linuxConsts) Transport.oneView 2 toyCtx
        ⟨testVector, testIv⟩).bind fun e =>
      (km_AesCfbDecrypt linuxConsts (toyPrimitive linuxConsts) (Transport.cut [16]) 3 e.ctx
        ⟨e.dst, testIv⟩).map fun d => (e.ret, d.ret, decide (d.dst = testVector)))
      = some (0, 0, false) := by
  decide

/-! ### C5 -/

theorem toyXts_unshift (key : Nat) (iv : Bytes) :
    ∀ (m : Bytes) (idx : List Nat), (∀ b ∈ m, b < 256) → m.length ≤ idx.length →
      List.zipWith (fun b i => (b + (256 - toyXtsShift key iv i)) % 256)
        (List.zipWith (fun b i => (b + toyXtsShift key iv i) % 256) m idx) idx = m := by
  intro m
  induction m with
  | nil => intro idx _ _; simp
  | cons b bs ih =>
    intro idx hb hl
    cases idx with
    | nil => simp at hl
    | cons i is =>
      have hb0 : b < 256 := hb b (by simp)
      have hs : toyXtsShift key iv i < 256 := by
        unfold toyXtsShift
        omega
      simp only [List.zipWith_cons_cons, List.cons.injEq]
      refine ⟨by omega, ih is (fun x hx => hb x (by simp [hx])) (by simpa using hl)⟩

/-- The stand-in XTS primitive meets the condition of the claim: on an input of
at least 16 bytes, its one-shot decryption inverts its one-shot encryption. -/
theorem toyXts_oneShot_inverts (aes : Option Nat) (iv m : Bytes) (haes : aes ≠ none)
    (hb : ∀ b ∈ m, b < 256) (hl : 16 ≤ m.length) :
    (toyXts.wc_AesXtsEncrypt aes m iv).1 = 0 ∧
    toyXts.wc_AesXtsDecrypt aes (toyXts.wc_AesXtsEncrypt aes m iv).2 iv = (0, m) := by
  cases aes with
  | none => exact absurd rfl haes
  | some key =>
    have h1 : ¬ m.length < 16 := by omega
    simp only [toyXts, h1, ↓reduceIte, true_and]
    have h2 : ¬ (List.zipWith (fun b i => (b + toyXtsShift key iv i) % 256) m
        (List.range m.length)).length < 16 := by
      simp
      omega
    rw [if_neg h2]
    simp only [List.length_zipWith, List.length_range, Nat.min_self]
    rw [toyXts_unshift key iv m (List.range m.length) hb (by simp)]


set_option maxRecDepth 100000 in
/-- C5, the code at two failing inputs.  First: the 32-byte vector is encrypted
as one view and the result decrypted as two views of one block each, same key
and tweak; both calls return 0 and the decrypted bytes differ from the vector
(decrypted as one view, the vector comes back).  Second: a 24-byte message
handed out as a view of 8 bytes followed by one of 16 bytes;
`km_AesXtsEncrypt` returns `-EINVAL`. -/
theorem km_AesXts_round_trip_split_mismatch :
    ((km_AesXtsEncrypt linuxConsts toyXts Transport.oneView 2 toyXtsCtx
        ⟨testVector, testIv⟩).bind fun e =>
      (km_AesXtsDecrypt linuxConsts toyXts Transport.oneView 2 toyXtsCtx
        ⟨e.dst, testIv⟩).map fun d => (e.ret, d.ret, decide (d.dst = testVector)))
      = some (0, 0, true) ∧
    ((km_AesXtsEncrypt linuxConsts toyXts Transport.oneView 2 toyXtsCtx
        ⟨testVector, testIv⟩).bind fun e =>
      (km_AesXtsDecrypt linuxConsts toyXts (Transport.cut [16]) 3 toyXtsCtx
        ⟨e.dst, testIv⟩).map fun d => (e.ret, d.ret, decide (d.dst = testVector)))
      = some (0, 0, false) ∧
    (km_AesXtsEncrypt linuxConsts toyXts (Transport.cut [8]) 3 toyXtsCtx
        ⟨testVector.take 24, testIv⟩).map (fun e => e.ret) = some (-22) := by
  decide

/-! ### C8 -/

set_option maxRecDepth 100000 in
/-- C8, the code at a failing input.  Two payload bytes are handed out as two
views of one byte each.  At the first step the view has 1 byte, 2 payload bytes
are owed, the primitive's payload update is handed the count 2, and the walk is
then advanced by 1 byte. -/
theorem km_AesGcmEncrypt_update_count_exceeds_view :
    (km_AesGcmEncrypt linuxConsts (toyPrimitive linuxConsts) (Transport.cut [1]) 3 toyCtx 16
      aadPayloadOneSegment).map (fun r => (r.log.drop 4).take 2) =
      some [Call.gcm_update 1 2 2 1 0, Call.walk_done 0 0] ∧
    (km_AesGcmDecrypt linuxConsts (toyPrimitive linuxConsts) (Transport.cut [1]) 3 toyCtx 4
      aadPayloadTagOneSegment).map (fun r => (r.log.drop 4).take 2) =
      some [Call.gcm_update 1 2 2 1 0, Call.walk_done 0 0] := by
  decide

/-! ### C9 -/

set_option maxRecDepth 100000 in
/-- C9, the code at a failing input.  The two bytes of associated data `a1 a2`
lie in two source segments.  `km_AesGcmEncrypt` and `km_AesGcmDecrypt` feed the
primitive two bytes read through the mapping of the first segment, `a1 ff`,
which are not the first two bytes of the logical source range. -/
theorem km_AesGcm_aad_read_past_first_segment :
    (sgBytes aadTwoSegments.src).take aadTwoSegments.assoclen = [0xa1, 0xa2] ∧
    (km_AesGcmEncrypt linuxConsts (toyPrimitive linuxConsts) Transport.oneView 2 toyCtx 16
      aadTwoSegments).map (fun r => (r.log.drop 3).take 1) =
      some [Call.gcm_aad [0xa1, 0xff] 2 0] ∧
    (km_AesGcmDecrypt linuxConsts (toyPrimitive linuxConsts) Transport.oneView 2 toyCtx 4
      aadTwoSegmentsTag).map (fun r => (r.log.drop 3).take 1) =
      some [Call.gcm_aad [0xa1, 0xff] 2 0] := by
  decide

/-! ### C10 -/

set_option maxRecDepth 100000 in
/-- C10, counterexample.  The destination is a zero-filled buffer distinct from
the source, with two bytes of associated data `a1 a2`, two payload bytes and a
4-byte tag.  `km_AesGcmEncrypt` returns 0 and the first two bytes of the
destination are still zero, not the associated data. -/
theorem km_AesGcmEncrypt_aad_not_copied :
    (km_AesGcmEncrypt linuxConsts (toyPrimitive linuxConsts) Transport.oneView 2 toyCtx 4
      aadPayloadOneSegment).map (fun r => (r.ret, r.dst.take 2)) = some (0, [0, 0]) ∧
    (sgBytes aadPayloadOneSegment.src).take aadPayloadOneSegment.assoclen = [0xa1, 0xa2] := by
  decide

/-! ### GCM with the payload in one view -/

theorem splitViews_single (m : Bytes) (h : m ≠ []) : splitViews m [] = [m] := by
  cases m with
  | nil => exact absurd rfl h
  | cons b bs => simp [splitViews]

theorem length_ne_zero_of_ne_nil (m : Bytes) (h : m ≠ []) : m.length ≠ 0 := by
  cases m with
  | nil => exact absurd rfl h
  | cons b bs => simp

/-- The payload loop on a walk that consists of one view `m`, with `m.length`
payload bytes owed: one update call over the whole view, one commit. -/
theorem km_AesGcmLoop_oneView {σ : Type} (K : Consts)
    (update : Option σ → Bytes → Nat → Bytes → Nat → Int × Option σ × Bytes)
    (T : Transport) (al fuel : Nat) (m iv : Bytes) (aes : Option σ) (dst : Bytes)
    (log : List Call) (hm : m ≠ []) (hu : (update aes m m.length [] 0).1 = 0)
    (hd : T.done_err 0 = 0) :
    km_AesGcmLoop K update T al (fuel + 2) ⟨[m], iv, 0, 0⟩ aes dst m.length 0 log =
      some ⟨none, (update aes m m.length [] 0).2.1,
        writeAt dst al (update aes m m.length [] 0).2.2, 0, 0,
        log ++ [Call.gcm_update m.length m.length m.length m.length 0, Call.walk_done 0 0]⟩ := by
  have hl := length_ne_zero_of_ne_nil m hm
  simp [km_AesGcmLoop, skcipher_walk.nbytes, skcipher_walk.src, skcipher_walk_done, hu, hd, hl]

theorem aad_in_first_segment (s0 : scatterlist) (rest : List scatterlist) (aad m : Bytes)
    (hsrc : sgBytes (s0 :: rest) = aad ++ m) (hs0 : aad.length ≤ s0.data.length) :
    (s0.data ++ s0.slack).take aad.length = aad := by
  have h1 : (s0.data ++ sgBytes rest).take aad.length = aad := by
    have : s0.data ++ sgBytes rest = aad ++ m := hsrc
    rw [this, List.take_left]
  rw [List.take_append_of_le_length hs0] at h1 ⊢
  exact h1

theorem payload_of_source (src : List scatterlist) (aad m : Bytes)
    (hsrc : sgBytes src = aad ++ m) :
    ((sgBytes src).drop aad.length).take m.length = m := by
  rw [hsrc, List.drop_left, List.take_length]

theorem u32_of_lt (n : Nat) (h : n < 4294967296) : u32 n = n := by
  unfold u32
  omega

/-- `km_AesGcmEncrypt` on a request whose associated data lies in the first
source segment and whose payload `m` is handed out as one view, when the calls
of the primitive's own encryption sequence succeed. -/
theorem km_AesGcmEncrypt_oneView {σ : Type} (K : Consts) (P : Primitive σ) (T : Transport)
    (fuel authsize : Nat) (ctx : km_AesCtx σ) (iv aad m dst0 : Bytes) (src : List scatterlist)
    (hstart : T.start_err = 0) (hdone : T.done_err 0 = 0) (hmap : T.map_err = false)
    (hsplit : T.split = []) (hm : m ≠ [])
    (hsrc : sgBytes src = aad ++ m)
    (hfirst : ∃ s0 rest, src = s0 :: rest ∧ aad.length ≤ s0.data.length)
    (hlen : aad.length + m.length < 4294967296)
    (hok : (gcmEncryptSeq P ctx.aes_encrypt iv aad m authsize).codes = [0, 0, 0, 0]) :
    ∃ r, km_AesGcmEncrypt K P T (fuel + 2) ctx authsize ⟨src, dst0, aad.length, m.length, iv⟩
        = some r ∧
      r.ret = 0 ∧
      r.ctx = { ctx with aes_encrypt := (gcmEncryptSeq P ctx.aes_encrypt iv aad m authsize).aes } ∧
      r.dst = writeAt
        (writeAt dst0 aad.length (gcmEncryptSeq P ctx.aes_encrypt iv aad m authsize).text)
        (aad.length + m.length) (gcmEncryptSeq P ctx.aes_encrypt iv aad m authsize).tag := by
  obtain ⟨s0, rest, rfl, hs0⟩ := hfirst
  have hassoc := aad_in_first_segment s0 rest aad m hsrc hs0
  have hpay := payload_of_source (s0 :: rest) aad m hsrc
  have hu := u32_of_lt _ hlen
  simp only [gcmEncryptSeq, List.cons.injEq, and_true] at hok
  obtain ⟨h1, h2, h3, h4⟩ := hok
  have hw : skcipher_walk_aead_encrypt T ⟨s0 :: rest, dst0, aad.length, m.length, iv⟩ =
      (0, ⟨[m], iv, 0, 0⟩) := by
    simp [skcipher_walk_aead_encrypt, skcipher_walk_aead, hstart, hsplit, hpay,
      splitViews_single m hm]
  have hmapped : scatterwalk_map T (s0 :: rest) = some (s0.data ++ s0.slack) := by
    simp [scatterwalk_map, hmap]
  have hloop := km_AesGcmLoop_oneView K P.wc_AesGcmEncryptUpdate T aad.length fuel m iv
    (P.wc_AesGcmEncryptUpdate
      (P.wc_AesGcmInit ctx.aes_encrypt (List.take AES_BLOCK_SIZE iv) AES_BLOCK_SIZE).2 [] 0 aad
      aad.length).2.1 dst0
  simp [km_AesGcmEncrypt, hw, hmapped, hassoc, h1, h2, h3, h4, hu, hloop, hm, hdone,
    gcmEncryptSeq]

theorem u32sub_add (c a : Nat) (h : c + a < 4294967296) : u32sub (c + a) a = c := by
  unfold u32sub u32
  omega

theorem tag_of_source (src : List scatterlist) (aad ct tag : Bytes)
    (hsrc : sgBytes src = aad ++ ct ++ tag) :
    sgRead src (aad.length + ct.length) tag.length = tag := by
  unfold sgRead
  rw [hsrc]
  have : aad.length + ct.length = (aad ++ ct).length := by simp
  rw [this, List.drop_left, List.take_length]

/-- `km_AesGcmDecrypt` on a request whose associated data lies in the first
source segment and whose ciphertext `ct` is handed out as one view, when the
calls of the primitive's own decryption sequence before finalisation succeed:
the returned value is decided by the result of finalisation on the tag that
ends the source range. -/
theorem km_AesGcmDecrypt_oneView {σ : Type} (K : Consts) (P : Primitive σ) (T : Transport)
    (fuel : Nat) (ctx : km_AesCtx σ) (iv aad ct tag dst0 : Bytes) (src : List scatterlist)
    (hstart : T.start_err = 0) (hdone : T.done_err 0 = 0) (hmap : T.map_err = false)
    (hsplit : T.split = []) (hct : ct ≠ [])
    (hsrc : sgBytes src = aad ++ ct ++ tag)
    (hfirst : ∃ s0 rest, src = s0 :: rest ∧ aad.length ≤ s0.data.length)
    (hlen : aad.length + ct.length + tag.length < 4294967296)
    (hok : (gcmDecryptSeq P ctx.aes_encrypt iv aad ct tag tag.length).codes.take 3 = [0, 0, 0]) :
    ∃ r, km_AesGcmDecrypt K P T (fuel + 2) ctx tag.length
        ⟨src, dst0, aad.length, ct.length + tag.length, iv⟩ = some r ∧
      r.ret = (if (gcmDecryptSeq P ctx.aes_encrypt iv aad ct tag tag.length).codes.getD 3 0 ≠ 0
          then
            if (gcmDecryptSeq P ctx.aes_encrypt iv aad ct tag tag.length).codes.getD 3 0
                = K.AES_GCM_AUTH_E then -K.EBADMSG else -K.EINVAL
          else 0) ∧
      r.ctx = { ctx with
        aes_encrypt := (gcmDecryptSeq P ctx.aes_encrypt iv aad ct tag tag.length).aes } ∧
      r.dst = writeAt dst0 aad.length
        (gcmDecryptSeq P ctx.aes_encrypt iv aad ct tag tag.length).text := by
  obtain ⟨s0, rest, rfl, hs0⟩ := hfirst
  have hsrc2 : sgBytes (s0 :: rest) = aad ++ (ct ++ tag) := by rw [hsrc, List.append_assoc]
  have hassoc := aad_in_first_segment s0 rest aad (ct ++ tag) hsrc2 hs0
  have hpay : ((sgBytes (s0 :: rest)).drop aad.length).take ct.length = ct := by
    rw [hsrc2, List.drop_left, List.take_left]
  have hleft : u32sub (ct.length + tag.length) tag.length = ct.length :=
    u32sub_add _ _ (by omega)
  have hoff : u32sub (u32 (aad.length + (ct.length + tag.length))) tag.length =
      aad.length + ct.length := by
    rw [u32_of_lt _ (by omega)]
    have : aad.length + (ct.length + tag.length) = (aad.length + ct.length) + tag.length := by
      omega
    rw [this]
    exact u32sub_add _ _ (by omega)
  have htag := tag_of_source (s0 :: rest) aad ct tag hsrc
  simp only [gcmDecryptSeq, List.take_succ_cons, List.take_zero, List.cons.injEq, and_true] at hok
  obtain ⟨h1, h2, h3⟩ := hok
  have hw : skcipher_walk_aead_decrypt T ⟨s0 :: rest, dst0, aad.length, ct.length + tag.length, iv⟩
      tag.length = (0, ⟨[ct], iv, 0, 0⟩) := by
    simp [skcipher_walk_aead_decrypt, skcipher_walk_aead, hstart, hsplit, hpay, hleft,
      splitViews_single ct hct]
  have hmapped : scatterwalk_map T (s0 :: rest) = some (s0.data ++ s0.slack) := by
    simp [scatterwalk_map, hmap]
  have hloop := km_AesGcmLoop_oneView K P.wc_AesGcmDecryptUpdate T aad.length fuel ct iv
    (P.wc_AesGcmDecryptUpdate
      (P.wc_AesGcmInit ctx.aes_encrypt (List.take AES_BLOCK_SIZE iv) AES_BLOCK_SIZE).2 [] 0 aad
      aad.length).2.1 dst0
  simp only [km_AesGcmDecrypt, hw, hmapped, hassoc, h1, h2, hleft, hoff, htag]
  simp only [ne_eq, not_true_eq_false, ↓reduceIte]
  rw [hloop _ hct h3 hdone]
  simp only [gcmDecryptSeq]
  by_cases h4 : (P.wc_AesGcmDecryptFinal
      (P.wc_AesGcmDecryptUpdate
        (P.wc_AesGcmDecryptUpdate
          (P.wc_AesGcmInit ctx.aes_encrypt (List.take AES_BLOCK_SIZE iv) AES_BLOCK_SIZE).2 [] 0
          aad aad.length).2.1 ct ct.length [] 0).2.1 tag tag.length).1 = 0
  · simp [h4]
  · by_cases h5 : (P.wc_AesGcmDecryptFinal
        (P.wc_AesGcmDecryptUpdate
          (P.wc_AesGcmDecryptUpdate
            (P.wc_AesGcmInit ctx.aes_encrypt (List.take AES_BLOCK_SIZE iv) AES_BLOCK_SIZE).2 [] 0
            aad aad.length).2.1 ct ct.length [] 0).2.1 tag tag.length).1 = K.AES_GCM_AUTH_E
    · simp [h5, K.AES_GCM_AUTH_E_ne]
    · simp [h4, h5]

/-! ### Reading back what `writeAt` stored -/

theorem writeAt_read (buf data : Bytes) (off : Nat) (h : off ≤ buf.length) :
    ((writeAt buf off data).drop off).take data.length = data := by
  unfold writeAt
  have hl : (buf.take off).length = off := by simp [h]
  rw [List.append_assoc, List.drop_left' hl, List.take_left]

theorem writeAt_length (buf data : Bytes) (off : Nat) (h : off + data.length ≤ buf.length) :
    (writeAt buf off data).length = buf.length := by
  unfold writeAt
  simp
  omega

theorem writeAt_read_before (buf data : Bytes) (off off2 n : Nat) (h1 : off + n ≤ off2)
    (h2 : off2 ≤ buf.length) :
    ((writeAt buf off2 data).drop off).take n = (buf.drop off).take n := by
  unfold writeAt
  rw [List.take_drop, List.take_drop, List.append_assoc,
    List.take_append_of_le_length (by simp; omega), List.take_take]
  congr 2
  omega

/-! ### C6 -/

/-- C6.  The transport is without faults and hands out the payload as one
view; the associated data `aad` lies in the first source segment of both
requests; the message `m` is not empty.  Suppose the primitive's own encryption
sequence (init, update with `aad`, update with `m`, final) succeeds on the
context's object and yields a ciphertext as long as `m` and a tag of `authsize`
bytes, and the primitive's own decryption sequence on these, run on the object
that encryption left behind, succeeds and yields `m`.  Then `km_AesGcmEncrypt`
returns 0 and stores exactly that ciphertext and tag behind the associated-data
range of the destination, and `km_AesGcmDecrypt` applied to
`aad ++ ciphertext ++ tag` returns 0 and stores exactly `m`. -/
theorem km_AesGcm_round_trip_oneView {σ : Type} (K : Consts) (P : Primitive σ) (T : Transport)
    (fuelE fuelD authsize : Nat) (ctx : km_AesCtx σ) (iv aad m dstE dstD : Bytes)
    (srcE srcD : List scatterlist)
    (hstart : T.start_err = 0) (hdone : T.done_err 0 = 0) (hmap : T.map_err = false)
    (hsplit : T.split = []) (hm : m ≠ []) (hfuelE : 2 ≤ fuelE) (hfuelD : 2 ≤ fuelD)
    (hlen : aad.length + m.length + authsize < 4294967296)
    (hsrcE : sgBytes srcE = aad ++ m)
    (hfirstE : ∃ s0 rest, srcE = s0 :: rest ∧ aad.length ≤ s0.data.length)
    (hencok : (gcmEncryptSeq P ctx.aes_encrypt iv aad m authsize).codes = [0, 0, 0, 0])
    (hctlen : (gcmEncryptSeq P ctx.aes_encrypt iv aad m authsize).text.length = m.length)
    (htaglen : (gcmEncryptSeq P ctx.aes_encrypt iv aad m authsize).tag.length = authsize)
    (hsrcD : sgBytes srcD = aad ++ (gcmEncryptSeq P ctx.aes_encrypt iv aad m authsize).text ++
      (gcmEncryptSeq P ctx.aes_encrypt iv aad m authsize).tag)
    (hfirstD : ∃ s0 rest, srcD = s0 :: rest ∧ aad.length ≤ s0.data.length)
    (hdecok : (gcmDecryptSeq P (gcmEncryptSeq P ctx.aes_encrypt iv aad m authsize).aes iv aad
      (gcmEncryptSeq P ctx.aes_encrypt iv aad m authsize).text
      (gcmEncryptSeq P ctx.aes_encrypt iv aad m authsize).tag authsize).codes = [0, 0, 0, 0])
    (hdectext : (gcmDecryptSeq P (gcmEncryptSeq P ctx.aes_encrypt iv aad m authsize).aes iv aad
      (gcmEncryptSeq P ctx.aes_encrypt iv aad m authsize).text
      (gcmEncryptSeq P ctx.aes_encrypt iv aad m authsize).tag authsize).text = m)
    (hdstE : aad.length + m.length + authsize ≤ dstE.length)
    (hdstD : aad.length + m.length ≤ dstD.length) :
    ∃ e d,
      km_AesGcmEncrypt K P T fuelE ctx authsize ⟨srcE, dstE, aad.length, m.length, iv⟩ = some e ∧
      e.ret = 0 ∧
      (e.dst.drop aad.length).take m.length =
        (gcmEncryptSeq P ctx.aes_encrypt iv aad m authsize).text ∧
      (e.dst.drop (aad.length + m.length)).take authsize =
        (gcmEncryptSeq P ctx.aes_encrypt iv aad m authsize).tag ∧
      km_AesGcmDecrypt K P T fuelD e.ctx authsize
        ⟨srcD, dstD, aad.length, m.length + authsize, iv⟩ = some d ∧
      d.ret = 0 ∧
      (d.dst.drop aad.length).take m.length = m := by
  obtain ⟨fE, rfl⟩ : ∃ f, fuelE = f + 2 := ⟨fuelE - 2, by omega⟩
  obtain ⟨fD, rfl⟩ : ∃ f, fuelD = f + 2 := ⟨fuelD - 2, by omega⟩
  obtain ⟨e, he, heret, hectx, hedst⟩ := km_AesGcmEncrypt_oneView K P T fE authsize ctx iv aad m
    dstE srcE hstart hdone hmap hsplit hm hsrcE hfirstE (by omega) hencok
  generalize hq : gcmEncryptSeq P ctx.aes_encrypt iv aad m authsize = q at *
  have hct : q.text ≠ [] := by
    intro h
    rw [h] at hctlen
    exact length_ne_zero_of_ne_nil m hm hctlen.symm
  have hctxaes : e.ctx.aes_encrypt = q.aes := by rw [hectx]
  have hdecok3 : (gcmDecryptSeq P e.ctx.aes_encrypt iv aad q.text q.tag q.tag.length).codes.take 3
      = [0, 0, 0] := by
    rw [hctxaes, htaglen, hdecok]
    rfl
  obtain ⟨d, hd, hdret, _, hddst⟩ := km_AesGcmDecrypt_oneView K P T fD e.ctx iv aad q.text q.tag
    dstD srcD hstart hdone hmap hsplit hct hsrcD hfirstD (by rw [hctlen, htaglen]; omega) hdecok3
  rw [hctxaes, htaglen] at hdret hddst
  rw [htaglen, hctlen] at hd
  refine ⟨e, d, he, heret, ?_, ?_, hd, ?_, ?_⟩
  · rw [hedst, ← hctlen]
    rw [writeAt_read_before _ _ _ _ _ (by omega)
      (by rw [writeAt_length _ _ _ (by omega)]; omega)]
    exact writeAt_read _ _ _ (by omega)
  · rw [hedst, ← htaglen]
    exact writeAt_read _ _ _ (by rw [writeAt_length _ _ _ (by omega)]; omega)
  · rw [hdret, hdecok]
    simp
  · rw [hddst, hdectext]
    exact writeAt_read _ _ _ (by omega)

set_option maxRecDepth 100000 in
/-- Witness for `km_AesGcm_round_trip_oneView`: the data of `linuxkm_test_aesgcm`
with the stand-in primitive. -/
theorem km_AesGcm_round_trip_oneView_witness :
    gcmTestSeq.codes = [0, 0, 0, 0] ∧ gcmTestSeq.text.length = 24 ∧ gcmTestSeq.tag.length = 16 ∧
    ∃ e d,
      km_AesGcmEncrypt linuxConsts (toyPrimitive linuxConsts) Transport.oneView 2 toyCtx 16
        ⟨gcmTestEncrypt.src, gcmTestEncrypt.dst, testAssoc.length, gcmVector.length, testIv⟩
        = some e ∧
      e.ret = 0 ∧
      (e.dst.drop testAssoc.length).take gcmVector.length = gcmTestSeq.text ∧
      (e.dst.drop (testAssoc.length + gcmVector.length)).take 16 = gcmTestSeq.tag ∧
      km_AesGcmDecrypt linuxConsts (toyPrimitive linuxConsts) Transport.oneView 2 e.ctx 16
        ⟨gcmTestDecrypt.src, gcmTestDecrypt.dst, testAssoc.length, gcmVector.length + 16, testIv⟩
        = some d ∧
      d.ret = 0 ∧
      (d.dst.drop testAssoc.length).take gcmVector.length = gcmVector :=
  ⟨by decide, by decide, by decide,
    km_AesGcm_round_trip_oneView linuxConsts (toyPrimitive linuxConsts) Transport.oneView 2 2 16
      toyCtx testIv testAssoc gcmVector gcmTestEncrypt.dst gcmTestDecrypt.dst gcmTestEncrypt.src
      gcmTestDecrypt.src (by decide) (by decide) (by decide) (by decide) (by decide) (by decide)
      (by decide) (by decide) (by decide) ⟨⟨testAssoc, []⟩, [⟨gcmVector, []⟩], rfl, by decide⟩
      (by decide) (by decide) (by decide) (by decide)
      ⟨⟨testAssoc, []⟩, [⟨gcmTestSeq.text ++ gcmTestSeq.tag, []⟩], rfl, by decide⟩
      (by decide) (by decide) (by decide) (by decide)⟩

/-! ### The payload loop of the GCM entry points returns -/

theorem splitViews_total : ∀ (split : List Nat) (data : Bytes),
    ((splitViews data split).map List.length).sum = data.length := by
  intro split
  induction split with
  | nil =>
    intro data
    cases data <;> simp [splitViews]
  | cons k ks ih =>
    intro data
    cases data with
    | nil => simp [splitViews]
    | cons b bs =>
      by_cases hk : k = 0
      · simp only [splitViews, List.isEmpty_cons, hk]
        simpa using ih (b :: bs)
      · by_cases hle : (b :: bs).length ≤ k
        · have hle' : bs.length + 1 ≤ k := by simpa using hle
          simp [splitViews, hk, hle']
        · simp only [splitViews, List.isEmpty_cons, hk, hle]
          simp only [Bool.false_eq_true, ↓reduceIte, List.map_cons, List.sum_cons, ih,
            List.length_take, List.length_drop]
          omega

/-- With no more bytes in the walk than payload bytes owed, the payload loop
returns within one iteration per view, plus one.  It records only update and
commit calls, and when it ends the function early one of them has failed. -/
theorem km_AesGcmLoop_returns {σ : Type} (K : Consts)
    (update : Option σ → Bytes → Nat → Bytes → Nat → Int × Option σ × Bytes)
    (T : Transport) (al : Nat) :
    ∀ (fuel : Nat) (walk : skcipher_walk) (aes : Option σ) (dst : Bytes) (cl : Nat)
      (log : List Call),
      walk.total ≤ cl → walk.views.length < fuel →
      ∃ out, km_AesGcmLoop K update T al fuel walk aes dst cl 0 log = some out ∧
        (∀ c ∈ out.log, c ∈ log ∨ c.inLoop = true) ∧
        (out.returned ≠ none → ∃ c ∈ out.log, c.inLoop = true ∧ c.failed = true) := by
  intro fuel
  induction fuel with
  | zero => intro walk aes dst cl log _ h; omega
  | succ fuel ih =>
    intro walk aes dst cl log htot hfuel
    obtain ⟨views, iv, off, ndone⟩ := walk
    cases views with
    | nil =>
      refine ⟨⟨none, aes, dst, cl, 0, log⟩, ?_, ?_, ?_⟩
      · simp [km_AesGcmLoop, skcipher_walk.nbytes]
      · intro c hc; exact Or.inl hc
      · intro h; exact absurd rfl h
    | cons v rest =>
      by_cases hv : v.length = 0
      · refine ⟨⟨none, aes, dst, cl, 0, log⟩, ?_, ?_, ?_⟩
        · simp [km_AesGcmLoop, skcipher_walk.nbytes, hv]
        · intro c hc; exact Or.inl hc
        · intro h; exact absurd rfl h
      · have htot' : v.length + (rest.map List.length).sum ≤ cl := by
          simpa [skcipher_walk.total] using htot
        have hcl : cl ≠ 0 := by omega
        have hnlt : ¬ cl < v.length := by omega
        by_cases hu : (update aes (v.take cl) cl [] 0).1 = 0
        · by_cases hd : T.done_err ndone = 0
          · have hrest : (⟨rest, iv, off + v.length, ndone + 1⟩ : skcipher_walk).total
                ≤ cl - v.length := by
              simp only [skcipher_walk.total]
              omega
            have hlen : (⟨rest, iv, off + v.length, ndone + 1⟩ : skcipher_walk).views.length
                < fuel := by
              simp only [List.length_cons] at hfuel
              simp only
              omega
            obtain ⟨out, ho, hlog, hret⟩ := ih ⟨rest, iv, off + v.length, ndone + 1⟩
              (update aes (v.take cl) cl [] 0).2.1
              (writeAt dst (al + off) (update aes (v.take cl) cl [] 0).2.2) (cl - v.length)
              (log ++ [Call.gcm_update v.length cl cl v.length 0] ++ [Call.walk_done 0 0])
              hrest hlen
            refine ⟨out, ?_, ?_, hret⟩
            · rw [← ho]
              simp [km_AesGcmLoop, skcipher_walk.nbytes, skcipher_walk.src, skcipher_walk_done,
                hv, hcl, hnlt, hu, hd]
            · intro c hc
              rcases hlog c hc with h | h
              · simp only [List.mem_append, List.mem_singleton] at h
                rcases h with (h | h) | h
                · exact Or.inl h
                · right; rw [h]; rfl
                · right; rw [h]; rfl
              · exact Or.inr h
          · refine ⟨⟨some (T.done_err ndone), (update aes (v.take cl) cl [] 0).2.1,
              writeAt dst (al + off) (update aes (v.take cl) cl [] 0).2.2, cl - v.length,
              T.done_err ndone,
              log ++ [Call.gcm_update v.length cl cl v.length 0] ++
                [Call.walk_done 0 (T.done_err ndone)]⟩, ?_, ?_, ?_⟩
            · simp [km_AesGcmLoop, skcipher_walk.nbytes, skcipher_walk.src, skcipher_walk_done,
                hv, hcl, hnlt, hu, hd]
            · intro c hc
              simp only [List.mem_append, List.mem_singleton] at hc
              rcases hc with (h | h) | h
              · exact Or.inl h
              · right; rw [h]; rfl
              · right; rw [h]; rfl
            · intro _
              exact ⟨Call.walk_done 0 (T.done_err ndone), by simp, rfl, by simp [Call.failed, hd]⟩
        · refine ⟨⟨some (-K.EINVAL), (update aes (v.take cl) cl [] 0).2.1,
            writeAt dst (al + off) (update aes (v.take cl) cl [] 0).2.2, cl - v.length,
            (update aes (v.take cl) cl [] 0).1,
            log ++ [Call.gcm_update v.length cl cl v.length (update aes (v.take cl) cl [] 0).1]⟩,
            ?_, ?_, ?_⟩
          · simp [km_AesGcmLoop, skcipher_walk.nbytes, skcipher_walk.src, hv, hcl, hnlt, hu]
          · intro c hc
            simp only [List.mem_append, List.mem_singleton] at hc
            rcases hc with h | h
            · exact Or.inl h
            · right; rw [h]; rfl
          · intro _
            exact ⟨Call.gcm_update v.length cl cl v.length (update aes (v.take cl) cl [] 0).1,
              by simp, rfl, by simp [Call.failed, hu]⟩

/-! ### C7 -/

/-- C10, amended.  The transport is without faults and hands out the payload as
one view, the associated data lies in the first source segment, the message is
not empty, and the calls of the primitive's encryption sequence succeed and
yield a ciphertext as long as the message and a tag of `authsize` bytes.  Then
`km_AesGcmEncrypt` returns 0, and the destination range holds at
`[0, assoclen)` the bytes it held before the call, at
`[assoclen, assoclen + cryptlen)` the ciphertext, and at
`[assoclen + cryptlen, assoclen + cryptlen + authsize)` the first `authsize`
bytes of the tag that finalisation computed. -/
theorem km_AesGcmEncrypt_dst_layout {σ : Type} (K : Consts) (P : Primitive σ) (T : Transport)
    (fuel authsize : Nat) (ctx : km_AesCtx σ) (iv aad m dst0 : Bytes) (src : List scatterlist)
    (hstart : T.start_err = 0) (hdone : T.done_err 0 = 0) (hmap : T.map_err = false)
    (hsplit : T.split = []) (hm : m ≠ []) (hfuel : 2 ≤ fuel)
    (hlen : aad.length + m.length + authsize < 4294967296)
    (hsrc : sgBytes src = aad ++ m)
    (hfirst : ∃ s0 rest, src = s0 :: rest ∧ aad.length ≤ s0.data.length)
    (hok : (gcmEncryptSeq P ctx.aes_encrypt iv aad m authsize).codes = [0, 0, 0, 0])
    (hctlen : (gcmEncryptSeq P ctx.aes_encrypt iv aad m authsize).text.length = m.length)
    (htaglen : (gcmEncryptSeq P ctx.aes_encrypt iv aad m authsize).tag.length = authsize)
    (hdst : aad.length + m.length + authsize ≤ dst0.length) :
    ∃ r, km_AesGcmEncrypt K P T fuel ctx authsize ⟨src, dst0, aad.length, m.length, iv⟩ = some r ∧
      r.ret = 0 ∧
      r.dst.length = dst0.length ∧
      r.dst.take aad.length = dst0.take aad.length ∧
      (r.dst.drop aad.length).take m.length =
        (gcmEncryptSeq P ctx.aes_encrypt iv aad m authsize).text ∧
      (r.dst.drop (aad.length + m.length)).take authsize =
        ((P.wc_AesGcmEncryptFinal
          (P.wc_AesGcmEncryptUpdate
            (P.wc_AesGcmEncryptUpdate
              (P.wc_AesGcmInit ctx.aes_encrypt (iv.take AES_BLOCK_SIZE) AES_BLOCK_SIZE).2
              [] 0 aad aad.length).2.1 m m.length [] 0).2.1 authsize).2.2).take authsize := by
  obtain ⟨f, rfl⟩ : ∃ f, fuel = f + 2 := ⟨fuel - 2, by omega⟩
  obtain ⟨r, hr, hret, _, hrdst⟩ := km_AesGcmEncrypt_oneView K P T f authsize ctx iv aad m
    dst0 src hstart hdone hmap hsplit hm hsrc hfirst (by omega) hok
  have htag : ((P.wc_AesGcmEncryptFinal
          (P.wc_AesGcmEncryptUpdate
            (P.wc_AesGcmEncryptUpdate
              (P.wc_AesGcmInit ctx.aes_encrypt (iv.take AES_BLOCK_SIZE) AES_BLOCK_SIZE).2
              [] 0 aad aad.length).2.1 m m.length [] 0).2.1 authsize).2.2).take authsize
      = (gcmEncryptSeq P ctx.aes_encrypt iv aad m authsize).tag := rfl
  rw [htag]
  generalize gcmEncryptSeq P ctx.aes_encrypt iv aad m authsize = q at *
  have hl1 : (writeAt dst0 aad.length q.text).length = dst0.length :=
    writeAt_length _ _ _ (by omega)
  refine ⟨r, hr, hret, ?_, ?_, ?_, ?_⟩
  · rw [hrdst, writeAt_length _ _ _ (by rw [hl1]; omega), hl1]
  · rw [hrdst]
    have h1 := writeAt_read_before (writeAt dst0 aad.length q.text) q.tag 0
      (aad.length + m.length) aad.length (by omega) (by omega)
    have h2 := writeAt_read_before dst0 q.text 0 aad.length aad.length (by omega) (by omega)
    simp only [List.drop_zero] at h1 h2
    rw [h1, h2]
  · rw [hrdst, ← hctlen]
    rw [writeAt_read_before _ _ _ _ _ (by omega) (by omega)]
    exact writeAt_read _ _ _ (by omega)
  · rw [hrdst, ← htaglen]
    exact writeAt_read _ _ _ (by omega)

set_option maxRecDepth 100000 in
/-- Witness for `km_AesGcmEncrypt_dst_layout`: the encryption request of
`linuxkm_test_aesgcm` with the stand-in primitive. -/
theorem km_AesGcmEncrypt_dst_layout_witness :
    gcmTestSeq.codes = [0, 0, 0, 0] ∧
    ∃ r, km_AesGcmEncrypt linuxConsts (toyPrimitive linuxConsts) Transport.oneView 2 toyCtx 16
        ⟨gcmTestEncrypt.src, gcmTestEncrypt.dst, testAssoc.length, gcmVector.length, testIv⟩
        = some r ∧
      r.ret = 0 ∧
      r.dst.length = gcmTestEncrypt.dst.length ∧
      r.dst.take testAssoc.length = gcmTestEncrypt.dst.take testAssoc.length ∧
      (r.dst.drop testAssoc.length).take gcmVector.length = gcmTestSeq.text ∧
      (r.dst.drop (testAssoc.length + gcmVector.length)).take 16 = gcmTestSeq.tag :=
  ⟨by decide,
    km_AesGcmEncrypt_dst_layout linuxConsts (toyPrimitive linuxConsts) Transport.oneView 2 16
      toyCtx testIv testAssoc gcmVector gcmTestEncrypt.dst gcmTestEncrypt.src
      (by decide) (by decide) (by decide) (by decide) (by decide) (by decide) (by decide)
      (by decide) ⟨⟨testAssoc, []⟩, [⟨gcmVector, []⟩], rfl, by decide⟩
      (by decide) (by decide) (by decide) (by decide)⟩

/-! ### C16 -/

/-- C16.  If `km_AesInitCommon` returns 0, the allocation of the encryption
state succeeded, the primitive's init accepted it, and the context points to
the initialised object; if `need_decryption` is not 0 the same holds for the
decryption state, and if it is 0 the decryption pointer is `NULL`.  A
successful `km_AesCbcInit` leaves a decryption state, a successful
`km_AesCfbInit` or `km_AesGcmInit` leaves the decryption pointer `NULL`. -/
theorem km_AesInitCommon_success {σ : Type} (K : Consts) (W : WcConsts) (L : AesLifecycle σ)
    (H : Heap σ) (ctx : km_AesCtx σ) (need_decryption : Int)
    (h : (km_AesInitCommon K W L H ctx need_decryption).1 = 0) :
    (H.malloc_ok Slot.aes_encrypt = true ∧ (L.wc_AesInit (H.raw Slot.aes_encrypt)).1 = 0 ∧
      (km_AesInitCommon K W L H ctx need_decryption).2.1.aes_encrypt =
        some (L.wc_AesInit (H.raw Slot.aes_encrypt)).2) ∧
    (need_decryption ≠ 0 →
      H.malloc_ok Slot.aes_decrypt = true ∧ (L.wc_AesInit (H.raw Slot.aes_decrypt)).1 = 0 ∧
      (km_AesInitCommon K W L H ctx need_decryption).2.1.aes_decrypt =
        some (L.wc_AesInit (H.raw Slot.aes_decrypt)).2) ∧
    (need_decryption = 0 →
      (km_AesInitCommon K W L H ctx need_decryption).2.1.aes_decrypt = none) ∧
    (∀ c : km_AesCtx σ, (km_AesCbcInit K W L H c).1 = 0 →
      (km_AesCbcInit K W L H c).2.1.aes_decrypt =
        some (L.wc_AesInit (H.raw Slot.aes_decrypt)).2) ∧
    (∀ c : km_AesCtx σ, (km_AesCfbInit K W L H c).1 = 0 →
      (km_AesCfbInit K W L H c).2.1.aes_decrypt = none) ∧
    (∀ c : km_AesCtx σ, (km_AesGcmInit K W L H c).1 = 0 →
      (km_AesGcmInit K W L H c).2.1.aes_decrypt = none) := by
  have hM : W.MEMORY_E ≠ 0 := by have := W.MEMORY_E_neg; omega
  have hE : -K.EINVAL ≠ 0 := by have := K.EINVAL_pos; omega
  have key : ∀ (c : km_AesCtx σ) (nd : Int), (km_AesInitCommon K W L H c nd).1 = 0 →
      (H.malloc_ok Slot.aes_encrypt = true ∧ (L.wc_AesInit (H.raw Slot.aes_encrypt)).1 = 0 ∧
        (km_AesInitCommon K W L H c nd).2.1.aes_encrypt =
          some (L.wc_AesInit (H.raw Slot.aes_encrypt)).2) ∧
      (nd ≠ 0 →
        H.malloc_ok Slot.aes_decrypt = true ∧ (L.wc_AesInit (H.raw Slot.aes_decrypt)).1 = 0 ∧
        (km_AesInitCommon K W L H c nd).2.1.aes_decrypt =
          some (L.wc_AesInit (H.raw Slot.aes_decrypt)).2) ∧
      (nd = 0 → (km_AesInitCommon K W L H c nd).2.1.aes_decrypt = none) := by
    intro c nd h0
    unfold km_AesInitCommon at h0 ⊢
    by_cases h1 : H.malloc_ok Slot.aes_encrypt = false
    · simp [h1, hM] at h0
    · by_cases h2 : (L.wc_AesInit (H.raw Slot.aes_encrypt)).1 = 0
      · by_cases h3 : nd = 0
        · simp [h1, h2, h3]
        · by_cases h4 : H.malloc_ok Slot.aes_decrypt = false
          · simp [h1, h2, h3, h4, hM] at h0
          · by_cases h5 : (L.wc_AesInit (H.raw Slot.aes_decrypt)).1 = 0
            · simp [h1, h2, h3, h4, h5]
            · simp [h1, h2, h3, h4, h5, hE, K.EINVAL_pos.ne'] at h0
      · simp [h1, h2, hE, K.EINVAL_pos.ne'] at h0
  refine ⟨(key ctx need_decryption h).1, (key ctx need_decryption h).2.1,
    (key ctx need_decryption h).2.2, ?_, ?_, ?_⟩
  · intro c hc
    exact ((key c 1 hc).2.1 (by decide)).2.2
  · intro c hc
    exact (key c 0 hc).2.2 rfl
  · intro c hc
    exact (key c 0 hc).2.2 rfl

/-- Witness for `km_AesInitCommon_success`: with an allocator that succeeds and
the stand-in primitive, `km_AesInitCommon` with `need_decryption = 1` returns 0. -/
theorem km_AesInitCommon_success_witness :
    (km_AesInitCommon linuxConsts linuxWc toyLifecycle toyHeap km_AesCtx.null 1).1 = 0 ∧
    (km_AesInitCommon linuxConsts linuxWc toyLifecycle toyHeap km_AesCtx.null 1).2.1.aes_decrypt
      = some ⟨[], [], 0, [], []⟩ ∧
    (km_AesCfbInit linuxConsts linuxWc toyLifecycle toyHeap km_AesCtx.null).1 = 0 ∧
    (km_AesCfbInit linuxConsts linuxWc toyLifecycle toyHeap km_AesCtx.null).2.1.aes_decrypt
      = none :=
  have h := km_AesInitCommon_success linuxConsts linuxWc toyLifecycle toyHeap km_AesCtx.null 1
    (by decide)
  ⟨by decide, (h.2.1 (by decide)).2.2, by decide, h.2.2.2.2.1 km_AesCtx.null (by decide)⟩

/-! ### C17 -/

/-- What `km_AesInitCommon` does when it fails, started on a context whose
pointers are `NULL`: both pointers are `NULL` on return and every slot was
freed as often as it was allocated. -/
theorem km_AesInitCommon_failure_clean {σ : Type} (K : Consts) (W : WcConsts)
    (L : AesLifecycle σ) (H : Heap σ) (need_decryption : Int)
    (h : (km_AesInitCommon K W L H km_AesCtx.null need_decryption).1 ≠ 0) :
    (km_AesInitCommon K W L H km_AesCtx.null need_decryption).2.1.aes_encrypt = none ∧
    (km_AesInitCommon K W L H km_AesCtx.null need_decryption).2.1.aes_decrypt = none ∧
    ∀ s, mallocCount s (km_AesInitCommon K W L H km_AesCtx.null need_decryption).2.2 =
      freeCount s (km_AesInitCommon K W L H km_AesCtx.null need_decryption).2.2 := by
  unfold km_AesInitCommon at h ⊢
  by_cases h1 : H.malloc_ok Slot.aes_encrypt = false
  · refine ⟨?_, ?_, ?_⟩
    · simp [h1]
    · simp [h1, km_AesCtx.null]
    · intro s
      cases s <;> simp [h1, mallocCount, freeCount]
  · have h1' : H.malloc_ok Slot.aes_encrypt = true := by simpa using h1
    by_cases h2 : (L.wc_AesInit (H.raw Slot.aes_encrypt)).1 = 0
    · by_cases h3 : need_decryption = 0
      · simp [h1, h2, h3] at h
      · by_cases h4 : H.malloc_ok Slot.aes_decrypt = false
        · refine ⟨?_, ?_, ?_⟩
          · simp [h1', h2, h3, h4, km_AesExitCommon]
          · simp [h1', h2, h3, h4, km_AesExitCommon]
          · intro s
            cases s <;> simp [h1', h2, h3, h4, km_AesExitCommon, mallocCount, freeCount]
        · have h4' : H.malloc_ok Slot.aes_decrypt = true := by simpa using h4
          by_cases h5 : (L.wc_AesInit (H.raw Slot.aes_decrypt)).1 = 0
          · simp [h1, h2, h3, h4, h5] at h
          · refine ⟨?_, ?_, ?_⟩
            · simp [h1', h2, h3, h4', h5, km_AesExitCommon]
            · simp [h1', h2, h3, h4', h5, km_AesExitCommon]
            · intro s
              cases s <;>
                simp [h1', h2, h3, h4', h5, km_AesExitCommon, mallocCount, freeCount]
    · refine ⟨?_, ?_, ?_⟩
      · simp [h1', h2]
      · simp [h1', h2, km_AesCtx.null]
      · intro s
        cases s <;> simp [h1', h2, mallocCount, freeCount]

/-- C17, the code at a failing input.  The allocation succeeds and the
primitive's `wc_AesXtsInit` fails: `km_AesXtsInitCommon` returns `-EINVAL`
with the context still pointing to the allocated object, which has been
allocated once and not freed. -/
theorem km_AesXtsInitCommon_init_failure_leaks :
    (km_AesXtsInitCommon linuxConsts linuxWc failingXtsInit toyXtsHeap ⟨none⟩).1 = -22 ∧
    (km_AesXtsInitCommon linuxConsts linuxWc failingXtsInit toyXtsHeap ⟨none⟩).2.1.aesXts
      = some 0 ∧
    (km_AesXtsInitCommon linuxConsts linuxWc failingXtsInit toyXtsHeap ⟨none⟩).2.2 =
      [MemEvent.malloc Slot.aesXts true, MemEvent.init Slot.aesXts (-173)] ∧
    mallocCount Slot.aesXts
      (km_AesXtsInitCommon linuxConsts linuxWc failingXtsInit toyXtsHeap ⟨none⟩).2.2 = 1 ∧
    freeCount Slot.aesXts
      (km_AesXtsInitCommon linuxConsts linuxWc failingXtsInit toyXtsHeap ⟨none⟩).2.2 = 0 := by
  decide

/-! ### C18 -/

/-- C18.  `km_AesExitCommon` leaves both pointers `NULL`; it calls the
primitive's free and `free` once for each pointer that was not `NULL` and not
at all for one that was; a second call makes no call and changes nothing. -/
theorem km_AesExitCommon_idempotent {σ : Type} (ctx : km_AesCtx σ) :
    (km_AesExitCommon ctx).1.aes_encrypt = none ∧
    (km_AesExitCommon ctx).1.aes_decrypt = none ∧
    freeCount Slot.aes_encrypt (km_AesExitCommon ctx).2 =
      (if ctx.aes_encrypt.isSome then 1 else 0) ∧
    freeCount Slot.aes_decrypt (km_AesExitCommon ctx).2 =
      (if ctx.aes_decrypt.isSome then 1 else 0) ∧
    (km_AesExitCommon ctx).2.count (MemEvent.wc_free Slot.aes_encrypt) =
      (if ctx.aes_encrypt.isSome then 1 else 0) ∧
    (km_AesExitCommon ctx).2.count (MemEvent.wc_free Slot.aes_decrypt) =
      (if ctx.aes_decrypt.isSome then 1 else 0) ∧
    freeCount Slot.aesXts (km_AesExitCommon ctx).2 = 0 ∧
    (km_AesExitCommon (km_AesExitCommon ctx).1).1.aes_encrypt = none ∧
    (km_AesExitCommon (km_AesExitCommon ctx).1).1.aes_decrypt = none ∧
    (km_AesExitCommon (km_AesExitCommon ctx).1).2 = [] := by
  obtain ⟨e, d⟩ := ctx
  cases e <;> cases d <;> simp [km_AesExitCommon, freeCount]

/-! ### C19 -/

/-- C19.  On a context whose encryption pointer is not `NULL`,
`km_AesSetKeyCommon` returns 0 exactly if the primitive accepts the key for the
encryption state and, when there is a decryption state, for it as well, and
returns `-ENOKEY` otherwise.  In every case each pointer is `NULL` after the
call exactly if it was before, so that `km_AesExitCommon` releases the same
states as it would have before the call. -/
theorem km_AesSetKeyCommon_result {σ : Type} (W : WcConsts) (L : AesLifecycle σ)
    (ctx : km_AesCtx σ) (in_key : Bytes) (a : σ) (ha : ctx.aes_encrypt = some a) :
    ((km_AesSetKeyCommon W L ctx in_key).1 = 0 ↔
      (L.wc_AesSetKey a in_key none Dir.AES_ENCRYPTION).1 = 0 ∧
      ∀ d, ctx.aes_decrypt = some d →
        (L.wc_AesSetKey d in_key none Dir.AES_DECRYPTION).1 = 0) ∧
    ((km_AesSetKeyCommon W L ctx in_key).1 ≠ 0 →
      (km_AesSetKeyCommon W L ctx in_key).1 = -W.ENOKEY) ∧
    (km_AesSetKeyCommon W L ctx in_key).2.aes_encrypt.isSome = ctx.aes_encrypt.isSome ∧
    (km_AesSetKeyCommon W L ctx in_key).2.aes_decrypt.isSome = ctx.aes_decrypt.isSome ∧
    (km_AesExitCommon (km_AesSetKeyCommon W L ctx in_key).2).2 = (km_AesExitCommon ctx).2 := by
  have hK : -W.ENOKEY ≠ 0 := by have := W.ENOKEY_pos; omega
  obtain ⟨e, d⟩ := ctx
  simp only at ha
  subst ha
  unfold km_AesSetKeyCommon
  by_cases h1 : (L.wc_AesSetKey a in_key none Dir.AES_ENCRYPTION).1 = 0
  · cases d with
    | none => simp [onObject, h1, km_AesExitCommon]
    | some d0 =>
      by_cases h2 : (L.wc_AesSetKey d0 in_key none Dir.AES_DECRYPTION).1 = 0
      · simp [onObject, h1, h2, km_AesExitCommon]
      · simp [onObject, h1, h2, km_AesExitCommon, hK, W.ENOKEY_pos.ne']
  · cases d <;> simp [onObject, h1, km_AesExitCommon, hK, W.ENOKEY_pos.ne']

/-- Witness for `km_AesSetKeyCommon_result`: the 32-byte self-test key on a
context with both states, and a 5-byte key that the stand-in primitive rejects. -/
theorem km_AesSetKeyCommon_result_witness :
    toyCtx.aes_encrypt = some ⟨[], [], 0, [], []⟩ ∧
    (km_AesSetKeyCommon linuxWc toyLifecycle toyCtx key32).1 = 0 ∧
    (km_AesSetKeyCommon linuxWc toyLifecycle toyCtx [1, 2, 3, 4, 5]).1 = -126 :=
  have h := km_AesSetKeyCommon_result linuxWc toyLifecycle toyCtx [1, 2, 3, 4, 5]
    ⟨[], [], 0, [], []⟩ rfl
  ⟨rfl, by decide, h.2.1 (by decide)⟩

/-! ### C20 -/

/-- C20.  `km_AesGcmSetAuthsize` returns 0 exactly if
`WOLFSSL_MIN_AUTH_TAG_SZ <= authsize <= 16`, and `-EINVAL` otherwise. -/
theorem km_AesGcmSetAuthsize_range (K : Consts) (W : WcConsts) (authsize : Nat) :
    (km_AesGcmSetAuthsize K W authsize = 0 ↔
      W.WOLFSSL_MIN_AUTH_TAG_SZ ≤ authsize ∧ authsize ≤ 16) ∧
    (¬ (W.WOLFSSL_MIN_AUTH_TAG_SZ ≤ authsize ∧ authsize ≤ 16) →
      km_AesGcmSetAuthsize K W authsize = -K.EINVAL) := by
  have hE : -K.EINVAL ≠ 0 := by have := K.EINVAL_pos; omega
  unfold km_AesGcmSetAuthsize AES_BLOCK_SIZE
  by_cases h : authsize > 16 ∨ authsize < W.WOLFSSL_MIN_AUTH_TAG_SZ
  · rw [if_pos h]
    refine ⟨⟨fun h0 => absurd h0 hE, fun h0 => ?_⟩, fun _ => rfl⟩
    omega
  · rw [if_neg h]
    refine ⟨⟨fun _ => ?_, fun _ => rfl⟩, fun h0 => ?_⟩
    · omega
    · exact absurd (by omega) h0

/-! ### C11 -/

set_option maxRecDepth 100000 in
/-- C11, counterexample.  The stand-in XTS primitive rejects every input
shorter than 16 bytes, the empty one included.  On the empty request the walk
has no view: `km_AesXtsEncrypt` and `km_AesXtsDecrypt` make no primitive call
and return 0. -/
theorem km_AesXts_empty_request_returns_zero :
    (toyXts.wc_AesXtsEncrypt toyXtsCtx.aesXts [] testIv).1 = -173 ∧
    (toyXts.wc_AesXtsDecrypt toyXtsCtx.aesXts [] testIv).1 = -173 ∧
    km_AesXtsEncrypt linuxConsts toyXts Transport.oneView 1 toyXtsCtx ⟨[], testIv⟩ =
      some ⟨0, [], [Call.walk_start 0]⟩ ∧
    km_AesXtsDecrypt linuxConsts toyXts Transport.oneView 1 toyXtsCtx ⟨[], testIv⟩ =
      some ⟨0, [], [Call.walk_start 0]⟩ := by
  decide

/-- The first view of a non-empty range is not empty and no longer than the range. -/
theorem splitViews_head : ∀ (split : List Nat) (data : Bytes), data ≠ [] →
    ∃ v rest, splitViews data split = v :: rest ∧ v ≠ [] ∧ v.length ≤ data.length := by
  intro split
  induction split with
  | nil =>
    intro data hd
    exact ⟨data, [], splitViews_single data hd, hd, Nat.le_refl _⟩
  | cons k ks ih =>
    intro data hd
    cases data with
    | nil => exact absurd rfl hd
    | cons b bs =>
      by_cases hk : k = 0
      · obtain ⟨v, rest, h1, h2, h3⟩ := ih (b :: bs) hd
        exact ⟨v, rest, by simp only [splitViews, List.isEmpty_cons, hk]; simpa using h1, h2, h3⟩
      · by_cases hle : bs.length + 1 ≤ k
        · exact ⟨b :: bs, [], by simp [splitViews, hk, hle], hd, Nat.le_refl _⟩
        · refine ⟨(b :: bs).take k, splitViews ((b :: bs).drop k) ks, ?_, ?_, ?_⟩
          · simp [splitViews, hk, hle]
          · cases k with
            | zero => exact absurd rfl hk
            | succ n => simp
          · simp

/-- The XTS loop on a walk whose first view is non-empty and rejected by the
transform: one transform call, then `return -EINVAL`. -/
theorem km_AesXtsLoop_first_rejected (K : Consts) (xform : Bytes → Bytes → Int × Bytes)
    (T : Transport) (fuel : Nat) (v iv dst : Bytes) (rest : List Bytes) (log : List Call)
    (err : Int) (hv : v ≠ []) (hx : (xform v iv).1 ≠ 0) :
    ∃ r, km_AesXtsLoop K xform T (fuel + 1) ⟨v :: rest, iv, 0, 0⟩ dst log err = some r ∧
      r.ret = -K.EINVAL := by
  have hl := length_ne_zero_of_ne_nil v hv
  simp [km_AesXtsLoop, skcipher_walk.nbytes, skcipher_walk.src, hl, hx]

/-- C11, amended.  For every request whose total length is at least 1 and less
than 16 bytes, every transport, and every primitive that rejects every input
shorter than 16 bytes, `km_AesXtsEncrypt` and `km_AesXtsDecrypt` return, and
the value they return is not 0. -/
theorem km_AesXts_short_request_rejected {τ : Type} (K : Consts) (X : XtsPrimitive τ)
    (T : Transport) (fuel : Nat) (ctx : km_AesXtsCtx τ) (req : skcipher_request)
    (hfuel : 1 ≤ fuel) (hpos : 0 < req.src.length) (hshort : req.src.length < 16)
    (hrej : ∀ aes inp iv, inp.length < 16 →
      (X.wc_AesXtsEncrypt aes inp iv).1 ≠ 0 ∧ (X.wc_AesXtsDecrypt aes inp iv).1 ≠ 0) :
    (∃ r, km_AesXtsEncrypt K X T fuel ctx req = some r ∧ r.ret ≠ 0) ∧
    (∃ r, km_AesXtsDecrypt K X T fuel ctx req = some r ∧ r.ret ≠ 0) := by
  have hE : -K.EINVAL ≠ 0 := by have := K.EINVAL_pos; omega
  obtain ⟨f, rfl⟩ : ∃ f, fuel = f + 1 := ⟨fuel - 1, by omega⟩
  have hne : req.src ≠ [] := by
    intro h
    rw [h] at hpos
    simp at hpos
  obtain ⟨v, rest, hsv, hv, hvl⟩ := splitViews_head T.split req.src hne
  by_cases hs : T.start_err = 0
  · have hw : skcipher_walk_virt T req = (0, ⟨v :: rest, req.iv, 0, 0⟩) := by
      simp [skcipher_walk_virt, hs, hsv]
    constructor
    · obtain ⟨r, hr, hret⟩ := km_AesXtsLoop_first_rejected K (X.wc_AesXtsEncrypt ctx.aesXts) T f
        v req.iv [] rest [Call.walk_start 0] 0 hv (hrej _ v req.iv (by omega)).1
      exact ⟨r, by simp [km_AesXtsEncrypt, hw, hr], by rw [hret]; exact hE⟩
    · obtain ⟨r, hr, hret⟩ := km_AesXtsLoop_first_rejected K (X.wc_AesXtsDecrypt ctx.aesXts) T f
        v req.iv [] rest [Call.walk_start 0] 0 hv (hrej _ v req.iv (by omega)).2
      exact ⟨r, by simp [km_AesXtsDecrypt, hw, hr], by rw [hret]; exact hE⟩
  · have hw : skcipher_walk_virt T req = (T.start_err, ⟨[], req.iv, 0, 0⟩) := by
      simp [skcipher_walk_virt, hs]
    constructor
    · simp [km_AesXtsEncrypt, hw, hs]
    · simp [km_AesXtsDecrypt, hw, hs]

/-- The stand-in XTS primitive rejects every input shorter than 16 bytes. -/
theorem toyXts_rejects_short (aes : Option Nat) (inp iv : Bytes) (h : inp.length < 16) :
    (toyXts.wc_AesXtsEncrypt aes inp iv).1 ≠ 0 ∧ (toyXts.wc_AesXtsDecrypt aes inp iv).1 ≠ 0 := by
  cases aes <;> simp [toyXts, h]

set_option maxRecDepth 100000 in
/-- Witness for `km_AesXts_short_request_rejected`: an 8-byte request. -/
theorem km_AesXts_short_request_rejected_witness :
    (km_AesXtsEncrypt linuxConsts toyXts Transport.oneView 1 toyXtsCtx
      ⟨testVector.take 8, testIv⟩).map (fun r => r.ret) = some (-22) ∧
    ((∃ r, km_AesXtsEncrypt linuxConsts toyXts Transport.oneView 1 toyXtsCtx
        ⟨testVector.take 8, testIv⟩ = some r ∧ r.ret ≠ 0) ∧
     (∃ r, km_AesXtsDecrypt linuxConsts toyXts Transport.oneView 1 toyXtsCtx
        ⟨testVector.take 8, testIv⟩ = some r ∧ r.ret ≠ 0)) :=
  ⟨by decide,
    km_AesXts_short_request_rejected linuxConsts toyXts Transport.oneView 1 toyXtsCtx
      ⟨testVector.take 8, testIv⟩ (by decide) (by decide) (by decide) toyXts_rejects_short⟩

/-! ### C14 -/

set_option maxRecDepth 100000 in
/-- C14, the code at a failing input.  The walk fails to start with `-ENOMEM`
(-12).  `km_AesGcmEncrypt` returns -1, while `km_AesGcmDecrypt` and
`km_AesCbcEncrypt` return -12. -/
theorem km_AesGcmEncrypt_walk_start_error_replaced :
    (km_AesGcmEncrypt linuxConsts (toyPrimitive linuxConsts) (Transport.startFails (-12)) 2
      toyCtx 16 gcmTestEncrypt).map AeadOut.view = some (-1, gcmTestEncrypt.dst,
        [Call.walk_start (-12)]) ∧
    (km_AesGcmDecrypt linuxConsts (toyPrimitive linuxConsts) (Transport.startFails (-12)) 2
      toyCtx 16 gcmTestDecrypt).map AeadOut.view = some (-12, gcmTestDecrypt.dst,
        [Call.walk_start (-12)]) ∧
    (km_AesCbcEncrypt linuxConsts (toyPrimitive linuxConsts) (Transport.startFails (-12)) 2
      toyCtx ⟨testVector, testIv⟩).map SkOut.view = some (-12, [], [Call.walk_start (-12)]) := by
  decide

/-! ### C15 -/

set_option maxRecDepth 100000 in
/-- C15, counterexample.  On an 8-byte request the stand-in XTS primitive fails
at the first step with the code -173; `km_AesXtsEncrypt` and `km_AesXtsDecrypt`
stop there and return `-EINVAL` (-22), not -173. -/
theorem km_AesXts_primitive_error_replaced :
    (toyXts.wc_AesXtsEncrypt toyXtsCtx.aesXts (testVector.take 8) testIv).1 = -173 ∧
    (km_AesXtsEncrypt linuxConsts toyXts Transport.oneView 2 toyXtsCtx
      ⟨testVector.take 8, testIv⟩).map (fun r => (r.ret, r.log)) =
      some (-22, [Call.walk_start 0, Call.transform 8 (-173)]) ∧
    (km_AesXtsDecrypt linuxConsts toyXts Transport.oneView 2 toyXtsCtx
      ⟨testVector.take 8, testIv⟩).map (fun r => (r.ret, r.log)) =
      some (-22, [Call.walk_start 0, Call.transform 8 (-173)]) := by
  decide

/-- A log of successful calls followed by one more call has no call after a failure. -/
theorem noCallAfterFailure_snoc : ∀ (l : List Call) (x : Call),
    (∀ c ∈ l, c.failed = false) → noCallAfterFailure (l ++ [x]) = true
  | [], _, _ => rfl
  | [a], x, h => by
    have ha := h a (List.mem_singleton.mpr rfl)
    simp [noCallAfterFailure, ha]
  | a :: b :: l, x, h => by
    have ha := h a (List.mem_cons_self _ _)
    have ih := noCallAfterFailure_snoc (b :: l) x (fun c hc => h c (List.mem_cons_of_mem _ hc))
    simp only [List.cons_append] at ih ⊢
    simp [noCallAfterFailure, ha, ih]

/-- A log of successful calls has no call after a failure. -/
theorem noCallAfterFailure_of_ok : ∀ (l : List Call),
    (∀ c ∈ l, c.failed = false) → noCallAfterFailure l = true
  | [], _ => rfl
  | [_], _ => rfl
  | a :: b :: l, h => by
    have ha := h a (List.mem_cons_self _ _)
    have ih := noCallAfterFailure_of_ok (b :: l) (fun c hc => h c (List.mem_cons_of_mem _ hc))
    simp [noCallAfterFailure, ha, ih]

/-- A run all of whose calls succeeded. -/
theorem StopsAtPrimitiveFailure_of_ok (K : Consts) (ret : Int) (l : List Call)
    (h : ∀ c ∈ l, c.failed = false) : StopsAtPrimitiveFailure K ret l := by
  refine ⟨noCallAfterFailure_of_ok l h, ?_⟩
  intro c hc _ hf
  have := h c (List.mem_of_getLast?_eq_some hc)
  rw [this] at hf
  exact absurd hf (by decide)

/-- A run that ends with the first failing call. -/
theorem StopsAtPrimitiveFailure_snoc (K : Consts) (ret : Int) (l : List Call) (x : Call)
    (h : ∀ c ∈ l, c.failed = false)
    (hx : x.isPrimitive = true → x.failed = true → ret = -K.EINVAL) :
    StopsAtPrimitiveFailure K ret (l ++ [x]) := by
  refine ⟨noCallAfterFailure_snoc l x h, ?_⟩
  intro c hc hp hf
  have hx2 : x = c := by simpa [List.getLast?_append, Option.or] using hc
  subst hx2
  exact hx hp hf

/-- The CBC/CFB loop with more fuel than views returns; it makes no call after a
failing one, and returns `-EINVAL` when the failing call is a primitive call. -/
theorem km_AesLoop_stops {σ : Type} (K : Consts) (P : Primitive σ)
    (xform : Option σ → Bytes → Int × Option σ × Bytes) (T : Transport) :
    ∀ (fuel : Nat) (walk : skcipher_walk) (aes : Option σ) (dst : Bytes) (log : List Call)
      (err : Int), walk.views.length < fuel → (∀ c ∈ log, c.failed = false) →
      ∃ r, km_AesLoop K P xform T fuel walk aes dst log err = some r ∧
        StopsAtPrimitiveFailure K r.ret r.log := by
  intro fuel
  induction fuel with
  | zero => intro walk aes dst log err h; omega
  | succ fuel ih =>
    intro walk aes dst log err hfuel hlog
    obtain ⟨views, iv, off, ndone⟩ := walk
    cases views with
    | nil =>
      exact ⟨⟨err, aes, dst, log⟩, by simp [km_AesLoop, skcipher_walk.nbytes],
        StopsAtPrimitiveFailure_of_ok K err log hlog⟩
    | cons v rest =>
      by_cases hv : v.length = 0
      · exact ⟨⟨err, aes, dst, log⟩, by simp [km_AesLoop, skcipher_walk.nbytes, hv],
          StopsAtPrimitiveFailure_of_ok K err log hlog⟩
      · by_cases h1 : (P.wc_AesSetIV aes iv).1 = 0
        · have hlog1 : ∀ c ∈ log ++ [Call.set_iv iv 0], c.failed = false := by
            intro c hc
            rcases List.mem_append.mp hc with hc | hc
            · exact hlog c hc
            · rw [List.mem_singleton.mp hc]; rfl
          by_cases h2 : (xform (P.wc_AesSetIV aes iv).2 v).1 = 0
          · have hlog2 : ∀ c ∈ log ++ [Call.set_iv iv 0] ++ [Call.transform v.length 0],
                c.failed = false := by
              intro c hc
              rcases List.mem_append.mp hc with hc | hc
              · exact hlog1 c hc
              · rw [List.mem_singleton.mp hc]; rfl
            by_cases hd : T.done_err ndone = 0
            · have hlog3 : ∀ c ∈ log ++ [Call.set_iv iv 0] ++ [Call.transform v.length 0]
                  ++ [Call.walk_done 0 0], c.failed = false := by
                intro c hc
                rcases List.mem_append.mp hc with hc | hc
                · exact hlog2 c hc
                · rw [List.mem_singleton.mp hc]; rfl
              have hlen : (⟨rest, iv, off + v.length, ndone + 1⟩ : skcipher_walk).views.length
                  < fuel := by
                simp only [List.length_cons] at hfuel
                simp only
                omega
              obtain ⟨r, hr, hstop⟩ := ih ⟨rest, iv, off + v.length, ndone + 1⟩
                (xform (P.wc_AesSetIV aes iv).2 v).2.1
                (dst ++ (xform (P.wc_AesSetIV aes iv).2 v).2.2)
                (log ++ [Call.set_iv iv 0] ++ [Call.transform v.length 0]
                  ++ [Call.walk_done 0 0]) 0 hlen hlog3
              refine ⟨r, ?_, hstop⟩
              simp only [List.append_assoc, List.cons_append, List.nil_append] at hr
              simp [km_AesLoop, skcipher_walk.nbytes, skcipher_walk.src, skcipher_walk_done,
                hv, h1, h2, hd, hr]
            · refine ⟨⟨T.done_err ndone, (xform (P.wc_AesSetIV aes iv).2 v).2.1,
                dst ++ (xform (P.wc_AesSetIV aes iv).2 v).2.2,
                log ++ [Call.set_iv iv 0] ++ [Call.transform v.length 0]
                  ++ [Call.walk_done 0 (T.done_err ndone)]⟩, ?_, ?_⟩
              · simp [km_AesLoop, skcipher_walk.nbytes, skcipher_walk.src, skcipher_walk_done,
                  hv, h1, h2, hd]
              · exact StopsAtPrimitiveFailure_snoc K _ _ _ hlog2
                  (fun hp => by simp [Call.isPrimitive] at hp)
          · refine ⟨⟨-K.EINVAL, (xform (P.wc_AesSetIV aes iv).2 v).2.1,
              dst ++ (xform (P.wc_AesSetIV aes iv).2 v).2.2,
              log ++ [Call.set_iv iv 0]
                ++ [Call.transform v.length (xform (P.wc_AesSetIV aes iv).2 v).1]⟩, ?_, ?_⟩
            · simp [km_AesLoop, skcipher_walk.nbytes, skcipher_walk.src, hv, h1, h2]
            · exact StopsAtPrimitiveFailure_snoc K _ _ _ hlog1 (fun _ _ => rfl)
        · refine ⟨⟨-K.EINVAL, (P.wc_AesSetIV aes iv).2, dst,
            log ++ [Call.set_iv iv (P.wc_AesSetIV aes iv).1]⟩, ?_, ?_⟩
          · simp [km_AesLoop, skcipher_walk.nbytes, hv, h1]
          · exact StopsAtPrimitiveFailure_snoc K _ _ _ hlog (fun _ _ => rfl)

/-- The XTS loop with more fuel than views returns; it makes no call after a
failing one, and returns `-EINVAL` when the failing call is a primitive call. -/
theorem km_AesXtsLoop_stops (K : Consts) (xform : Bytes → Bytes → Int × Bytes)
    (T : Transport) :
    ∀ (fuel : Nat) (walk : skcipher_walk) (dst : Bytes) (log : List Call) (err : Int),
      walk.views.length < fuel → (∀ c ∈ log, c.failed = false) →
      ∃ r, km_AesXtsLoop K xform T fuel walk dst log err = some r ∧
        StopsAtPrimitiveFailure K r.ret r.log := by
  intro fuel
  induction fuel with
  | zero => intro walk dst log err h; omega
  | succ fuel ih =>
    intro walk dst log err hfuel hlog
    obtain ⟨views, iv, off, ndone⟩ := walk
    cases views with
    | nil =>
      exact ⟨⟨err, dst, log⟩, by simp [km_AesXtsLoop, skcipher_walk.nbytes],
        StopsAtPrimitiveFailure_of_ok K err log hlog⟩
    | cons v rest =>
      by_cases hv : v.length = 0
      · exact ⟨⟨err, dst, log⟩, by simp [km_AesXtsLoop, skcipher_walk.nbytes, hv],
          StopsAtPrimitiveFailure_of_ok K err log hlog⟩
      · by_cases h2 : (xform v iv).1 = 0
        · have hlog2 : ∀ c ∈ log ++ [Call.transform v.length 0], c.failed = false := by
            intro c hc
            rcases List.mem_append.mp hc with hc | hc
            · exact hlog c hc
            · rw [List.mem_singleton.mp hc]; rfl
          by_cases hd : T.done_err ndone = 0
          · have hlog3 : ∀ c ∈ log ++ [Call.transform v.length 0] ++ [Call.walk_done 0 0],
                c.failed = false := by
              intro c hc
              rcases List.mem_append.mp hc with hc | hc
              · exact hlog2 c hc
              · rw [List.mem_singleton.mp hc]; rfl
            have hlen : (⟨rest, iv, off + v.length, ndone + 1⟩ : skcipher_walk).views.length
                < fuel := by
              simp only [List.length_cons] at hfuel
              simp only
              omega
            obtain ⟨r, hr, hstop⟩ := ih ⟨rest, iv, off + v.length, ndone + 1⟩
              (dst ++ (xform v iv).2)
              (log ++ [Call.transform v.length 0] ++ [Call.walk_done 0 0]) 0 hlen hlog3
            refine ⟨r, ?_, hstop⟩
            simp only [List.append_assoc, List.cons_append, List.nil_append] at hr
            simp [km_AesXtsLoop, skcipher_walk.nbytes, skcipher_walk.src, skcipher_walk_done,
              hv, h2, hd, hr]
          · refine ⟨⟨T.done_err ndone, dst ++ (xform v iv).2,
              log ++ [Call.transform v.length 0] ++ [Call.walk_done 0 (T.done_err ndone)]⟩,
              ?_, ?_⟩
            · simp [km_AesXtsLoop, skcipher_walk.nbytes, skcipher_walk.src, skcipher_walk_done,
                hv, h2, hd]
            · exact StopsAtPrimitiveFailure_snoc K _ _ _ hlog2
                (fun hp => by simp [Call.isPrimitive] at hp)
        · refine ⟨⟨-K.EINVAL, dst ++ (xform v iv).2,
            log ++ [Call.transform v.length (xform v iv).1]⟩, ?_, ?_⟩
          · simp [km_AesXtsLoop, skcipher_walk.nbytes, skcipher_walk.src, hv, h2]
          · exact StopsAtPrimitiveFailure_snoc K _ _ _ hlog (fun _ _ => rfl)

/-- The two outcomes of starting a walk. -/
theorem skcipher_walk_virt_cases (T : Transport) (req : skcipher_request) :
    (T.start_err ≠ 0 ∧ skcipher_walk_virt T req = (T.start_err, ⟨[], req.iv, 0, 0⟩)) ∨
    skcipher_walk_virt T req = (0, ⟨splitViews req.src T.split, req.iv, 0, 0⟩) := by
  by_cases hs : T.start_err = 0
  · exact Or.inr (by simp [skcipher_walk_virt, hs])
  · exact Or.inl ⟨hs, by simp [skcipher_walk_virt, hs]⟩

/-- `km_AesCbcEncrypt` with more fuel than views returns and stops at a failing call. -/
theorem km_AesCbcEncrypt_stops {σ : Type} (K : Consts) (P : Primitive σ) (T : Transport)
    (fuel : Nat) (ctx : km_AesCtx σ) (req : skcipher_request)
    (hfuel : (splitViews req.src T.split).length < fuel) :
    ∃ r, km_AesCbcEncrypt K P T fuel ctx req = some r ∧ StopsAtPrimitiveFailure K r.ret r.log := by
  rcases skcipher_walk_virt_cases T req with ⟨hs, hw⟩ | hw
  · refine ⟨⟨T.start_err, ctx, [], [Call.walk_start T.start_err]⟩,
      by simp [km_AesCbcEncrypt, hw, hs], ?_⟩
    exact StopsAtPrimitiveFailure_snoc K _ [] _ (by simp)
      (fun hp => by simp [Call.isPrimitive] at hp)
  · obtain ⟨r, hr, hstop⟩ := km_AesLoop_stops K P P.wc_AesCbcEncrypt T fuel
      ⟨splitViews req.src T.split, req.iv, 0, 0⟩ ctx.aes_encrypt [] [Call.walk_start 0] 0 hfuel
      (by intro c hc; rw [List.mem_singleton.mp hc]; rfl)
    exact ⟨⟨r.ret, { ctx with aes_encrypt := r.aes }, r.dst, r.log⟩,
      by simp [km_AesCbcEncrypt, hw, hr], hstop⟩

/-- `km_AesCbcDecrypt` with more fuel than views returns and stops at a failing call. -/
theorem km_AesCbcDecrypt_stops {σ : Type} (K : Consts) (P : Primitive σ) (T : Transport)
    (fuel : Nat) (ctx : km_AesCtx σ) (req : skcipher_request)
    (hfuel : (splitViews req.src T.split).length < fuel) :
    ∃ r, km_AesCbcDecrypt K P T fuel ctx req = some r ∧ StopsAtPrimitiveFailure K r.ret r.log := by
  rcases skcipher_walk_virt_cases T req with ⟨hs, hw⟩ | hw
  · refine ⟨⟨T.start_err, ctx, [], [Call.walk_start T.start_err]⟩,
      by simp [km_AesCbcDecrypt, hw, hs], ?_⟩
    exact StopsAtPrimitiveFailure_snoc K _ [] _ (by simp)
      (fun hp => by simp [Call.isPrimitive] at hp)
  · obtain ⟨r, hr, hstop⟩ := km_AesLoop_stops K P P.wc_AesCbcDecrypt T fuel
      ⟨splitViews req.src T.split, req.iv, 0, 0⟩ ctx.aes_decrypt [] [Call.walk_start 0] 0 hfuel
      (by intro c hc; rw [List.mem_singleton.mp hc]; rfl)
    exact ⟨⟨r.ret, { ctx with aes_decrypt := r.aes }, r.dst, r.log⟩,
      by simp [km_AesCbcDecrypt, hw, hr], hstop⟩

/-- `km_AesCfbEncrypt` with more fuel than views returns and stops at a failing call. -/
theorem km_AesCfbEncrypt_stops {σ : Type} (K : Consts) (P : Primitive σ) (T : Transport)
    (fuel : Nat) (ctx : km_AesCtx σ) (req : skcipher_request)
    (hfuel : (splitViews req.src T.split).length < fuel) :
    ∃ r, km_AesCfbEncrypt K P T fuel ctx req = some r ∧ StopsAtPrimitiveFailure K r.ret r.log := by
  rcases skcipher_walk_virt_cases T req with ⟨hs, hw⟩ | hw
  · refine ⟨⟨T.start_err, ctx, [], [Call.walk_start T.start_err]⟩,
      by simp [km_AesCfbEncrypt, hw, hs], ?_⟩
    exact StopsAtPrimitiveFailure_snoc K _ [] _ (by simp)
      (fun hp => by simp [Call.isPrimitive] at hp)
  · obtain ⟨r, hr, hstop⟩ := km_AesLoop_stops K P P.wc_AesCfbEncrypt T fuel
      ⟨splitViews req.src T.split, req.iv, 0, 0⟩ ctx.aes_encrypt [] [Call.walk_start 0] 0 hfuel
      (by intro c hc; rw [List.mem_singleton.mp hc]; rfl)
    exact ⟨⟨r.ret, { ctx with aes_encrypt := r.aes }, r.dst, r.log⟩,
      by simp [km_AesCfbEncrypt, hw, hr], hstop⟩

/-- `km_AesCfbDecrypt` with more fuel than views returns and stops at a failing call. -/
theorem km_AesCfbDecrypt_stops {σ : Type} (K : Consts) (P : Primitive σ) (T : Transport)
    (fuel : Nat) (ctx : km_AesCtx σ) (req : skcipher_request)
    (hfuel : (splitViews req.src T.split).length < fuel) :
    ∃ r, km_AesCfbDecrypt K P T fuel ctx req = some r ∧ StopsAtPrimitiveFailure K r.ret r.log := by
  rcases skcipher_walk_virt_cases T req with ⟨hs, hw⟩ | hw
  · refine ⟨⟨T.start_err, ctx, [], [Call.walk_start T.start_err]⟩,
      by simp [km_AesCfbDecrypt, hw, hs], ?_⟩
    exact StopsAtPrimitiveFailure_snoc K _ [] _ (by simp)
      (fun hp => by simp [Call.isPrimitive] at hp)
  · obtain ⟨r, hr, hstop⟩ := km_AesLoop_stops K P P.wc_AesCfbDecrypt T fuel
      ⟨splitViews req.src T.split, req.iv, 0, 0⟩ ctx.aes_encrypt [] [Call.walk_start 0] 0 hfuel
      (by intro c hc; rw [List.mem_singleton.mp hc]; rfl)
    exact ⟨⟨r.ret, { ctx with aes_encrypt := r.aes }, r.dst, r.log⟩,
      by simp [km_AesCfbDecrypt, hw, hr], hstop⟩

/-- `km_AesXtsEncrypt` with more fuel than views returns and stops at a failing call. -/
theorem km_AesXtsEncrypt_stops {τ : Type} (K : Consts) (X : XtsPrimitive τ) (T : Transport)
    (fuel : Nat) (ctx : km_AesXtsCtx τ) (req : skcipher_request)
    (hfuel : (splitViews req.src T.split).length < fuel) :
    ∃ r, km_AesXtsEncrypt K X T fuel ctx req = some r ∧ StopsAtPrimitiveFailure K r.ret r.log := by
  rcases skcipher_walk_virt_cases T req with ⟨hs, hw⟩ | hw
  · refine ⟨⟨T.start_err, [], [Call.walk_start T.start_err]⟩,
      by simp [km_AesXtsEncrypt, hw, hs], ?_⟩
    exact StopsAtPrimitiveFailure_snoc K _ [] _ (by simp)
      (fun hp => by simp [Call.isPrimitive] at hp)
  · obtain ⟨r, hr, hstop⟩ := km_AesXtsLoop_stops K (X.wc_AesXtsEncrypt ctx.aesXts) T fuel
      ⟨splitViews req.src T.split, req.iv, 0, 0⟩ [] [Call.walk_start 0] 0 hfuel
      (by intro c hc; rw [List.mem_singleton.mp hc]; rfl)
    exact ⟨r, by simp [km_AesXtsEncrypt, hw, hr], hstop⟩

/-- `km_AesXtsDecrypt` with more fuel than views returns and stops at a failing call. -/
theorem km_AesXtsDecrypt_stops {τ : Type} (K : Consts) (X : XtsPrimitive τ) (T : Transport)
    (fuel : Nat) (ctx : km_AesXtsCtx τ) (req : skcipher_request)
    (hfuel : (splitViews req.src T.split).length < fuel) :
    ∃ r, km_AesXtsDecrypt K X T fuel ctx req = some r ∧ StopsAtPrimitiveFailure K r.ret r.log := by
  rcases skcipher_walk_virt_cases T req with ⟨hs, hw⟩ | hw
  · refine ⟨⟨T.start_err, [], [Call.walk_start T.start_err]⟩,
      by simp [km_AesXtsDecrypt, hw, hs], ?_⟩
    exact StopsAtPrimitiveFailure_snoc K _ [] _ (by simp)
      (fun hp => by simp [Call.isPrimitive] at hp)
  · obtain ⟨r, hr, hstop⟩ := km_AesXtsLoop_stops K (X.wc_AesXtsDecrypt ctx.aesXts) T fuel
      ⟨splitViews req.src T.split, req.iv, 0, 0⟩ [] [Call.walk_start 0] 0 hfuel
      (by intro c hc; rw [List.mem_singleton.mp hc]; rfl)
    exact ⟨r, by simp [km_AesXtsDecrypt, hw, hr], hstop⟩

/-- C15, amended.  For each of the CBC, CFB and XTS entry points, every
primitive, every transport and every request, with more fuel than the walk has
views: the call returns; every call it made before its last one succeeded, so
a failing call is the last call made (no primitive call and no walk commit
follows it); and when that last call is a failing IV installation or a failing
transform, the value returned is `-EINVAL`, whatever code the primitive gave. -/
theorem km_Aes_primitive_failure_returns_EINVAL {σ τ : Type} (K : Consts) (P : Primitive σ)
    (X : XtsPrimitive τ) (T : Transport) (fuel : Nat) (ctx : km_AesCtx σ)
    (xctx : km_AesXtsCtx τ) (req : skcipher_request)
    (hfuel : (splitViews req.src T.split).length < fuel) :
    (∃ r, km_AesCbcEncrypt K P T fuel ctx req = some r ∧
      StopsAtPrimitiveFailure K r.ret r.log) ∧
    (∃ r, km_AesCbcDecrypt K P T fuel ctx req = some r ∧
      StopsAtPrimitiveFailure K r.ret r.log) ∧
    (∃ r, km_AesCfbEncrypt K P T fuel ctx req = some r ∧
      StopsAtPrimitiveFailure K r.ret r.log) ∧
    (∃ r, km_AesCfbDecrypt K P T fuel ctx req = some r ∧
      StopsAtPrimitiveFailure K r.ret r.log) ∧
    (∃ r, km_AesXtsEncrypt K X T fuel xctx req = some r ∧
      StopsAtPrimitiveFailure K r.ret r.log) ∧
    (∃ r, km_AesXtsDecrypt K X T fuel xctx req = some r ∧
      StopsAtPrimitiveFailure K r.ret r.log) :=
  ⟨km_AesCbcEncrypt_stops K P T fuel ctx req hfuel,
   km_AesCbcDecrypt_stops K P T fuel ctx req hfuel,
   km_AesCfbEncrypt_stops K P T fuel ctx req hfuel,
   km_AesCfbDecrypt_stops K P T fuel ctx req hfuel,
   km_AesXtsEncrypt_stops K X T fuel xctx req hfuel,
   km_AesXtsDecrypt_stops K X T fuel xctx req hfuel⟩

set_option maxRecDepth 100000 in
/-- Witness for `km_Aes_primitive_failure_returns_EINVAL`: an 8-byte request in
one view, on which the XTS primitive fails. -/
theorem km_Aes_primitive_failure_returns_EINVAL_witness :
    (splitViews (testVector.take 8) Transport.oneView.split).length < 2 ∧
    ((∃ r, km_AesCbcEncrypt linuxConsts (toyPrimitive linuxConsts) Transport.oneView 2 toyCtx
        ⟨testVector.take 8, testIv⟩ = some r ∧
      StopsAtPrimitiveFailure linuxConsts r.ret r.log) ∧
    (∃ r, km_AesCbcDecrypt linuxConsts (toyPrimitive linuxConsts) Transport.oneView 2 toyCtx
        ⟨testVector.take 8, testIv⟩ = some r ∧
      StopsAtPrimitiveFailure linuxConsts r.ret r.log) ∧
    (∃ r, km_AesCfbEncrypt linuxConsts (toyPrimitive linuxConsts) Transport.oneView 2 toyCtx
        ⟨testVector.take 8, testIv⟩ = some r ∧
      StopsAtPrimitiveFailure linuxConsts r.ret r.log) ∧
    (∃ r, km_AesCfbDecrypt linuxConsts (toyPrimitive linuxConsts) Transport.oneView 2 toyCtx
        ⟨testVector.take 8, testIv⟩ = some r ∧
      StopsAtPrimitiveFailure linuxConsts r.ret r.log) ∧
    (∃ r, km_AesXtsEncrypt linuxConsts toyXts Transport.oneView 2 toyXtsCtx
        ⟨testVector.take 8, testIv⟩ = some r ∧
      StopsAtPrimitiveFailure linuxConsts r.ret r.log) ∧
    (∃ r, km_AesXtsDecrypt linuxConsts toyXts Transport.oneView 2 toyXtsCtx
        ⟨testVector.take 8, testIv⟩ = some r ∧
      StopsAtPrimitiveFailure linuxConsts r.ret r.log)) :=
  ⟨by decide,
    km_Aes_primitive_failure_returns_EINVAL linuxConsts (toyPrimitive linuxConsts) toyXts
      Transport.oneView 2 toyCtx toyXtsCtx ⟨testVector.take 8, testIv⟩ (by decide)⟩

/-! ### C12 -/

set_option maxRecDepth 100000 in
/-- C12, the code at a failing input.  `linuxkm_test_aescbc` is run with the
stand-in primitive.  When `kmalloc` returns `NULL` for `enc2`, and likewise
when `crypto_alloc_skcipher` fails with `-ENOENT` (-2), the test jumps to
`test_cbc_end` with `ret` still 0 from the last comparison and returns 0,
without any call of `crypto_skcipher_encrypt` or `crypto_skcipher_decrypt`.
In surroundings where nothing fails the test returns 0 after both calls. -/
theorem linuxkm_test_aescbc_allocation_failure_returns_zero :
    linuxkm_test_aescbc linuxConsts linuxWc (toyPrimitive linuxConsts) toyLifecycle
      { toyEnv with alloc_ok := fun b => decide (b ≠ TestBuf.enc2) } Transport.oneView 2 =
      TestRun.returned 0 [TestStep.compare 0, TestStep.alloc TestBuf.enc2 32 false] ∧
    linuxkm_test_aescbc linuxConsts linuxWc (toyPrimitive linuxConsts) toyLifecycle
      { toyEnv with tfm_err := -2 } Transport.oneView 2 =
      TestRun.returned 0 [TestStep.compare 0, TestStep.alloc TestBuf.enc2 32 true,
        TestStep.alloc TestBuf.dec2 32 true, TestStep.access TestBuf.dec2 32 32,
        TestStep.alloc_tfm (-2)] ∧
    (∃ log, linuxkm_test_aescbc linuxConsts linuxWc (toyPrimitive linuxConsts) toyLifecycle
      toyEnv Transport.oneView 2 = TestRun.returned 0 log ∧ ranTransport log = true) := by
  refine ⟨by decide, by decide, ?_⟩
  exact ⟨[TestStep.compare 0, TestStep.alloc TestBuf.enc2 32 true,
    TestStep.alloc TestBuf.dec2 32 true, TestStep.access TestBuf.dec2 32 32,
    TestStep.alloc_tfm 0, TestStep.setkey 0, TestStep.alloc_req true,
    TestStep.access TestBuf.dec2 32 32, TestStep.access TestBuf.enc2 32 32,
    TestStep.encrypt 0, TestStep.access TestBuf.enc2 32 32, TestStep.compare 0,
    TestStep.access TestBuf.dec2 32 32, TestStep.access TestBuf.enc2 32 32,
    TestStep.access TestBuf.dec2 32 32, TestStep.decrypt 0,
    TestStep.access TestBuf.dec2 32 32, TestStep.compare 0], by decide, by decide⟩

/-! ### C13 -/

set_option maxRecDepth 100000 in
/-- The known-answer part passes for the look-up primitive. -/
theorem katXts_kat :
    aes_xts_128_test.kat linuxWc katXts katXtsLifecycle katEnv =
      Stage.next (aes_xts_128_test.k2,
        aes_xts_128_test.p2 ++ List.replicate 8 0) := by
  decide

set_option maxRecDepth 100000 in
/-- The in-place part passes for the look-up primitive. -/
theorem katXts_in_place :
    aes_xts_128_test.in_place linuxWc katXts katXtsLifecycle aes_xts_128_test.k2
      (aes_xts_128_test.p2 ++ List.replicate 8 0) = Stage.next aes_xts_128_test.k3 := by
  decide

set_option maxRecDepth 100000 in
/-- The kernel part passes for the look-up primitive. -/
theorem katXts_lkcapi :
    aes_xts_128_test.lkcapi linuxConsts linuxWc katXts katXtsLifecycle katEnv
      Transport.oneView 2 = TestRun.returned 0 aes_xts_128_test.passLog := by
  decide

/-- A comparison that finds no difference: the first `n` bytes of `b` are `a`. -/
theorem XMEMCMP_eq_zero : ∀ (n : Nat) (a b : Bytes), a.length = n → n ≤ b.length →
    XMEMCMP a b n = 0 → b.take n = a := by
  intro n
  induction n with
  | zero =>
    intro a b ha _ _
    simp [List.length_eq_zero.mp ha]
  | succ n ih =>
    intro a b ha hb h
    cases a with
    | nil => simp at ha
    | cons x a =>
      cases b with
      | nil => simp at hb
      | cons y b =>
        simp only [XMEMCMP, List.headD_cons, List.tail_cons] at h
        by_cases hxy : x = y
        · rw [if_pos hxy] at h
          have := ih a b (by simpa using ha) (by simpa using hb) h
          simp [this, hxy]
        · rw [if_neg hxy] at h
          exfalso
          apply hxy
          have : (x : Int) = (y : Int) := by omega
          exact_mod_cast this

/-- Length of a buffer after a write at its start. -/
theorem writeAt_zero_length (buf d : Bytes) :
    (writeAt buf 0 d).length = d.length + (buf.length - d.length) := by
  simp [writeAt]

/-- The bytes written at the start of a buffer are read back from there. -/
theorem writeAt_zero_take (buf d : Bytes) (n : Nat) (h : d.length = n) :
    (writeAt buf 0 d).take n = d := by
  subst h
  simp [writeAt]

/-- Length of a fresh buffer. -/
theorem TestEnv.fresh_length {σ : Type} (E : TestEnv σ) (b : TestBuf) (cap : Nat) :
    (E.fresh b cap).length = cap := by
  simp [TestEnv.fresh]

/-- From a comparison of the expected bytes with the buffer that received an
output. -/
theorem Gives_of_XMEMCMP (ret : Int) (buf out expected : Bytes) (n : Nat) (hret : ret = 0)
    (hn : expected.length = n)
    (h : XMEMCMP expected (writeAt buf 0 out) n = 0) : Gives ret out expected := by
  refine ⟨hret, fun hlen => ?_⟩
  have h1 := XMEMCMP_eq_zero n expected (writeAt buf 0 out) hn
    (by rw [writeAt_zero_length]; omega) h
  rw [writeAt_zero_take buf out n (by omega)] at h1
  exact h1

/-- A part that goes on does not exit. -/
theorem Stage.exitsNonzero_next {α : Type} (a : α) : (Stage.next a).ExitsNonzero := by
  intro e h
  cases h

/-- A guarded exit followed by a part with non-zero exits. -/
theorem Stage.exitsNonzero_ite {α : Type} (c : Prop) [Decidable c] (e : Int) (rest : Stage α)
    (h1 : c → e ≠ 0) (h2 : rest.ExitsNonzero) :
    (if c then Stage.exit e else rest).ExitsNonzero := by
  intro e1 h
  by_cases hc : c
  · rw [if_pos hc] at h
    cases h
    exact h1 hc
  · rw [if_neg hc] at h
    exact h2 e1 h

/-- A guarded exit that was not taken. -/
theorem Stage.ite_next {α : Type} (c : Prop) [Decidable c] (e : Int) (rest : Stage α) (a : α) :
    (if c then Stage.exit e else rest) = Stage.next a ↔ ¬ c ∧ rest = Stage.next a := by
  by_cases hc : c <;> simp [hc]

/-- The known-answer part exits with non-zero values only. -/
theorem aes_xts_128_test.kat_exits {τ : Type} (W : WcConsts) (X : XtsPrimitive τ)
    (L : XtsLifecycle τ) (E : TestEnv τ) : (aes_xts_128_test.kat W X L E).ExitsNonzero := by
  have hM := ne_of_lt W.MEMORY_E_neg
  have hF := ne_of_lt W.AES_KAT_FIPS_E_neg
  unfold aes_xts_128_test.kat
  dsimp only
  repeat' (first
    | exact Stage.exitsNonzero_next _
    | apply Stage.exitsNonzero_ite
    | (intro hc; first | exact hc | exact hM | exact hF))

/-- The in-place part exits with non-zero values only. -/
theorem aes_xts_128_test.in_place_exits {τ : Type} (W : WcConsts) (X : XtsPrimitive τ)
    (L : XtsLifecycle τ) (a : τ) (buf : Bytes) :
    (aes_xts_128_test.in_place W X L a buf).ExitsNonzero := by
  have hF := ne_of_lt W.AES_KAT_FIPS_E_neg
  unfold aes_xts_128_test.in_place
  dsimp only
  repeat' (first
    | exact Stage.exitsNonzero_next _
    | apply Stage.exitsNonzero_ite
    | (intro hc; first | exact hc | exact hF))

/-- The loop over `large_input` exits with non-zero values only. -/
theorem aes_xts_128_test.large_loop_exits {τ : Type} (W : WcConsts) (X : XtsPrimitive τ)
    (L : XtsLifecycle τ) : ∀ (n j : Nat) (a : τ) (large_input : Bytes),
    (aes_xts_128_test.large_loop W X L n j a large_input).ExitsNonzero := by
  have hF := ne_of_lt W.AES_KAT_FIPS_E_neg
  intro n
  induction n with
  | zero => intro j a l; exact Stage.exitsNonzero_next _
  | succ n ih =>
    intro j a l
    unfold aes_xts_128_test.large_loop
    dsimp only
    repeat' (first
      | exact ih _ _ _
      | apply Stage.exitsNonzero_ite
      | (intro hc; first | exact hc | exact hF))

/-- The third part exits with non-zero values only. -/
theorem aes_xts_128_test.large_exits {τ : Type} (W : WcConsts) (X : XtsPrimitive τ)
    (L : XtsLifecycle τ) (E : TestEnv τ) (a : τ) :
    (aes_xts_128_test.large W X L E a).ExitsNonzero := by
  intro e h
  unfold aes_xts_128_test.large at h
  by_cases hc : E.small_stack = true ∧ E.alloc_ok TestBuf.large_input = false
  · rw [if_pos hc] at h
    cases h
    exact ne_of_lt W.MEMORY_E_neg
  · rw [if_neg hc] at h
    cases hl : aes_xts_128_test.large_loop W X L (LARGE_XTS_SZ - 16) 16 a
        ((List.range LARGE_XTS_SZ).map fun i => i % 256) with
    | exit e1 =>
      rw [hl] at h
      cases h
      exact aes_xts_128_test.large_loop_exits W X L _ _ _ _ e hl
    | next r =>
      rw [hl] at h
      cases h

/-- What the known-answer part has checked when control leaves it at its end. -/
theorem aes_xts_128_test.kat_next {τ : Type} (W : WcConsts) (X : XtsPrimitive τ)
    (L : XtsLifecycle τ) (E : TestEnv τ) (s : τ × Bytes)
    (h : aes_xts_128_test.kat W X L E = Stage.next s) :
    Gives (X.wc_AesXtsEncrypt (some (aes_xts_128_test.encObject L E)) aes_xts_128_test.p1
        aes_xts_128_test.i1).1
      (X.wc_AesXtsEncrypt (some (aes_xts_128_test.encObject L E)) aes_xts_128_test.p1
        aes_xts_128_test.i1).2 aes_xts_128_test.c1 ∧
    Gives (X.wc_AesXtsDecrypt (some (aes_xts_128_test.decObject L E)) aes_xts_128_test.c1
        aes_xts_128_test.i1).1
      (X.wc_AesXtsDecrypt (some (aes_xts_128_test.decObject L E)) aes_xts_128_test.c1
        aes_xts_128_test.i1).2 aes_xts_128_test.p1 ∧
    Gives (X.wc_AesXtsEncrypt (some (aes_xts_128_test.encObject L E)) aes_xts_128_test.pp
        aes_xts_128_test.i1).1
      (X.wc_AesXtsEncrypt (some (aes_xts_128_test.encObject L E)) aes_xts_128_test.pp
        aes_xts_128_test.i1).2 aes_xts_128_test.cp ∧
    Gives (X.wc_AesXtsDecrypt (some (aes_xts_128_test.decObject L E)) aes_xts_128_test.cp
        aes_xts_128_test.i1).1
      (X.wc_AesXtsDecrypt (some (aes_xts_128_test.decObject L E)) aes_xts_128_test.cp
        aes_xts_128_test.i1).2 aes_xts_128_test.pp := by
  simp only [aes_xts_128_test.kat, Stage.ite_next, ne_eq, not_not] at h
  obtain ⟨-, -, -, -, -, -, -, -, he1, hc1, hep, hcp, -, hdp, hpp, hd1, hp1, -⟩ := h
  have hcipher := XMEMCMP_eq_zero 24 aes_xts_128_test.cp _ rfl
    (by rw [writeAt_zero_length]; simp [AES_XTS_128_TEST_BUF_SIZ, AES_BLOCK_SIZE]; omega) hcp
  rw [hcipher] at hdp hpp
  exact ⟨Gives_of_XMEMCMP _ _ _ _ _ he1 rfl hc1, Gives_of_XMEMCMP _ _ _ _ _ hd1 rfl hp1,
    Gives_of_XMEMCMP _ _ _ _ _ hep rfl hcp, Gives_of_XMEMCMP _ _ _ _ _ hdp rfl hpp⟩

/-- A guarded return of a non-zero value, in a run that returned 0, was not taken. -/
theorem TestRun.of_ite_returned (c : Prop) [Decidable c] (e : Int) (l log : List TestStep)
    (rest : TestRun) (hne : c → e ≠ 0)
    (h : (if c then TestRun.returned e l else rest) = TestRun.returned 0 log) :
    ¬ c ∧ rest = TestRun.returned 0 log := by
  by_cases hc : c
  · rw [if_pos hc] at h
    injection h with h1 _
    exact absurd h1 (hne hc)
  · rw [if_neg hc] at h
    exact ⟨hc, h⟩

/-- A guarded use of a bad pointer, in a run that returned, was not taken. -/
theorem TestRun.of_ite_bad_pointer (c : Prop) [Decidable c] (l log : List TestStep)
    (rest : TestRun)
    (h : (if c then TestRun.bad_pointer l else rest) = TestRun.returned 0 log) :
    ¬ c ∧ rest = TestRun.returned 0 log := by
  by_cases hc : c
  · rw [if_pos hc] at h
    cases h
  · rw [if_neg hc] at h
    exact ⟨hc, h⟩

/-- What the kernel part has checked when it returns 0. -/
theorem aes_xts_128_test.lkcapi_zero {τ : Type} (K : Consts) (W : WcConsts)
    (X : XtsPrimitive τ) (L : XtsLifecycle τ) (E : TestEnv τ) (T : Transport) (fuel : Nat)
    (log : List TestStep)
    (h : aes_xts_128_test.lkcapi K W X L E T fuel = TestRun.returned 0 log) :
    (∃ r, km_AesXtsEncrypt K X T fuel (aes_xts_128_test.tfmCtx K W L E)
        ⟨aes_xts_128_test.p1, aes_xts_128_test.i1⟩ = some r ∧
      Gives r.ret r.dst aes_xts_128_test.c1) ∧
    (∃ r, km_AesXtsDecrypt K X T fuel (aes_xts_128_test.tfmCtx K W L E)
        ⟨aes_xts_128_test.c1, aes_xts_128_test.i1⟩ = some r ∧
      Gives r.ret r.dst aes_xts_128_test.p1) ∧
    (∃ r, km_AesXtsEncrypt K X T fuel (aes_xts_128_test.tfmCtx K W L E)
        ⟨aes_xts_128_test.pp, aes_xts_128_test.i1⟩ = some r ∧
      Gives r.ret r.dst aes_xts_128_test.cp) ∧
    (∃ r, km_AesXtsDecrypt K X T fuel (aes_xts_128_test.tfmCtx K W L E)
        ⟨aes_xts_128_test.cp, aes_xts_128_test.i1⟩ = some r ∧
      Gives r.ret r.dst aes_xts_128_test.pp) := by
  have hM : -W.ENOMEM ≠ 0 := by have := W.ENOMEM_pos; omega
  have hN : -W.ENOENT ≠ 0 := by have := W.ENOENT_pos; omega
  have hI : -K.EINVAL ≠ 0 := by have := K.EINVAL_pos; omega
  unfold aes_xts_128_test.lkcapi at h
  dsimp only at h
  obtain ⟨-, h⟩ := TestRun.of_ite_returned _ _ _ _ _ (fun _ => hM) h
  obtain ⟨-, h⟩ := TestRun.of_ite_returned _ _ _ _ _ (fun _ => hM) h
  obtain ⟨-, h⟩ := TestRun.of_ite_returned _ _ _ _ _ (fun _ => hM) h
  obtain ⟨-, h⟩ := TestRun.of_ite_returned _ _ _ _ _ (fun _ => hM) h
  obtain ⟨-, h⟩ := TestRun.of_ite_returned _ _ _ _ _
    (fun hc h0 => by rw [h0] at hc; simp [IS_ERR] at hc) h
  obtain ⟨ht, h⟩ := TestRun.of_ite_bad_pointer _ _ _ _ h
  obtain ⟨-, h⟩ := TestRun.of_ite_returned _ _ _ _ _ (fun _ => hN) h
  obtain ⟨-, h⟩ := TestRun.of_ite_returned _ _ _ _ _ (fun _ => hI) h
  obtain ⟨-, h⟩ := TestRun.of_ite_returned _ _ _ _ _ (fun hc => hc) h
  obtain ⟨-, h⟩ := TestRun.of_ite_bad_pointer _ _ _ _ h
  have hctx : (km_AesXtsSetKey K L
      (crypto_alloc_skcipher E (⟨none⟩ : km_AesXtsCtx τ) (km_AesXtsInit K W L E.heap)).2
      aes_xts_128_test.k1).2 = aes_xts_128_test.tfmCtx K W L E := by
    by_cases hte : E.tfm_err = 0
    · simp [crypto_alloc_skcipher, hte, aes_xts_128_test.tfmCtx]
    · exfalso
      apply ht
      simp [crypto_alloc_skcipher, hte]
  rw [hctx] at h
  rw [writeAt_zero_take _ aes_xts_128_test.p1 16 rfl] at h
  split at h
  · cases h
  next r1 hr1 =>
  obtain ⟨hret1, h⟩ := TestRun.of_ite_returned _ _ _ _ _ (fun hc => hc) h
  obtain ⟨hm1, h⟩ := TestRun.of_ite_returned _ _ _ _ _ (fun _ => hI) h
  simp only [ne_eq, not_not] at hret1 hm1
  have hsrc2 := XMEMCMP_eq_zero 16 aes_xts_128_test.c1 _ rfl
    (by simp only [writeAt_zero_length, TestEnv.fresh_length, List.length_replicate]; omega) hm1
  rw [hsrc2] at h
  split at h
  · cases h
  next r2 hr2 =>
  obtain ⟨hret2, h⟩ := TestRun.of_ite_returned _ _ _ _ _ (fun hc => hc) h
  obtain ⟨hm2, h⟩ := TestRun.of_ite_returned _ _ _ _ _ (fun _ => hI) h
  simp only [ne_eq, not_not] at hret2 hm2
  rw [writeAt_zero_take _ aes_xts_128_test.pp 24 rfl] at h
  split at h
  · cases h
  next r3 hr3 =>
  obtain ⟨hret3, h⟩ := TestRun.of_ite_returned _ _ _ _ _ (fun hc => hc) h
  obtain ⟨hm3, h⟩ := TestRun.of_ite_returned _ _ _ _ _ (fun _ => hI) h
  simp only [ne_eq, not_not] at hret3 hm3
  have hsrc4 := XMEMCMP_eq_zero 24 aes_xts_128_test.cp _ rfl
    (by simp only [writeAt_zero_length, List.length_replicate]; omega) hm3
  rw [hsrc4] at h
  split at h
  · cases h
  next r4 hr4 =>
  obtain ⟨hret4, h⟩ := TestRun.of_ite_returned _ _ _ _ _ (fun hc => hc) h
  obtain ⟨hm4, h⟩ := TestRun.of_ite_returned _ _ _ _ _ (fun _ => hI) h
  simp only [ne_eq, not_not] at hret4 hm4
  exact ⟨⟨r1, hr1, Gives_of_XMEMCMP _ _ _ _ _ hret1 rfl hm1⟩,
    ⟨r2, hr2, Gives_of_XMEMCMP _ _ _ _ _ hret2 rfl hm2⟩,
    ⟨r3, hr3, Gives_of_XMEMCMP _ _ _ _ _ hret3 rfl hm3⟩,
    ⟨r4, hr4, Gives_of_XMEMCMP _ _ _ _ _ hret4 rfl hm4⟩⟩

/-- A run of `aes_xts_128_test` that returns 0 went through the known-answer
part to its end and returned from the kernel part. -/
theorem aes_xts_128_test.zero_parts {τ : Type} (K : Consts) (W : WcConsts)
    (X : XtsPrimitive τ) (L : XtsLifecycle τ) (E : TestEnv τ) (T : Transport) (fuel : Nat)
    (log : List TestStep)
    (h : aes_xts_128_test K W X L E T fuel = TestRun.returned 0 log) :
    (∃ s, aes_xts_128_test.kat W X L E = Stage.next s) ∧
    aes_xts_128_test.lkcapi K W X L E T fuel = TestRun.returned 0 log := by
  unfold aes_xts_128_test at h
  cases hk : aes_xts_128_test.kat W X L E with
  | exit e =>
    rw [hk] at h
    injection h with h1 _
    exact absurd h1 (aes_xts_128_test.kat_exits W X L E e hk)
  | next s =>
    rw [hk] at h
    dsimp only at h
    cases hi : (if E.have_fips = true then Stage.next s.1
        else aes_xts_128_test.in_place W X L s.1 s.2) with
    | exit e =>
      rw [hi] at h
      injection h with h1 _
      exfalso
      by_cases hf : E.have_fips = true
      · rw [if_pos hf] at hi
        cases hi
      · rw [if_neg hf] at hi
        exact aes_xts_128_test.in_place_exits W X L s.1 s.2 e hi h1
    | next a =>
      rw [hi] at h
      dsimp only at h
      cases hl : aes_xts_128_test.large W X L E a with
      | exit e =>
        rw [hl] at h
        injection h with h1 _
        exact absurd h1 (aes_xts_128_test.large_exits W X L E a e hl)
      | next b =>
        rw [hl] at h
        exact ⟨⟨s, rfl⟩, h⟩

/-- C13.  For every primitive, set-up, transport, surroundings and amount of
fuel: if `aes_xts_128_test` returns 0 then, on the test's object keyed with
`k1`, the primitive's encryption of `p1` with tweak `i1` succeeds and gives
`c1`, its decryption of `c1` gives `p1`, its encryption of `pp` gives `cp` and
its decryption of `cp` gives `pp`; and `km_AesXtsEncrypt` / `km_AesXtsDecrypt`
on the handle's context keyed with `k1` return 0 with the same four results.
"Gives" compares an output that has the length of the expected bytes, which is
the number of bytes that the call was asked to write. -/
theorem aes_xts_128_test_zero_implies_vectors {τ : Type} (K : Consts) (W : WcConsts)
    (X : XtsPrimitive τ) (L : XtsLifecycle τ) (E : TestEnv τ) (T : Transport) (fuel : Nat)
    (log : List TestStep)
    (h : aes_xts_128_test K W X L E T fuel = TestRun.returned 0 log) :
    (Gives (X.wc_AesXtsEncrypt (some (aes_xts_128_test.encObject L E)) aes_xts_128_test.p1
        aes_xts_128_test.i1).1
      (X.wc_AesXtsEncrypt (some (aes_xts_128_test.encObject L E)) aes_xts_128_test.p1
        aes_xts_128_test.i1).2 aes_xts_128_test.c1 ∧
    Gives (X.wc_AesXtsDecrypt (some (aes_xts_128_test.decObject L E)) aes_xts_128_test.c1
        aes_xts_128_test.i1).1
      (X.wc_AesXtsDecrypt (some (aes_xts_128_test.decObject L E)) aes_xts_128_test.c1
        aes_xts_128_test.i1).2 aes_xts_128_test.p1 ∧
    Gives (X.wc_AesXtsEncrypt (some (aes_xts_128_test.encObject L E)) aes_xts_128_test.pp
        aes_xts_128_test.i1).1
      (X.wc_AesXtsEncrypt (some (aes_xts_128_test.encObject L E)) aes_xts_128_test.pp
        aes_xts_128_test.i1).2 aes_xts_128_test.cp ∧
    Gives (X.wc_AesXtsDecrypt (some (aes_xts_128_test.decObject L E)) aes_xts_128_test.cp
        aes_xts_128_test.i1).1
      (X.wc_AesXtsDecrypt (some (aes_xts_128_test.decObject L E)) aes_xts_128_test.cp
        aes_xts_128_test.i1).2 aes_xts_128_test.pp) ∧
    ((∃ r, km_AesXtsEncrypt K X T fuel (aes_xts_128_test.tfmCtx K W L E)
        ⟨aes_xts_128_test.p1, aes_xts_128_test.i1⟩ = some r ∧
      Gives r.ret r.dst aes_xts_128_test.c1) ∧
    (∃ r, km_AesXtsDecrypt K X T fuel (aes_xts_128_test.tfmCtx K W L E)
        ⟨aes_xts_128_test.c1, aes_xts_128_test.i1⟩ = some r ∧
      Gives r.ret r.dst aes_xts_128_test.p1) ∧
    (∃ r, km_AesXtsEncrypt K X T fuel (aes_xts_128_test.tfmCtx K W L E)
        ⟨aes_xts_128_test.pp, aes_xts_128_test.i1⟩ = some r ∧
      Gives r.ret r.dst aes_xts_128_test.cp) ∧
    (∃ r, km_AesXtsDecrypt K X T fuel (aes_xts_128_test.tfmCtx K W L E)
        ⟨aes_xts_128_test.cp, aes_xts_128_test.i1⟩ = some r ∧
      Gives r.ret r.dst aes_xts_128_test.pp)) := by
  obtain ⟨⟨s, hs⟩, hl⟩ := aes_xts_128_test.zero_parts K W X L E T fuel log h
  exact ⟨aes_xts_128_test.kat_next W X L E s hs,
    aes_xts_128_test.lkcapi_zero K W X L E T fuel log hl⟩

/-- The bytes `(byte)i` of `large_input`. -/
theorem large_input_getD (i : Nat) (h : i < LARGE_XTS_SZ) :
    ((List.range LARGE_XTS_SZ).map fun i => i % 256).getD i 0 = i % 256 := by
  simp [List.getD_eq_getElem?_getD, List.getElem?_range h]

/-- The loop over `large_input` passes for the look-up primitive, which leaves
an input that starts with the byte 0 as it is. -/
theorem katXts_large_loop : ∀ (n j : Nat) (a : Bytes), 0 < j → j + n ≤ LARGE_XTS_SZ →
    ∃ b, aes_xts_128_test.large_loop linuxWc katXts katXtsLifecycle n j a
      ((List.range LARGE_XTS_SZ).map fun i => i % 256) =
      Stage.next (b, (List.range LARGE_XTS_SZ).map fun i => i % 256) := by
  intro n
  induction n with
  | zero => intro j a _ _; exact ⟨a, rfl⟩
  | succ n ih =>
    intro j a hj hle
    have hlen : ((List.range LARGE_XTS_SZ).map fun i => i % 256).length = LARGE_XTS_SZ := by
      simp
    have hhead : ((((List.range LARGE_XTS_SZ).map fun i => i % 256).take j).headD 0) = 0 := by
      obtain ⟨j1, rfl⟩ : ∃ j1, j = j1 + 1 := ⟨j - 1, by omega⟩
      obtain ⟨m, hm⟩ : ∃ m, LARGE_XTS_SZ = m + 1 := ⟨1023, rfl⟩
      rw [hm, List.range_succ_eq_map]
      simp
    have hid : writeAt ((List.range LARGE_XTS_SZ).map fun i => i % 256) 0
        (((List.range LARGE_XTS_SZ).map fun i => i % 256).take j) =
        (List.range LARGE_XTS_SZ).map fun i => i % 256 := by
      have hmin : min j LARGE_XTS_SZ = j := by omega
      simp only [writeAt, List.take_zero, List.nil_append, List.length_take, hlen, hmin,
        Nat.zero_add, List.take_append_drop]
    have hall : (List.range j).all (fun i =>
        decide ((((List.range LARGE_XTS_SZ).map fun i => i % 256)).getD i 0 = i % 256)) = true := by
      rw [List.all_eq_true]
      intro i hi
      have hi2 : i < LARGE_XTS_SZ := by have := List.mem_range.mp hi; omega
      exact decide_eq_true (large_input_getD i hi2)
    obtain ⟨b, hb⟩ := ih (j + 1) aes_xts_128_test.k1 (by omega) (by omega)
    refine ⟨b, ?_⟩
    unfold aes_xts_128_test.large_loop
    simp only [katXtsLifecycle, katXts, hhead, hid, hall, if_true, ne_eq, not_true_eq_false,
      if_false, Bool.true_eq_false]
    exact hb

/-- A run in which the first three parts go on to the end is a run of the
kernel part. -/
theorem aes_xts_128_test.of_parts {τ : Type} (K : Consts) (W : WcConsts)
    (X : XtsPrimitive τ) (L : XtsLifecycle τ) (E : TestEnv τ) (T : Transport) (fuel : Nat)
    (s : τ × Bytes) (a b : τ) (hk : aes_xts_128_test.kat W X L E = Stage.next s)
    (hi : (if E.have_fips = true then Stage.next s.1
      else aes_xts_128_test.in_place W X L s.1 s.2) = Stage.next a)
    (hl : aes_xts_128_test.large W X L E a = Stage.next b) :
    aes_xts_128_test K W X L E T fuel = aes_xts_128_test.lkcapi K W X L E T fuel := by
  unfold aes_xts_128_test
  rw [hk]
  dsimp only
  rw [hi]
  dsimp only
  rw [hl]

/-- With the look-up primitive, and surroundings in which nothing fails,
`aes_xts_128_test` returns 0. -/
theorem katXts_passes :
    aes_xts_128_test linuxConsts linuxWc katXts katXtsLifecycle katEnv Transport.oneView 2 =
      TestRun.returned 0 aes_xts_128_test.passLog := by
  obtain ⟨b, hb⟩ := katXts_large_loop (LARGE_XTS_SZ - 16) 16 aes_xts_128_test.k3
    (by decide) (by decide)
  have hc : ¬ (katEnv.small_stack = true ∧ katEnv.alloc_ok TestBuf.large_input = false) := by
    decide
  have hlarge : aes_xts_128_test.large linuxWc katXts katXtsLifecycle katEnv
      aes_xts_128_test.k3 = Stage.next b := by
    unfold aes_xts_128_test.large
    rw [if_neg hc]
    rw [hb]
  have hfips : ¬ (katEnv.have_fips = true) := by decide
  have hi : (if katEnv.have_fips = true then
        Stage.next (aes_xts_128_test.k2, aes_xts_128_test.p2 ++ List.replicate 8 0).1
      else aes_xts_128_test.in_place linuxWc katXts katXtsLifecycle
        (aes_xts_128_test.k2, aes_xts_128_test.p2 ++ List.replicate 8 0).1
        (aes_xts_128_test.k2, aes_xts_128_test.p2 ++ List.replicate 8 0).2) =
      Stage.next aes_xts_128_test.k3 := by
    rw [if_neg hfips]
    exact katXts_in_place
  exact (aes_xts_128_test.of_parts linuxConsts linuxWc katXts katXtsLifecycle katEnv
    Transport.oneView 2 _ _ _ katXts_kat hi hlarge).trans katXts_lkcapi

/-- Witness for `aes_xts_128_test_zero_implies_vectors`: the look-up primitive
with the payload in one view. -/
theorem aes_xts_128_test_zero_implies_vectors_witness :
    aes_xts_128_test linuxConsts linuxWc katXts katXtsLifecycle katEnv Transport.oneView 2 =
      TestRun.returned 0 aes_xts_128_test.passLog ∧
    ((Gives (katXts.wc_AesXtsEncrypt (some (aes_xts_128_test.encObject katXtsLifecycle katEnv)) aes_xts_128_test.p1
        aes_xts_128_test.i1).1
      (katXts.wc_AesXtsEncrypt (some (aes_xts_128_test.encObject katXtsLifecycle katEnv)) aes_xts_128_test.p1
        aes_xts_128_test.i1).2 aes_xts_128_test.c1 ∧
    Gives (katXts.wc_AesXtsDecrypt (some (aes_xts_128_test.decObject katXtsLifecycle katEnv)) aes_xts_128_test.c1
        aes_xts_128_test.i1).1
      (katXts.wc_AesXtsDecrypt (some (aes_xts_128_test.decObject katXtsLifecycle katEnv)) aes_xts_128_test.c1
        aes_xts_128_test.i1).2 aes_xts_128_test.p1 ∧
    Gives (katXts.wc_AesXtsEncrypt (some (aes_xts_128_test.encObject katXtsLifecycle katEnv)) aes_xts_128_test.pp
        aes_xts_128_test.i1).1
      (katXts.wc_AesXtsEncrypt (some (aes_xts_128_test.encObject katXtsLifecycle katEnv)) aes_xts_128_test.pp
        aes_xts_128_test.i1).2 aes_xts_128_test.cp ∧
    Gives (katXts.wc_AesXtsDecrypt (some (aes_xts_128_test.decObject katXtsLifecycle katEnv)) aes_xts_128_test.cp
        aes_xts_128_test.i1).1
      (katXts.wc_AesXtsDecrypt (some (aes_xts_128_test.decObject katXtsLifecycle katEnv)) aes_xts_128_test.cp
        aes_xts_128_test.i1).2 aes_xts_128_test.pp) ∧
    ((∃ r, km_AesXtsEncrypt linuxConsts katXts Transport.oneView 2
        (aes_xts_128_test.tfmCtx linuxConsts linuxWc katXtsLifecycle katEnv)
        ⟨aes_xts_128_test.p1, aes_xts_128_test.i1⟩ = some r ∧
      Gives r.ret r.dst aes_xts_128_test.c1) ∧
    (∃ r, km_AesXtsDecrypt linuxConsts katXts Transport.oneView 2
        (aes_xts_128_test.tfmCtx linuxConsts linuxWc katXtsLifecycle katEnv)
        ⟨aes_xts_128_test.c1, aes_xts_128_test.i1⟩ = some r ∧
      Gives r.ret r.dst aes_xts_128_test.p1) ∧
    (∃ r, km_AesXtsEncrypt linuxConsts katXts Transport.oneView 2
        (aes_xts_128_test.tfmCtx linuxConsts linuxWc katXtsLifecycle katEnv)
        ⟨aes_xts_128_test.pp, aes_xts_128_test.i1⟩ = some r ∧
      Gives r.ret r.dst aes_xts_128_test.cp) ∧
    (∃ r, km_AesXtsDecrypt linuxConsts katXts Transport.oneView 2
        (aes_xts_128_test.tfmCtx linuxConsts linuxWc katXtsLifecycle katEnv)
        ⟨aes_xts_128_test.cp, aes_xts_128_test.i1⟩ = some r ∧
      Gives r.ret r.dst aes_xts_128_test.pp))) :=
  ⟨katXts_passes,
    aes_xts_128_test_zero_implies_vectors linuxConsts linuxWc katXts katXtsLifecycle katEnv
      Transport.oneView 2 aes_xts_128_test.passLog katXts_passes⟩

/-! ### C21 -/

/-- Every descriptor is in the list of the file. -/
theorem mem_allAlgs (a : Alg) : a ∈ allAlgs := by
  cases a <;> simp [allAlgs]

/-- The compiled-in descriptors are those that the configuration enables. -/
theorem mem_enabledAlgs (cfg : Alg → Bool) (a : Alg) : a ∈ enabledAlgs cfg ↔ cfg a = true := by
  simp [enabledAlgs, mem_allAlgs]

/-- The calls recorded by the unregistration steps over a duplicate-free list. -/
theorem unregisterSteps_log : ∀ (l : List Alg) (s : Registry), l.Nodup →
    (unregisterSteps l s).log =
      s.log ++ (l.filter fun a => decide (s.loaded a ≠ 0)).map Event.uninstaller := by
  intro l
  induction l with
  | nil => intro s _; simp [unregisterSteps]
  | cons b rest ih =>
    intro s hnd
    have hnb : b ∉ rest := (List.nodup_cons.mp hnd).1
    have hrest : rest.Nodup := (List.nodup_cons.mp hnd).2
    have hcongr : (rest.filter fun a => decide ((UNREGISTER_ALG b s).loaded a ≠ 0)) =
        rest.filter fun a => decide (s.loaded a ≠ 0) := by
      apply List.filter_congr
      intro a ha
      have hne : a ≠ b := fun h => hnb (h ▸ ha)
      rw [(UNREGISTER_ALG_other b a s hne).1]
    simp only [unregisterSteps]
    rw [ih (UNREGISTER_ALG b s) hrest, hcongr]
    by_cases hb : s.loaded b = 0
    · simp [UNREGISTER_ALG, hb, List.filter_cons]
    · simp [UNREGISTER_ALG, hb, List.filter_cons]

/-- The unregistration steps change nothing when no flag of the list is set. -/
theorem unregisterSteps_noop : ∀ (l : List Alg) (s : Registry),
    (∀ a ∈ l, s.loaded a = 0) → unregisterSteps l s = s := by
  intro l
  induction l with
  | nil => intro s _; rfl
  | cons b rest ih =>
    intro s h
    have hb : UNREGISTER_ALG b s = s := by
      simp [UNREGISTER_ALG, h b (List.mem_cons_self _ _)]
    simp only [unregisterSteps, hb]
    exact ih s (fun a ha => h a (List.mem_cons_of_mem _ ha))

/-- After the unregistration steps every flag of the list is clear. -/
theorem unregisterSteps_flags (l : List Alg) (s : Registry) (a : Alg) (ha : a ∈ l) :
    (unregisterSteps l s).loaded a = 0 := by
  by_cases h0 : s.loaded a = 0
  · exact ((unregisterSteps_keeps l s a).1 h0).1
  · exact (unregisterSteps_clears l s a ha h0).1

/-- C21.  For every registry state and build configuration,
`linuxkm_lkcapi_unregister` records exactly the uninstaller calls of the
compiled-in descriptors whose loaded flag is set on entry, each once: the
call for a descriptor occurs once if it is compiled in and its flag is set,
and not at all otherwise.  Afterwards the flag of every compiled-in descriptor
is 0.  On a state in which none of these flags is set the state is returned
as it is, and a second call in a row returns the state of the first. -/
theorem linuxkm_lkcapi_unregister_once (cfg : Alg → Bool) (s : Registry) :
    (linuxkm_lkcapi_unregister cfg s).log = s.log ++ uninstallerCalls cfg s ∧
    (∀ a, (uninstallerCalls cfg s).count (Event.uninstaller a) =
      if cfg a = true ∧ s.loaded a ≠ 0 then 1 else 0) ∧
    (∀ ev ∈ uninstallerCalls cfg s, ∃ a, ev = Event.uninstaller a) ∧
    (∀ a, cfg a = true → (linuxkm_lkcapi_unregister cfg s).loaded a = 0) ∧
    ((∀ a, cfg a = true → s.loaded a = 0) → linuxkm_lkcapi_unregister cfg s = s) ∧
    linuxkm_lkcapi_unregister cfg (linuxkm_lkcapi_unregister cfg s) =
      linuxkm_lkcapi_unregister cfg s := by
  have hflags : ∀ a, cfg a = true → (linuxkm_lkcapi_unregister cfg s).loaded a = 0 :=
    fun a ha => unregisterSteps_flags _ s a ((mem_enabledAlgs cfg a).mpr ha)
  refine ⟨unregisterSteps_log _ s (enabledAlgs_nodup cfg), ?_, ?_, hflags, ?_, ?_⟩
  · intro a
    have hinj : Function.Injective Event.uninstaller := by
      intro x y h
      injection h
    unfold uninstallerCalls
    rw [List.count_map_of_injective _ _ hinj,
      List.count_eq_of_nodup (List.Nodup.filter _ (enabledAlgs_nodup cfg))]
    simp [List.mem_filter, mem_enabledAlgs]
  · intro ev hev
    unfold uninstallerCalls at hev
    obtain ⟨a, _, rfl⟩ := List.mem_map.mp hev
    exact ⟨a, rfl⟩
  · intro h
    exact unregisterSteps_noop _ s (fun a ha => h a ((mem_enabledAlgs cfg a).mp ha))
  · exact unregisterSteps_noop _ _ (fun a ha => hflags a ((mem_enabledAlgs cfg a).mp ha))

/-! ### C27 -/

/-- The state at module load is consistent. -/
theorem Registry.init_consistent (cfg : Alg → Bool) : Registry.init.Consistent cfg := by
  intro a
  exact Or.inl ⟨rfl, rfl⟩

/-- One `REGISTER_ALG` for a compiled-in descriptor keeps the state consistent. -/
theorem REGISTER_ALG_consistent (K : Consts) (cfg : Alg → Bool) (env : Outcomes) (a : Alg)
    (s : Registry) (ha : cfg a = true) (h : s.Consistent cfg) :
    (REGISTER_ALG K env a s).2.Consistent cfg := by
  have hset : (⟨setAt s.loaded a 1, setAt s.installed a true, s.log⟩ : Registry).Consistent
      cfg := by
    intro b
    by_cases hb : b = a
    · subst hb
      exact Or.inr ⟨ha, by simp [setAt], by simp [setAt]⟩
    · simpa [setAt, hb] using h b
  rcases REGISTER_ALG_cases K env a s with ⟨_, hR⟩ | ⟨_, _, hR⟩ | ⟨_, _, _, hR⟩ | ⟨_, _, _, hR⟩
  · rw [hR]; exact h
  · rw [hR]; exact h
  · rw [hR]; exact hset
  · rw [hR]; exact hset

/-- The registration steps over compiled-in descriptors keep the state consistent. -/
theorem registerSteps_consistent (K : Consts) (cfg : Alg → Bool) (env : Outcomes) :
    ∀ (l : List Alg) (s : Registry), (∀ a ∈ l, cfg a = true) → s.Consistent cfg →
      (registerSteps K env l s).2.Consistent cfg := by
  intro l
  induction l with
  | nil => intro s _ h; exact h
  | cons b rest ih =>
    intro s hl h
    have hb := REGISTER_ALG_consistent K cfg env b s (hl b (List.mem_cons_self _ _)) h
    rcases REGISTER_ALG_cases K env b s with ⟨_, hR⟩ | ⟨_, _, hR⟩ | ⟨_, _, _, hR⟩ |
      ⟨_, _, _, hR⟩
    · rw [registerSteps_cons_some K env b rest s _ _ hR]; rw [hR] at hb; exact hb
    · rw [registerSteps_cons_some K env b rest s _ _ hR]; rw [hR] at hb; exact hb
    · rw [registerSteps_cons_some K env b rest s _ _ hR]; rw [hR] at hb; exact hb
    · rw [registerSteps_cons_none K env b rest s _ hR]
      rw [hR] at hb
      exact ih _ (fun a ha => hl a (List.mem_cons_of_mem _ ha)) hb

/-- `linuxkm_lkcapi_register` keeps the state consistent. -/
theorem register_consistent (K : Consts) (cfg : Alg → Bool) (env : Outcomes) (s : Registry)
    (h : s.Consistent cfg) : (linuxkm_lkcapi_register K cfg env s).2.Consistent cfg := by
  rw [(register_eq K cfg env s).1]
  exact registerSteps_consistent K cfg env _ s (fun a ha => (mem_enabledAlgs cfg a).mp ha) h

/-- On a consistent state `linuxkm_lkcapi_unregister` leaves no flag set and
nothing installed. -/
theorem unregister_clears_all (cfg : Alg → Bool) (s : Registry) (h : s.Consistent cfg)
    (a : Alg) :
    (linuxkm_lkcapi_unregister cfg s).loaded a = 0 ∧
    (linuxkm_lkcapi_unregister cfg s).installed a = false := by
  unfold linuxkm_lkcapi_unregister
  rcases h a with ⟨h0, h1⟩ | ⟨hc, h1, _⟩
  · obtain ⟨p, q⟩ := (unregisterSteps_keeps (enabledAlgs cfg) s a).1 h0
    exact ⟨p, by rw [q, h1]⟩
  · obtain ⟨p, q, _⟩ := unregisterSteps_clears (enabledAlgs cfg) s a
      ((mem_enabledAlgs cfg a).mpr hc) (by rw [h1]; decide)
    exact ⟨p, q⟩

/-- Every sequence of registry calls keeps a consistent state consistent. -/
theorem runOps_consistent (K : Consts) (cfg : Alg → Bool) :
    ∀ (ops : List RegistryOp) (s : Registry), s.Consistent cfg →
      (runOps K cfg ops s).Consistent cfg := by
  intro ops
  induction ops with
  | nil => intro s h; exact h
  | cons op rest ih =>
    intro s h
    cases op with
    | register env => exact ih _ (register_consistent K cfg env s h)
    | unregister =>
      refine ih _ ?_
      intro a
      exact Or.inl (unregister_clears_all cfg s h a)

/-- C27.  Start from the state at module load and make any sequence of calls
to `linuxkm_lkcapi_register` (each with arbitrary installer and self-test
outcomes) and `linuxkm_lkcapi_unregister`.  In the state reached, the loaded
flag of every descriptor is 0 or 1, and it is 1 exactly if the descriptor is
installed.  If a further `linuxkm_lkcapi_register` returns a non-zero value, the
`linuxkm_lkcapi_unregister` that follows leaves no descriptor installed and no
flag set. -/
theorem loaded_flag_tracks_installation (K : Consts) (cfg : Alg → Bool)
    (ops : List RegistryOp) :
    (∀ a, ((runOps K cfg ops Registry.init).loaded a = 1 ↔
        (runOps K cfg ops Registry.init).installed a = true) ∧
      ((runOps K cfg ops Registry.init).loaded a = 0 ∨
        (runOps K cfg ops Registry.init).loaded a = 1)) ∧
    (∀ env, (linuxkm_lkcapi_register K cfg env (runOps K cfg ops Registry.init)).1 ≠ 0 →
      ∀ a,
        (linuxkm_lkcapi_unregister cfg
          (linuxkm_lkcapi_register K cfg env (runOps K cfg ops Registry.init)).2).installed a
          = false ∧
        (linuxkm_lkcapi_unregister cfg
          (linuxkm_lkcapi_register K cfg env (runOps K cfg ops Registry.init)).2).loaded a
          = 0) := by
  have hc := runOps_consistent K cfg ops Registry.init (Registry.init_consistent cfg)
  refine ⟨fun a => ?_, fun env _ a => ?_⟩
  · rcases hc a with ⟨h0, h1⟩ | ⟨_, h1, h2⟩
    · refine ⟨⟨fun h => ?_, fun h => ?_⟩, Or.inl h0⟩
      · rw [h0] at h
        exact absurd h (by decide)
      · rw [h1] at h
        exact absurd h (by decide)
    · exact ⟨⟨fun _ => h2, fun _ => h1⟩, Or.inr h1⟩
  · obtain ⟨p, q⟩ := unregister_clears_all cfg _ (register_consistent K cfg env _ hc) a
    exact ⟨q, p⟩

/-! ### C22 -/

set_option maxRecDepth 100000 in
/-- C22, the code at a failing input.  The primitive's CBC decryption writes
zero bytes, so the comparison of `vector` with `dec` in `linuxkm_test_aescbc`
finds the bytes 0x4e and 0 and yields 78.  The self-test returns that value,
and `linuxkm_lkcapi_register` returns it in turn: 78, a positive integer. -/
theorem linuxkm_lkcapi_register_returns_positive :
    XMEMCMP testVector (List.replicate 32 0) 32 = 78 ∧
    linuxkm_test_aescbc linuxConsts linuxWc (zeroDecPrimitive linuxConsts) toyLifecycle toyEnv
      Transport.oneView 2 = TestRun.returned 78 [TestStep.compare 78] ∧
    (linuxkm_lkcapi_register linuxConsts allEnabled
      (cbcSelfTestIs (linuxkm_test_aescbc linuxConsts linuxWc (zeroDecPrimitive linuxConsts)
        toyLifecycle toyEnv Transport.oneView 2)) Registry.init).1 = 78 ∧
    ¬ ((linuxkm_lkcapi_register linuxConsts allEnabled
      (cbcSelfTestIs (linuxkm_test_aescbc linuxConsts linuxWc (zeroDecPrimitive linuxConsts)
        toyLifecycle toyEnv Transport.oneView 2)) Registry.init).1 ≤ 0) := by
  decide

/-! ### C23 -/

/-- C23, counterexample.  The descriptor `gcmAesAead` declares
`base.cra_blocksize = 1`, which is not `AES_BLOCK_SIZE` (16). -/
theorem gcmAesAead_blocksize_one :
    gcmAesAead.cra_blocksize = 1 ∧ gcmAesAead.cra_blocksize ≠ AES_BLOCK_SIZE ∧
    AES_BLOCK_SIZE = 16 := by
  decide

/-- C23, amended.  The descriptors `cbcAesAlg`, `cfbAesAlg` and `xtsAesAlg`
declare a block size of `AES_BLOCK_SIZE` = 16 bytes.  The descriptor
`gcmAesAead` declares a block size of 1 and a chunk size, an IV size and a
largest tag size of `AES_BLOCK_SIZE`. -/
theorem descriptor_block_sizes :
    cbcAesAlg.cra_blocksize = AES_BLOCK_SIZE ∧ cfbAesAlg.cra_blocksize = AES_BLOCK_SIZE ∧
    xtsAesAlg.cra_blocksize = AES_BLOCK_SIZE ∧ AES_BLOCK_SIZE = 16 ∧
    gcmAesAead.cra_blocksize = 1 ∧ gcmAesAead.chunksize = AES_BLOCK_SIZE ∧
    gcmAesAead.ivsize = AES_BLOCK_SIZE ∧ gcmAesAead.maxauthsize = AES_BLOCK_SIZE := by
  decide

/-! ### C26 -/

set_option maxRecDepth 100000 in
/-- C26, the code at a failing input.  The walk starts and the primitive
accepts the IV, then the mapping of the associated data fails.
`km_AesGcmEncrypt` and `km_AesGcmDecrypt` return `err`, which holds the 0 of
`wc_AesGcmInit`: the result is 0, after three calls, with the destination
untouched. -/
theorem km_AesGcm_map_failure_returns_zero :
    (km_AesGcmEncrypt linuxConsts (toyPrimitive linuxConsts) Transport.mapFails 2 toyCtx 16
      gcmTestEncrypt).map AeadOut.view =
      some (0, gcmTestEncrypt.dst,
        [Call.walk_start 0, Call.gcm_init testIv 0, Call.map_assoc true]) ∧
    (km_AesGcmDecrypt linuxConsts (toyPrimitive linuxConsts) Transport.mapFails 2 toyCtx 16
      gcmTestDecrypt).map AeadOut.view =
      some (0, gcmTestDecrypt.dst,
        [Call.walk_start 0, Call.gcm_init testIv 0, Call.map_assoc true]) := by
  decide

/-! ### C28 -/

/-- C28, the code at a failing input.  With a primitive that passes every
known-answer test, `aes_xts_128_test` returns 0 after the steps of `passLog`.
`enc2` and `dec2` have a capacity of `sizeof(p1)` = 16 bytes; from the copy of
the 24-byte `pp` into `dec2` on, nine accesses of 24 bytes are made to them.
In `aes_xts_256_test` the same allocation has 32 bytes and holds `pp`. -/
theorem aes_xts_128_test_access_past_capacity :
    aes_xts_128_test linuxConsts linuxWc katXts katXtsLifecycle katEnv Transport.oneView 2 =
      TestRun.returned 0 aes_xts_128_test.passLog ∧
    aes_xts_128_test.p1.length = 16 ∧ aes_xts_128_test.pp.length = 24 ∧
    aes_xts_128_test.passLog.all TestStep.inBounds = false ∧
    (aes_xts_128_test.passLog.filter fun st => !st.inBounds) =
      [TestStep.access TestBuf.dec2 16 24, TestStep.access TestBuf.enc2 16 24,
       TestStep.access TestBuf.dec2 16 24, TestStep.access TestBuf.enc2 16 24,
       TestStep.access TestBuf.enc2 16 24, TestStep.access TestBuf.dec2 16 24,
       TestStep.access TestBuf.enc2 16 24, TestStep.access TestBuf.dec2 16 24,
       TestStep.access TestBuf.dec2 16 24] ∧
    aes_xts_256_test.pp.length ≤ aes_xts_256_test.p1.length :=
  ⟨katXts_passes, by decide, by decide, by decide, by decide, by decide⟩

/-! ### C29 -/

/-- C29, the code at a failing input.  `malloc` fails.  With `MEMORY_E` = -125,
`km_AesInitCommon` returns `MEMORY_E` = -125 and `km_AesXtsInitCommon` returns
`-MEMORY_E` = 125: a positive value, and not the code that `km_AesInitCommon`
gives for the same failure. -/
theorem km_AesXtsInitCommon_alloc_failure_positive :
    linuxWc.MEMORY_E = -125 ∧
    (km_AesInitCommon linuxConsts linuxWc toyLifecycle noMemory km_AesCtx.null 1).1 = -125 ∧
    (km_AesXtsInitCommon linuxConsts linuxWc toyXtsLifecycle noXtsMemory ⟨none⟩).1 = 125 ∧
    ¬ ((km_AesXtsInitCommon linuxConsts linuxWc toyXtsLifecycle noXtsMemory ⟨none⟩).1 < 0) ∧
    (km_AesXtsInitCommon linuxConsts linuxWc toyXtsLifecycle noXtsMemory ⟨none⟩).1 ≠
      (km_AesInitCommon linuxConsts linuxWc toyLifecycle noMemory km_AesCtx.null 1).1 := by
  decide

/-! ### C24 -/

/-- The CBC/CFB loop on a walk of one non-empty view, when the primitive and
the commit succeed: one IV installation, one transform of the whole view, one
commit with nothing left. -/
theorem km_AesLoop_oneView {σ : Type} (K : Consts) (P : Primitive σ)
    (xform : Option σ → Bytes → Int × Option σ × Bytes) (T : Transport) (fuel : Nat)
    (v iv : Bytes) (aes : Option σ) (dst : Bytes) (log : List Call) (err : Int) (hv : v ≠ [])
    (h1 : (P.wc_AesSetIV aes iv).1 = 0) (h2 : (xform (P.wc_AesSetIV aes iv).2 v).1 = 0)
    (hd : T.done_err 0 = 0) :
    km_AesLoop K P xform T (fuel + 2) ⟨[v], iv, 0, 0⟩ aes dst log err =
      some ⟨0, (xform (P.wc_AesSetIV aes iv).2 v).2.1,
        dst ++ (xform (P.wc_AesSetIV aes iv).2 v).2.2,
        log ++ [Call.set_iv iv 0, Call.transform v.length 0, Call.walk_done 0 0]⟩ := by
  have hl := length_ne_zero_of_ne_nil v hv
  simp [km_AesLoop, skcipher_walk.nbytes, skcipher_walk.src, skcipher_walk_done, h1, h2, hd, hl]

/-- C24.  The walk starts, hands the whole non-empty source out as one view,
and its commit succeeds.  For each of `km_AesCbcEncrypt`, `km_AesCbcDecrypt`,
`km_AesCfbEncrypt` and `km_AesCfbDecrypt`: if the primitive accepts the IV and
its transform of the view succeeds, the call returns 0 after exactly four
calls (walk start, one installation of the request's IV, one transform of all
`cryptlen` bytes, one commit with 0 bytes left), and the bytes written are
those of the primitive's one-shot use on the same object, IV and input. -/
theorem km_Aes_oneView_is_oneShot {σ : Type} (K : Consts) (P : Primitive σ) (T : Transport)
    (fuel : Nat) (ctx : km_AesCtx σ) (req : skcipher_request) (hfuel : 2 ≤ fuel)
    (hstart : T.start_err = 0) (hdone : T.done_err 0 = 0) (hne : req.src ≠ [])
    (hview : splitViews req.src T.split = [req.src]) :
    ((P.wc_AesSetIV ctx.aes_encrypt req.iv).1 = 0 →
      (P.wc_AesCbcEncrypt (P.wc_AesSetIV ctx.aes_encrypt req.iv).2 req.src).1 = 0 →
      ∃ r, km_AesCbcEncrypt K P T fuel ctx req = some r ∧ r.ret = 0 ∧
        r.log = [Call.walk_start 0, Call.set_iv req.iv 0,
          Call.transform req.src.length 0, Call.walk_done 0 0] ∧
        r.dst = oneShot P P.wc_AesCbcEncrypt ctx.aes_encrypt req.iv req.src) ∧
    ((P.wc_AesSetIV ctx.aes_decrypt req.iv).1 = 0 →
      (P.wc_AesCbcDecrypt (P.wc_AesSetIV ctx.aes_decrypt req.iv).2 req.src).1 = 0 →
      ∃ r, km_AesCbcDecrypt K P T fuel ctx req = some r ∧ r.ret = 0 ∧
        r.log = [Call.walk_start 0, Call.set_iv req.iv 0,
          Call.transform req.src.length 0, Call.walk_done 0 0] ∧
        r.dst = oneShot P P.wc_AesCbcDecrypt ctx.aes_decrypt req.iv req.src) ∧
    ((P.wc_AesSetIV ctx.aes_encrypt req.iv).1 = 0 →
      (P.wc_AesCfbEncrypt (P.wc_AesSetIV ctx.aes_encrypt req.iv).2 req.src).1 = 0 →
      ∃ r, km_AesCfbEncrypt K P T fuel ctx req = some r ∧ r.ret = 0 ∧
        r.log = [Call.walk_start 0, Call.set_iv req.iv 0,
          Call.transform req.src.length 0, Call.walk_done 0 0] ∧
        r.dst = oneShot P P.wc_AesCfbEncrypt ctx.aes_encrypt req.iv req.src) ∧
    ((P.wc_AesSetIV ctx.aes_encrypt req.iv).1 = 0 →
      (P.wc_AesCfbDecrypt (P.wc_AesSetIV ctx.aes_encrypt req.iv).2 req.src).1 = 0 →
      ∃ r, km_AesCfbDecrypt K P T fuel ctx req = some r ∧ r.ret = 0 ∧
        r.log = [Call.walk_start 0, Call.set_iv req.iv 0,
          Call.transform req.src.length 0, Call.walk_done 0 0] ∧
        r.dst = oneShot P P.wc_AesCfbDecrypt ctx.aes_encrypt req.iv req.src) := by
  obtain ⟨f, rfl⟩ : ∃ f, fuel = f + 2 := ⟨fuel - 2, by omega⟩
  have hw : skcipher_walk_virt T req = (0, ⟨[req.src], req.iv, 0, 0⟩) := by
    simp [skcipher_walk_virt, hstart, hview]
  refine ⟨?_, ?_, ?_, ?_⟩
  · intro h1 h2
    have hl := km_AesLoop_oneView K P P.wc_AesCbcEncrypt T f req.src req.iv ctx.aes_encrypt []
      [Call.walk_start 0] 0 hne h1 h2 hdone
    simp [km_AesCbcEncrypt, hw, hl, oneShot]
  · intro h1 h2
    have hl := km_AesLoop_oneView K P P.wc_AesCbcDecrypt T f req.src req.iv ctx.aes_decrypt []
      [Call.walk_start 0] 0 hne h1 h2 hdone
    simp [km_AesCbcDecrypt, hw, hl, oneShot]
  · intro h1 h2
    have hl := km_AesLoop_oneView K P P.wc_AesCfbEncrypt T f req.src req.iv ctx.aes_encrypt []
      [Call.walk_start 0] 0 hne h1 h2 hdone
    simp [km_AesCfbEncrypt, hw, hl, oneShot]
  · intro h1 h2
    have hl := km_AesLoop_oneView K P P.wc_AesCfbDecrypt T f req.src req.iv ctx.aes_encrypt []
      [Call.walk_start 0] 0 hne h1 h2 hdone
    simp [km_AesCfbDecrypt, hw, hl, oneShot]

set_option maxRecDepth 100000 in
/-- Witness for `km_Aes_oneView_is_oneShot`: the self-test vector in one view. -/
theorem km_Aes_oneView_is_oneShot_witness :
    (∃ r, km_AesCbcEncrypt linuxConsts (toyPrimitive linuxConsts) Transport.oneView 2 toyCtx
        ⟨testVector, testIv⟩ = some r ∧ r.ret = 0 ∧
        r.log = [Call.walk_start 0, Call.set_iv testIv 0,
          Call.transform testVector.length 0, Call.walk_done 0 0] ∧
        r.dst = oneShot (toyPrimitive linuxConsts) (toyPrimitive linuxConsts).wc_AesCbcEncrypt
          toyCtx.aes_encrypt testIv testVector) ∧
    (∃ r, km_AesCbcDecrypt linuxConsts (toyPrimitive linuxConsts) Transport.oneView 2 toyCtx
        ⟨testVector, testIv⟩ = some r ∧ r.ret = 0 ∧
        r.log = [Call.walk_start 0, Call.set_iv testIv 0,
          Call.transform testVector.length 0, Call.walk_done 0 0] ∧
        r.dst = oneShot (toyPrimitive linuxConsts) (toyPrimitive linuxConsts).wc_AesCbcDecrypt
          toyCtx.aes_decrypt testIv testVector) ∧
    (∃ r, km_AesCfbEncrypt linuxConsts (toyPrimitive linuxConsts) Transport.oneView 2 toyCtx
        ⟨testVector, testIv⟩ = some r ∧ r.ret = 0 ∧
        r.log = [Call.walk_start 0, Call.set_iv testIv 0,
          Call.transform testVector.length 0, Call.walk_done 0 0] ∧
        r.dst = oneShot (toyPrimitive linuxConsts) (toyPrimitive linuxConsts).wc_AesCfbEncrypt
          toyCtx.aes_encrypt testIv testVector) ∧
    (∃ r, km_AesCfbDecrypt linuxConsts (toyPrimitive linuxConsts) Transport.oneView 2 toyCtx
        ⟨testVector, testIv⟩ = some r ∧ r.ret = 0 ∧
        r.log = [Call.walk_start 0, Call.set_iv testIv 0,
          Call.transform testVector.length 0, Call.walk_done 0 0] ∧
        r.dst = oneShot (toyPrimitive linuxConsts) (toyPrimitive linuxConsts).wc_AesCfbDecrypt
          toyCtx.aes_encrypt testIv testVector) :=
  have h := km_Aes_oneView_is_oneShot linuxConsts (toyPrimitive linuxConsts) Transport.oneView 2
    toyCtx ⟨testVector, testIv⟩ (by decide) (by decide) (by decide) (by decide) (by decide)
  ⟨h.1 (by decide) (by decide), h.2.1 (by decide) (by decide),
    h.2.2.1 (by decide) (by decide), h.2.2.2 (by decide) (by decide)⟩

/-- Every view of a decomposition is non-empty. -/
theorem splitViews_nonempty : ∀ (split : List Nat) (data : Bytes),
    ∀ v ∈ splitViews data split, v ≠ [] := by
  intro split
  induction split with
  | nil =>
    intro data v hv
    cases data with
    | nil => simp [splitViews] at hv
    | cons b bs =>
      simp [splitViews] at hv
      rw [hv]
      simp
  | cons k ks ih =>
    intro data v hv
    cases data with
    | nil => simp [splitViews] at hv
    | cons b bs =>
      by_cases hk : k = 0
      · simp only [splitViews, List.isEmpty_cons, hk] at hv
        exact ih (b :: bs) v (by simpa using hv)
      · by_cases hle : bs.length + 1 ≤ k
        · simp [splitViews, hk, hle] at hv
          rw [hv]
          simp
        · simp [splitViews, hk, hle] at hv
          rcases hv with hv | hv
          · rw [hv]
            cases k with
            | zero => exact absurd rfl hk
            | succ n => simp
          · exact ih _ v hv

/-! ### Runs with the recording primitive -/

/-- The primitive calls of a record that starts with calls of `pre`. -/
theorem callsOf_append (t u : EntryPoint) (a b : List Call) :
    callsOf t u (a ++ b) = callsOf t u a ++ callsOf t u b := by
  simp [callsOf, List.filterMap_append]

/-- The CBC/CFB loop with the recording primitive and more fuel than views
returns.  The object it ends with is the one it started with, extended by the
primitive calls that the loop recorded; none of them failed.  When no commit
fails and no view is empty, the loop returns 0 after one IV installation and
one transform per view. -/
theorem km_AesLoop_probe (K : Consts) (T : Transport)
    (xform : Option Probe → Bytes → Int × Option Probe × Bytes) (ep upd : EntryPoint)
    (hx : ∀ (o : Probe) (inp : Bytes), xform (some o) inp = (0, some (o.record ep), inp)) :
    ∀ (fuel : Nat) (walk : skcipher_walk) (o : Probe) (dst : Bytes) (log : List Call)
      (err : Int), walk.views.length < fuel →
      ∃ r new, km_AesLoop K probePrimitive xform T fuel walk (some o) dst log err = some r ∧
        r.log = log ++ new ∧
        r.aes = some ⟨o.slot, o.calls ++ callsOf ep upd new⟩ ∧
        (∀ c ∈ new, (c.entryPoint ep upd).isSome = true → c.failed = false) ∧
        ((∀ k, T.done_err k = 0) → (∀ v ∈ walk.views, v ≠ []) → err = 0 →
          r.ret = 0 ∧
          callsOf ep upd new = repeatCalls walk.views.length [EntryPoint.wc_AesSetIV, ep]) := by
  intro fuel
  induction fuel with
  | zero => intro walk o dst log err h; omega
  | succ fuel ih =>
    intro walk o dst log err hfuel
    obtain ⟨views, iv, off, ndone⟩ := walk
    obtain ⟨sl, cs⟩ := o
    cases views with
    | nil =>
      refine ⟨⟨err, some ⟨sl, cs⟩, dst, log⟩, [], by simp [km_AesLoop, skcipher_walk.nbytes],
        by simp, by simp [callsOf], by simp, ?_⟩
      intro _ _ he
      exact ⟨he, by simp [callsOf, repeatCalls]⟩
    | cons v rest =>
      by_cases hv : v.length = 0
      · refine ⟨⟨err, some ⟨sl, cs⟩, dst, log⟩, [],
          by simp [km_AesLoop, skcipher_walk.nbytes, hv], by simp, by simp [callsOf], by simp, ?_⟩
        intro _ hne _
        exact absurd (List.length_eq_zero.mp hv) (hne v (List.mem_cons_self _ _))
      · have h1 : probePrimitive.wc_AesSetIV (some ⟨sl, cs⟩) iv =
            (0, some ⟨sl, cs ++ [EntryPoint.wc_AesSetIV]⟩) := rfl
        have h2 : xform (some ⟨sl, cs ++ [EntryPoint.wc_AesSetIV]⟩) v =
            (0, some ⟨sl, cs ++ [EntryPoint.wc_AesSetIV] ++ [ep]⟩, v) :=
          hx ⟨sl, cs ++ [EntryPoint.wc_AesSetIV]⟩ v
        by_cases hd : T.done_err ndone = 0
        · have hlen : (⟨rest, iv, off + v.length, ndone + 1⟩ : skcipher_walk).views.length
              < fuel := by
            simp only [List.length_cons] at hfuel
            simp only
            omega
          obtain ⟨r, new, hr, hlog, haes, hok, hff⟩ := ih ⟨rest, iv, off + v.length, ndone + 1⟩
            ⟨sl, cs ++ [EntryPoint.wc_AesSetIV] ++ [ep]⟩ (dst ++ v)
            (log ++ [Call.set_iv iv 0, Call.transform v.length 0, Call.walk_done 0 0]) 0 hlen
          refine ⟨r, [Call.set_iv iv 0, Call.transform v.length 0, Call.walk_done 0 0] ++ new,
            ?_, ?_, ?_, ?_, ?_⟩
          · simp only [List.append_assoc, List.cons_append, List.nil_append] at hr
            simp [km_AesLoop, skcipher_walk.nbytes, skcipher_walk.src, skcipher_walk_done, hv,
              h1, h2, hd, hr]
          · rw [hlog]
            simp
          · rw [haes, callsOf_append]
            simp [callsOf, Call.entryPoint]
          · intro c hc
            rcases List.mem_append.mp hc with h | h
            · intro _
              simp at h
              rcases h with rfl | rfl | rfl <;> rfl
            · exact hok c h
          · intro hdone hne _
            obtain ⟨p, q⟩ := hff hdone (fun w hw => hne w (List.mem_cons_of_mem _ hw)) rfl
            refine ⟨p, ?_⟩
            rw [callsOf_append, q]
            simp [callsOf, Call.entryPoint, repeatCalls]
        · refine ⟨⟨T.done_err ndone, some ⟨sl, cs ++ [EntryPoint.wc_AesSetIV] ++ [ep]⟩,
            dst ++ v,
            log ++ [Call.set_iv iv 0, Call.transform v.length 0,
              Call.walk_done 0 (T.done_err ndone)]⟩,
            [Call.set_iv iv 0, Call.transform v.length 0, Call.walk_done 0 (T.done_err ndone)],
            ?_, rfl, ?_, ?_, ?_⟩
          · simp [km_AesLoop, skcipher_walk.nbytes, skcipher_walk.src, skcipher_walk_done, hv,
              h1, h2, hd]
          · simp [callsOf, Call.entryPoint]
          · intro c hc hs
            simp at hc
            rcases hc with rfl | rfl | rfl
            · rfl
            · rfl
            · simp [Call.entryPoint] at hs
          · intro hdone _ _
            exact absurd (hdone ndone) hd

/-- The contexts that the three init functions set up from the recording
allocator, whatever the context held before. -/
theorem probe_init_contexts (K : Consts) (W : WcConsts) (c : km_AesCtx Probe) :
    (km_AesCfbInit K W probeLifecycle probeHeap c).1 = 0 ∧
    (km_AesCfbInit K W probeLifecycle probeHeap c).2.1 =
      ⟨some ⟨Slot.aes_encrypt, []⟩, none⟩ ∧
    (km_AesGcmInit K W probeLifecycle probeHeap c).1 = 0 ∧
    (km_AesGcmInit K W probeLifecycle probeHeap c).2.1 =
      ⟨some ⟨Slot.aes_encrypt, []⟩, none⟩ ∧
    (km_AesCbcInit K W probeLifecycle probeHeap c).1 = 0 ∧
    (km_AesCbcInit K W probeLifecycle probeHeap c).2.1 =
      ⟨some ⟨Slot.aes_encrypt, []⟩, some ⟨Slot.aes_decrypt, []⟩⟩ := by
  simp [km_AesCfbInit, km_AesGcmInit, km_AesCbcInit, km_AesInitCommon, probeLifecycle,
    probeHeap]

/-- `km_AesCfbDecrypt` with the recording primitive on the context of
`km_AesCfbInit`. -/
theorem km_AesCfbDecrypt_probe (K : Consts) (W : WcConsts) (c : km_AesCtx Probe)
    (T : Transport) (fuel : Nat) (req : skcipher_request) (hfuel : (splitViews req.src T.split).length < fuel) :
    ∃ r, km_AesCfbDecrypt K probePrimitive T fuel
        (km_AesCfbInit K W probeLifecycle probeHeap c).2.1 req = some r ∧
      r.ctx.aes_decrypt = none ∧
      CallsLandOn Slot.aes_encrypt EntryPoint.wc_AesCfbDecrypt EntryPoint.wc_AesCfbDecrypt
        r.ctx.aes_encrypt r.log ∧
      (T.start_err = 0 → (∀ k, T.done_err k = 0) →
        r.ret = 0 ∧
        callsOf EntryPoint.wc_AesCfbDecrypt EntryPoint.wc_AesCfbDecrypt r.log =
          repeatCalls (splitViews req.src T.split).length
            [EntryPoint.wc_AesSetIV, EntryPoint.wc_AesCfbDecrypt]) := by
  rw [(probe_init_contexts K W c).2.1]
  rcases skcipher_walk_virt_cases T req with ⟨hs, hw⟩ | hw
  · refine ⟨⟨T.start_err, ⟨some ⟨Slot.aes_encrypt, []⟩, none⟩, [],
      [Call.walk_start T.start_err]⟩, by simp [km_AesCfbDecrypt, hw, hs], rfl, ⟨rfl, ?_⟩, ?_⟩
    · intro c hc hsome
      simp at hc
      subst hc
      simp [Call.entryPoint] at hsome
    · intro h0
      exact absurd h0 hs
  · obtain ⟨r, new, hr, hlog, haes, hok, hff⟩ := km_AesLoop_probe K T
      probePrimitive.wc_AesCfbDecrypt EntryPoint.wc_AesCfbDecrypt EntryPoint.wc_AesCfbDecrypt
      (fun _ _ => rfl) fuel ⟨splitViews req.src T.split, req.iv, 0, 0⟩
      ⟨Slot.aes_encrypt, []⟩ [] [Call.walk_start 0] 0 hfuel
    refine ⟨⟨r.ret, ⟨r.aes, none⟩, r.dst, r.log⟩, by simp [km_AesCfbDecrypt, hw, hr], rfl,
      ⟨?_, ?_⟩, ?_⟩
    · simp only [haes, hlog, callsOf_append]
      simp [callsOf, Call.entryPoint]
    · intro c hc hsome
      simp only [hlog] at hc
      rcases List.mem_append.mp hc with h | h
      · simp at h
        subst h
        simp [Call.entryPoint] at hsome
      · exact hok c h hsome
    · intro _ hdone
      obtain ⟨p, q⟩ := hff hdone (splitViews_nonempty _ _) rfl
      refine ⟨p, ?_⟩
      simp only [hlog, callsOf_append, q]
      simp [callsOf, Call.entryPoint]

/-- `km_AesCbcDecrypt` with the recording primitive on the context of
`km_AesCbcInit`. -/
theorem km_AesCbcDecrypt_probe (K : Consts) (W : WcConsts) (c : km_AesCtx Probe)
    (T : Transport) (fuel : Nat) (req : skcipher_request) (hfuel : (splitViews req.src T.split).length < fuel) :
    ∃ r, km_AesCbcDecrypt K probePrimitive T fuel
        (km_AesCbcInit K W probeLifecycle probeHeap c).2.1 req = some r ∧
      r.ctx.aes_encrypt = some ⟨Slot.aes_encrypt, []⟩ ∧
      CallsLandOn Slot.aes_decrypt EntryPoint.wc_AesCbcDecrypt EntryPoint.wc_AesCbcDecrypt
        r.ctx.aes_decrypt r.log ∧
      (T.start_err = 0 → (∀ k, T.done_err k = 0) →
        r.ret = 0 ∧
        callsOf EntryPoint.wc_AesCbcDecrypt EntryPoint.wc_AesCbcDecrypt r.log =
          repeatCalls (splitViews req.src T.split).length
            [EntryPoint.wc_AesSetIV, EntryPoint.wc_AesCbcDecrypt]) := by
  rw [(probe_init_contexts K W c).2.2.2.2.2]
  rcases skcipher_walk_virt_cases T req with ⟨hs, hw⟩ | hw
  · refine ⟨⟨T.start_err, ⟨some ⟨Slot.aes_encrypt, []⟩, some ⟨Slot.aes_decrypt, []⟩⟩, [],
      [Call.walk_start T.start_err]⟩, by simp [km_AesCbcDecrypt, hw, hs], rfl, ⟨rfl, ?_⟩, ?_⟩
    · intro c hc hsome
      simp at hc
      subst hc
      simp [Call.entryPoint] at hsome
    · intro h0
      exact absurd h0 hs
  · obtain ⟨r, new, hr, hlog, haes, hok, hff⟩ := km_AesLoop_probe K T
      probePrimitive.wc_AesCbcDecrypt EntryPoint.wc_AesCbcDecrypt EntryPoint.wc_AesCbcDecrypt
      (fun _ _ => rfl) fuel ⟨splitViews req.src T.split, req.iv, 0, 0⟩
      ⟨Slot.aes_decrypt, []⟩ [] [Call.walk_start 0] 0 hfuel
    refine ⟨⟨r.ret, ⟨some ⟨Slot.aes_encrypt, []⟩, r.aes⟩, r.dst, r.log⟩,
      by simp [km_AesCbcDecrypt, hw, hr], rfl, ⟨?_, ?_⟩, ?_⟩
    · simp only [haes, hlog, callsOf_append]
      simp [callsOf, Call.entryPoint]
    · intro c hc hsome
      simp only [hlog] at hc
      rcases List.mem_append.mp hc with h | h
      · simp at h
        subst h
        simp [Call.entryPoint] at hsome
      · exact hok c h hsome
    · intro _ hdone
      obtain ⟨p, q⟩ := hff hdone (splitViews_nonempty _ _) rfl
      refine ⟨p, ?_⟩
      simp only [hlog, callsOf_append, q]
      simp [callsOf, Call.entryPoint]

/-- The payload loop of the GCM entry points with a recording update: whenever
it returns, the object it ends with is the one it started with, extended by
the updates that the loop recorded, none of which failed. -/
theorem km_AesGcmLoop_probe (K : Consts) (T : Transport) (al : Nat)
    (upd : Option Probe → Bytes → Nat → Bytes → Nat → Int × Option Probe × Bytes)
    (t ep : EntryPoint)
    (hx : ∀ (o : Probe) (inp : Bytes) (n : Nat),
      upd (some o) inp n [] 0 = (0, some (o.record ep), inp)) :
    ∀ (fuel : Nat) (walk : skcipher_walk) (o : Probe) (dst : Bytes) (cl : Nat) (err : Int)
      (log : List Call) (out : GcmLoopOut Probe),
      km_AesGcmLoop K upd T al fuel walk (some o) dst cl err log = some out →
      ∃ new, out.log = log ++ new ∧
        out.aes = some ⟨o.slot, o.calls ++ callsOf t ep new⟩ ∧
        ∀ c ∈ new, (c.entryPoint t ep).isSome = true → c.failed = false := by
  intro fuel
  induction fuel with
  | zero => intro walk o dst cl err log out h; simp [km_AesGcmLoop] at h
  | succ fuel ih =>
    intro walk o dst cl err log out h
    obtain ⟨sl, cs⟩ := o
    rw [km_AesGcmLoop] at h
    by_cases hn : walk.nbytes = 0
    · simp only [hn, if_true] at h
      injection h with h
      subst h
      exact ⟨[], by simp, by simp [callsOf], by simp⟩
    · by_cases hcl : cl = 0
      · by_cases he : err = 0
        · by_cases hd : (skcipher_walk_done T walk walk.nbytes).1 = 0
          · simp only [hn, hcl, he, hd, if_false, ne_eq, not_true_eq_false, false_and] at h
            obtain ⟨new, h1, h2, h3⟩ := ih _ _ _ _ _ _ out h
            refine ⟨[Call.walk_done walk.nbytes 0] ++ new, ?_, ?_, ?_⟩
            · rw [h1]; simp
            · rw [h2, callsOf_append]; simp [callsOf, Call.entryPoint]
            · intro c hc hs
              rcases List.mem_append.mp hc with hm | hm
              · simp at hm
                subst hm
                simp [Call.entryPoint] at hs
              · exact h3 c hm hs
          · simp only [hn, hcl, he, hd, if_false, ne_eq, not_true_eq_false, false_and,
              not_false_eq_true, if_true] at h
            injection h with h
            subst h
            refine ⟨[Call.walk_done walk.nbytes (skcipher_walk_done T walk walk.nbytes).1],
              rfl, by simp [callsOf, Call.entryPoint], ?_⟩
            intro c hc hs
            simp at hc
            subst hc
            simp [Call.entryPoint] at hs
        · simp only [hn, hcl, he, if_false, ne_eq, not_true_eq_false, false_and,
            not_false_eq_true, if_true] at h
          injection h with h
          subst h
          exact ⟨[], by simp, by simp [callsOf], by simp⟩
      · have hu := hx ⟨sl, cs⟩ (walk.src.take cl) cl
        by_cases hd : (skcipher_walk_done T walk
            (walk.nbytes - (if cl < walk.nbytes then cl else walk.nbytes))).1 = 0
        · simp only [hn, hcl, hu, hd, if_false, ne_eq, not_true_eq_false, not_false_eq_true,
            and_self, if_true] at h
          obtain ⟨new, h1, h2, h3⟩ := ih _ _ _ _ _ _ out h
          refine ⟨[Call.gcm_update walk.nbytes cl cl
              (if cl < walk.nbytes then cl else walk.nbytes) 0,
            Call.walk_done (walk.nbytes - (if cl < walk.nbytes then cl else walk.nbytes)) 0]
            ++ new, ?_, ?_, ?_⟩
          · rw [h1]; simp
          · rw [h2, callsOf_append]; simp [callsOf, Call.entryPoint, Probe.record]
          · intro c hc hs
            rcases List.mem_append.mp hc with hm | hm
            · simp at hm
              rcases hm with rfl | rfl
              · rfl
              · rfl
            · exact h3 c hm hs
        · simp only [hn, hcl, hu, hd, if_false, ne_eq, not_true_eq_false, not_false_eq_true,
            and_self, if_true] at h
          injection h with h
          subst h
          refine ⟨[Call.gcm_update walk.nbytes cl cl
              (if cl < walk.nbytes then cl else walk.nbytes) 0,
            Call.walk_done (walk.nbytes - (if cl < walk.nbytes then cl else walk.nbytes))
              (skcipher_walk_done T walk
                (walk.nbytes - (if cl < walk.nbytes then cl else walk.nbytes))).1],
            by simp, by simp [callsOf, Call.entryPoint, Probe.record], ?_⟩
          intro c hc hs
          simp at hc
          rcases hc with rfl | rfl
          · rfl
          · simp [Call.entryPoint] at hs

/-- The payload loop of the GCM entry points with a recording update, on a
walk of non-empty views that holds no more bytes than are owed and whose
commits all succeed: the loop runs to the end of the walk and makes one update
per view. -/
theorem km_AesGcmLoop_probe_clean (K : Consts) (T : Transport) (al : Nat)
    (upd : Option Probe → Bytes → Nat → Bytes → Nat → Int × Option Probe × Bytes)
    (t ep : EntryPoint)
    (hx : ∀ (o : Probe) (inp : Bytes) (n : Nat),
      upd (some o) inp n [] 0 = (0, some (o.record ep), inp))
    (hdone : ∀ k, T.done_err k = 0) :
    ∀ (fuel : Nat) (walk : skcipher_walk) (o : Probe) (dst : Bytes) (cl : Nat)
      (log : List Call) (out : GcmLoopOut Probe),
      walk.total ≤ cl → (∀ v ∈ walk.views, v ≠ []) →
      km_AesGcmLoop K upd T al fuel walk (some o) dst cl 0 log = some out →
      out.returned = none ∧
      callsOf t ep out.log = callsOf t ep log ++ repeatCalls walk.views.length [ep] := by
  intro fuel
  induction fuel with
  | zero => intro walk o dst cl log out _ _ h; simp [km_AesGcmLoop] at h
  | succ fuel ih =>
    intro walk o dst cl log out htot hne h
    obtain ⟨views, iv, off, ndone⟩ := walk
    obtain ⟨sl, cs⟩ := o
    cases views with
    | nil =>
      simp [km_AesGcmLoop, skcipher_walk.nbytes] at h
      subst h
      simp [repeatCalls]
    | cons v rest =>
      have hv : v.length ≠ 0 := fun h0 =>
        hne v (List.mem_cons_self _ _) (List.length_eq_zero.mp h0)
      have htot' : v.length + (rest.map List.length).sum ≤ cl := by
        simpa [skcipher_walk.total] using htot
      have hcl : cl ≠ 0 := by omega
      have hnlt : ¬ cl < v.length := by omega
      have hu := hx ⟨sl, cs⟩ (v.take cl) cl
      have hd := hdone ndone
      have hstep : km_AesGcmLoop K upd T al (fuel + 1) ⟨v :: rest, iv, off, ndone⟩
          (some ⟨sl, cs⟩) dst cl 0 log =
          km_AesGcmLoop K upd T al fuel ⟨rest, iv, off + v.length, ndone + 1⟩
            (some ⟨sl, cs ++ [ep]⟩) (writeAt dst (al + off) (v.take cl)) (cl - v.length) 0
            (log ++ [Call.gcm_update v.length cl cl v.length 0] ++ [Call.walk_done 0 0]) := by
        simp [km_AesGcmLoop, skcipher_walk.nbytes, skcipher_walk.src, skcipher_walk_done,
          hv, hcl, hnlt, hu, hd, Probe.record]
      rw [hstep] at h
      have hrest : (⟨rest, iv, off + v.length, ndone + 1⟩ : skcipher_walk).total
          ≤ cl - v.length := by
        simp only [skcipher_walk.total]
        omega
      obtain ⟨p, q⟩ := ih _ _ _ _ _ out hrest
        (fun w hw => hne w (List.mem_cons_of_mem _ hw)) h
      refine ⟨p, ?_⟩
      rw [q]
      simp [callsOf_append, callsOf, Call.entryPoint, repeatCalls]

/-- When the mapping of the associated data yields an error pointer, the
transport has injected that fault. -/
theorem scatterwalk_map_none (T : Transport) (sg : List scatterlist)
    (h : scatterwalk_map T sg = none) : T.map_err = true := by
  unfold scatterwalk_map at h
  by_cases hm : T.map_err = true
  · exact hm
  · cases sg <;> simp [hm] at h

/-- `km_AesGcmDecrypt` with the recording primitive on the context of
`km_AesGcmInit`. -/
theorem km_AesGcmDecrypt_probe (K : Consts) (W : WcConsts) (c : km_AesCtx Probe)
    (T : Transport) (fuel : Nat) (authsize : Nat) (req : aead_request)
    (hfuel : (splitViews (((sgBytes req.src).drop req.assoclen).take
      (u32sub req.cryptlen authsize)) T.split).length < fuel) :
    ∃ r, km_AesGcmDecrypt K probePrimitive T fuel
        (km_AesGcmInit K W probeLifecycle probeHeap c).2.1 authsize req = some r ∧
      r.ctx.aes_decrypt = none ∧
      CallsLandOn Slot.aes_encrypt EntryPoint.wc_AesGcmDecryptUpdate
        EntryPoint.wc_AesGcmDecryptUpdate r.ctx.aes_encrypt r.log ∧
      (T.start_err = 0 → T.map_err = false → (∀ k, T.done_err k = 0) →
        r.ret = 0 ∧
        callsOf EntryPoint.wc_AesGcmDecryptUpdate EntryPoint.wc_AesGcmDecryptUpdate r.log =
          [EntryPoint.wc_AesGcmInit, EntryPoint.wc_AesGcmDecryptUpdate] ++
            repeatCalls (splitViews (((sgBytes req.src).drop req.assoclen).take
              (u32sub req.cryptlen authsize)) T.split).length
              [EntryPoint.wc_AesGcmDecryptUpdate] ++
            [EntryPoint.wc_AesGcmDecryptFinal]) := by
  rw [(probe_init_contexts K W c).2.2.2.1]
  unfold km_AesGcmDecrypt
  by_cases hs : T.start_err = 0
  · have hw : skcipher_walk_aead_decrypt T req authsize =
        (0, ⟨splitViews (((sgBytes req.src).drop req.assoclen).take
          (u32sub req.cryptlen authsize)) T.split, req.iv, 0, 0⟩) := by
      simp [skcipher_walk_aead_decrypt, skcipher_walk_aead, hs]
    simp only [hw]
    have hi : probePrimitive.wc_AesGcmInit (some ⟨Slot.aes_encrypt, []⟩)
        (List.take AES_BLOCK_SIZE req.iv) AES_BLOCK_SIZE =
        (0, some ⟨Slot.aes_encrypt, [EntryPoint.wc_AesGcmInit]⟩) := rfl
    simp only [hi, ne_eq, not_true_eq_false, ↓reduceIte]
    cases hmp : scatterwalk_map T req.src with
    | none =>
      simp only
      refine ⟨_, rfl, rfl, ⟨by simp [callsOf, Call.entryPoint], ?_⟩, ?_⟩
      · intro c hc hsome
        simp at hc
        rcases hc with rfl | rfl | rfl
        · simp [Call.entryPoint] at hsome
        · rfl
        · simp [Call.entryPoint] at hsome
      · intro _ hm
        have := scatterwalk_map_none T req.src hmp
        rw [hm] at this
        exact absurd this (by decide)
    | some assoc =>
      simp only
      have ha : probePrimitive.wc_AesGcmDecryptUpdate
          (some ⟨Slot.aes_encrypt, [EntryPoint.wc_AesGcmInit]⟩) [] 0
          (List.take req.assoclen assoc) req.assoclen =
          (0, some ⟨Slot.aes_encrypt,
            [EntryPoint.wc_AesGcmInit, EntryPoint.wc_AesGcmDecryptUpdate]⟩, []) := rfl
      simp only [ha, ne_eq, not_true_eq_false, ↓reduceIte]
      have htot : (⟨splitViews (((sgBytes req.src).drop req.assoclen).take
          (u32sub req.cryptlen authsize)) T.split, req.iv, 0, 0⟩ : skcipher_walk).total
          ≤ u32sub req.cryptlen authsize := by
        simp only [skcipher_walk.total, splitViews_total, List.length_take]
        omega
      obtain ⟨out, ho, -, -⟩ := km_AesGcmLoop_returns K probePrimitive.wc_AesGcmDecryptUpdate T
        req.assoclen fuel _
        (some ⟨Slot.aes_encrypt, [EntryPoint.wc_AesGcmInit, EntryPoint.wc_AesGcmDecryptUpdate]⟩)
        req.dst (u32sub req.cryptlen authsize)
        ([Call.walk_start 0] ++ [Call.gcm_init (List.take AES_BLOCK_SIZE req.iv) 0] ++
          [Call.map_assoc false, Call.gcm_aad (List.take req.assoclen assoc) req.assoclen 0])
        htot hfuel
      obtain ⟨new, hlog, haes, hok⟩ := km_AesGcmLoop_probe K T req.assoclen
        probePrimitive.wc_AesGcmDecryptUpdate EntryPoint.wc_AesGcmDecryptUpdate
        EntryPoint.wc_AesGcmDecryptUpdate (fun _ _ _ => rfl) fuel _ _ _ _ _ _ out ho
      have hclean := fun hdone => km_AesGcmLoop_probe_clean K T req.assoclen
        probePrimitive.wc_AesGcmDecryptUpdate EntryPoint.wc_AesGcmDecryptUpdate
        EntryPoint.wc_AesGcmDecryptUpdate (fun _ _ _ => rfl) hdone fuel _ _ _ _ _ out htot
        (splitViews_nonempty _ _) ho
      rw [ho]
      simp only
      have hpre : ∀ c ∈ out.log,
          (c.entryPoint EntryPoint.wc_AesGcmDecryptUpdate
            EntryPoint.wc_AesGcmDecryptUpdate).isSome = true → c.failed = false := by
        intro c hc hsome
        rw [hlog] at hc
        rcases List.mem_append.mp hc with h | h
        · simp at h
          rcases h with rfl | rfl | rfl | rfl
          · simp [Call.entryPoint] at hsome
          · rfl
          · simp [Call.entryPoint] at hsome
          · rfl
        · exact hok c h hsome
      have hcalls : callsOf EntryPoint.wc_AesGcmDecryptUpdate EntryPoint.wc_AesGcmDecryptUpdate
          out.log = [EntryPoint.wc_AesGcmInit, EntryPoint.wc_AesGcmDecryptUpdate] ++
            callsOf EntryPoint.wc_AesGcmDecryptUpdate EntryPoint.wc_AesGcmDecryptUpdate new := by
        rw [hlog, callsOf_append]
        simp [callsOf, Call.entryPoint]
      cases hr : out.returned with
      | some r =>
        simp only
        refine ⟨_, rfl, rfl, ⟨?_, hpre⟩, ?_⟩
        · simp only [haes, hcalls]
        · intro _ _ hdone
          have := (hclean hdone).1
          rw [hr] at this
          exact absurd this (by simp)
      | none =>
        simp only
        have hf : probePrimitive.wc_AesGcmDecryptFinal out.aes
            (sgRead req.src (u32sub (u32 (req.assoclen + req.cryptlen)) authsize) authsize)
            authsize =
            (0, some ⟨Slot.aes_encrypt,
              [EntryPoint.wc_AesGcmInit, EntryPoint.wc_AesGcmDecryptUpdate] ++
                callsOf EntryPoint.wc_AesGcmDecryptUpdate EntryPoint.wc_AesGcmDecryptUpdate new
                ++ [EntryPoint.wc_AesGcmDecryptFinal]⟩) := by
          rw [haes]
          rfl
        simp only [hf, ne_eq, not_true_eq_false, ↓reduceIte]
        refine ⟨_, rfl, rfl, ⟨?_, ?_⟩, ?_⟩
        · simp only [callsOf_append, hcalls]
          simp [callsOf, Call.entryPoint]
        · intro c hc hsome
          rcases List.mem_append.mp hc with h | h
          · exact hpre c h hsome
          · simp at h
            subst h
            rfl
        · intro _ _ hdone
          refine ⟨rfl, ?_⟩
          have hq := (hclean hdone).2
          simp only [callsOf_append, hq]
          simp [callsOf, Call.entryPoint]
  · have hw : skcipher_walk_aead_decrypt T req authsize = (T.start_err, ⟨[], req.iv, 0, 0⟩) := by
      simp [skcipher_walk_aead_decrypt, skcipher_walk_aead, hs]
    simp only [hw, ne_eq, hs, not_false_eq_true, ↓reduceIte]
    refine ⟨_, rfl, rfl, ⟨by simp [callsOf, Call.entryPoint], ?_⟩, ?_⟩
    · intro c hc hsome
      simp at hc
      subst hc
      simp [Call.entryPoint] at hsome
    · intro h0
      exact False.elim h0

/-! ### C25 -/

/-- With any primitive, `km_AesCfbDecrypt` and `km_AesGcmDecrypt` neither read
nor write the decryption pointer: run on a context with any decryption pointer
`d` they do what they do with `NULL` in its place, and hand `d` back unchanged;
`km_AesCbcDecrypt` neither reads nor writes the encryption pointer.  With any
allocator and set-up entry points, a successful `km_AesCfbInit` or
`km_AesGcmInit` leaves an allocated encryption state and the decryption pointer
`NULL`, and a successful `km_AesCbcInit` leaves an allocated decryption
state. -/
theorem decrypt_ignores_other_state {σ : Type} (K : Consts) (W : WcConsts) (P : Primitive σ)
    (L : AesLifecycle σ) (H : Heap σ) (T : Transport) (fuel authsize : Nat)
    (req : skcipher_request) (areq : aead_request) :
    (∀ e d : Option σ, km_AesCfbDecrypt K P T fuel ⟨e, d⟩ req =
      (km_AesCfbDecrypt K P T fuel ⟨e, none⟩ req).map
        fun r => { r with ctx := { r.ctx with aes_decrypt := d } }) ∧
    (∀ e d : Option σ, km_AesGcmDecrypt K P T fuel ⟨e, d⟩ authsize areq =
      (km_AesGcmDecrypt K P T fuel ⟨e, none⟩ authsize areq).map
        fun r => { r with ctx := { r.ctx with aes_decrypt := d } }) ∧
    (∀ e d : Option σ, km_AesCbcDecrypt K P T fuel ⟨e, d⟩ req =
      (km_AesCbcDecrypt K P T fuel ⟨none, d⟩ req).map
        fun r => { r with ctx := { r.ctx with aes_encrypt := e } }) ∧
    (∀ c : km_AesCtx σ, (km_AesCfbInit K W L H c).1 = 0 →
      (km_AesCfbInit K W L H c).2.1.aes_encrypt.isSome = true ∧
      (km_AesCfbInit K W L H c).2.1.aes_decrypt = none) ∧
    (∀ c : km_AesCtx σ, (km_AesGcmInit K W L H c).1 = 0 →
      (km_AesGcmInit K W L H c).2.1.aes_encrypt.isSome = true ∧
      (km_AesGcmInit K W L H c).2.1.aes_decrypt = none) ∧
    (∀ c : km_AesCtx σ, (km_AesCbcInit K W L H c).1 = 0 →
      (km_AesCbcInit K W L H c).2.1.aes_decrypt.isSome = true) := by
  have hM : W.MEMORY_E ≠ 0 := by have := W.MEMORY_E_neg; omega
  have hE : -K.EINVAL ≠ 0 := by have := K.EINVAL_pos; omega
  have hinit : ∀ (c : km_AesCtx σ) (nd : Int), (km_AesInitCommon K W L H c nd).1 = 0 →
      (km_AesInitCommon K W L H c nd).2.1.aes_encrypt.isSome = true ∧
      (nd = 0 → (km_AesInitCommon K W L H c nd).2.1.aes_decrypt = none) ∧
      (nd ≠ 0 → (km_AesInitCommon K W L H c nd).2.1.aes_decrypt.isSome = true) := by
    intro c nd h0
    unfold km_AesInitCommon at h0 ⊢
    by_cases h1 : H.malloc_ok Slot.aes_encrypt = false
    · simp [h1, hM] at h0
    · by_cases h2 : (L.wc_AesInit (H.raw Slot.aes_encrypt)).1 = 0
      · by_cases h3 : nd = 0
        · simp [h1, h2, h3]
        · by_cases h4 : H.malloc_ok Slot.aes_decrypt = false
          · simp [h1, h2, h3, h4, hM] at h0
          · by_cases h5 : (L.wc_AesInit (H.raw Slot.aes_decrypt)).1 = 0
            · simp [h1, h2, h3, h4, h5]
            · simp [h1, h2, h3, h4, h5, hE, K.EINVAL_pos.ne'] at h0
      · simp [h1, h2, hE, K.EINVAL_pos.ne'] at h0
  refine ⟨?_, ?_, ?_, ?_, ?_, ?_⟩
  · intro e d
    unfold km_AesCfbDecrypt
    by_cases hw : (skcipher_walk_virt T req).1 = 0
    · simp [hw, Option.map_map, Function.comp_def]
    · simp [hw]
  · intro e d
    unfold km_AesGcmDecrypt
    dsimp only
    split_ifs <;> try rfl
    all_goals
      split <;> try rfl
      split_ifs <;> try rfl
      split <;> try rfl
      split <;> try rfl
      split_ifs <;> rfl
  · intro e d
    unfold km_AesCbcDecrypt
    by_cases hw : (skcipher_walk_virt T req).1 = 0
    · simp [hw, Option.map_map, Function.comp_def]
    · simp [hw]
  · intro c hc
    exact ⟨(hinit c 0 hc).1, (hinit c 0 hc).2.1 rfl⟩
  · intro c hc
    exact ⟨(hinit c 0 hc).1, (hinit c 0 hc).2.1 rfl⟩
  · intro c hc
    exact (hinit c 1 hc).2.2 (by decide)

/-- C25.  The three decrypt engines are run with the recording primitive on the
context that the mode's init has set up with the recording allocator, whatever
the context held before, for every request and transport, with one unit of
fuel per view plus one.  Each init returns 0 and each engine returns.
`km_AesCfbDecrypt` ends with the decryption pointer `NULL`, and the object
behind the encryption pointer is the one allocated for `aes_encrypt`; the calls
that object has received are exactly the primitive calls of the engine, each
transform through `wc_AesCfbDecrypt`, and none of them failed, so none was made
on `NULL`.  The same holds of `km_AesGcmDecrypt`, with `wc_AesGcmInit`,
`wc_AesGcmDecryptUpdate` and `wc_AesGcmDecryptFinal`.  `km_AesCbcDecrypt` leaves
the object behind the encryption pointer without any call, and the object
behind the decryption pointer is the one allocated for `aes_decrypt`, which has
received exactly the primitive calls of the engine, each transform through
`wc_AesCbcDecrypt`.  On a transport without faults the engines return 0 and
these calls are, per view, `wc_AesSetIV` and the decrypt transform (CFB, CBC),
and `wc_AesGcmInit`, the update for the associated data, one update per view,
and `wc_AesGcmDecryptFinal` (GCM).  Moreover, with any primitive the CFB and
GCM engines do not depend on the decryption pointer and hand it back, the CBC
engine does not depend on the encryption pointer, and with any allocator a
successful `km_AesCfbInit` / `km_AesGcmInit` leaves the encryption state
allocated and the decryption pointer `NULL`, a successful `km_AesCbcInit` the
decryption state allocated. -/
theorem decrypt_uses_allocated_state {σ : Type} (K : Consts) (W : WcConsts) (P : Primitive σ)
    (L : AesLifecycle σ) (H : Heap σ) (c : km_AesCtx Probe) (T : Transport)
    (fuel authsize : Nat) (req : skcipher_request) (areq : aead_request)
    (hfuel : (splitViews req.src T.split).length < fuel)
    (hafuel : (splitViews (((sgBytes areq.src).drop areq.assoclen).take
      (u32sub areq.cryptlen authsize)) T.split).length < fuel) :
    ((km_AesCfbInit K W probeLifecycle probeHeap c).1 = 0 ∧
      ∃ r, km_AesCfbDecrypt K probePrimitive T fuel
          (km_AesCfbInit K W probeLifecycle probeHeap c).2.1 req = some r ∧
        r.ctx.aes_decrypt = none ∧
        CallsLandOn Slot.aes_encrypt EntryPoint.wc_AesCfbDecrypt EntryPoint.wc_AesCfbDecrypt
          r.ctx.aes_encrypt r.log ∧
        (T.start_err = 0 → (∀ k, T.done_err k = 0) →
          r.ret = 0 ∧
          callsOf EntryPoint.wc_AesCfbDecrypt EntryPoint.wc_AesCfbDecrypt r.log =
            repeatCalls (splitViews req.src T.split).length
              [EntryPoint.wc_AesSetIV, EntryPoint.wc_AesCfbDecrypt])) ∧
    ((km_AesGcmInit K W probeLifecycle probeHeap c).1 = 0 ∧
      ∃ r, km_AesGcmDecrypt K probePrimitive T fuel
          (km_AesGcmInit K W probeLifecycle probeHeap c).2.1 authsize areq = some r ∧
        r.ctx.aes_decrypt = none ∧
        CallsLandOn Slot.aes_encrypt EntryPoint.wc_AesGcmDecryptUpdate
          EntryPoint.wc_AesGcmDecryptUpdate r.ctx.aes_encrypt r.log ∧
        (T.start_err = 0 → T.map_err = false → (∀ k, T.done_err k = 0) →
          r.ret = 0 ∧
          callsOf EntryPoint.wc_AesGcmDecryptUpdate EntryPoint.wc_AesGcmDecryptUpdate r.log =
            [EntryPoint.wc_AesGcmInit, EntryPoint.wc_AesGcmDecryptUpdate] ++
              repeatCalls (splitViews (((sgBytes areq.src).drop areq.assoclen).take
                (u32sub areq.cryptlen authsize)) T.split).length
                [EntryPoint.wc_AesGcmDecryptUpdate] ++
              [EntryPoint.wc_AesGcmDecryptFinal])) ∧
    ((km_AesCbcInit K W probeLifecycle probeHeap c).1 = 0 ∧
      ∃ r, km_AesCbcDecrypt K probePrimitive T fuel
          (km_AesCbcInit K W probeLifecycle probeHeap c).2.1 req = some r ∧
        r.ctx.aes_encrypt = some ⟨Slot.aes_encrypt, []⟩ ∧
        CallsLandOn Slot.aes_decrypt EntryPoint.wc_AesCbcDecrypt EntryPoint.wc_AesCbcDecrypt
          r.ctx.aes_decrypt r.log ∧
        (T.start_err = 0 → (∀ k, T.done_err k = 0) →
          r.ret = 0 ∧
          callsOf EntryPoint.wc_AesCbcDecrypt EntryPoint.wc_AesCbcDecrypt r.log =
            repeatCalls (splitViews req.src T.split).length
              [EntryPoint.wc_AesSetIV, EntryPoint.wc_AesCbcDecrypt])) ∧
    (∀ e d : Option σ, km_AesCfbDecrypt K P T fuel ⟨e, d⟩ req =
      (km_AesCfbDecrypt K P T fuel ⟨e, none⟩ req).map
        fun r => { r with ctx := { r.ctx with aes_decrypt := d } }) ∧
    (∀ e d : Option σ, km_AesGcmDecrypt K P T fuel ⟨e, d⟩ authsize areq =
      (km_AesGcmDecrypt K P T fuel ⟨e, none⟩ authsize areq).map
        fun r => { r with ctx := { r.ctx with aes_decrypt := d } }) ∧
    (∀ e d : Option σ, km_AesCbcDecrypt K P T fuel ⟨e, d⟩ req =
      (km_AesCbcDecrypt K P T fuel ⟨none, d⟩ req).map
        fun r => { r with ctx := { r.ctx with aes_encrypt := e } }) ∧
    (∀ x : km_AesCtx σ, (km_AesCfbInit K W L H x).1 = 0 →
      (km_AesCfbInit K W L H x).2.1.aes_encrypt.isSome = true ∧
      (km_AesCfbInit K W L H x).2.1.aes_decrypt = none) ∧
    (∀ x : km_AesCtx σ, (km_AesGcmInit K W L H x).1 = 0 →
      (km_AesGcmInit K W L H x).2.1.aes_encrypt.isSome = true ∧
      (km_AesGcmInit K W L H x).2.1.aes_decrypt = none) ∧
    (∀ x : km_AesCtx σ, (km_AesCbcInit K W L H x).1 = 0 →
      (km_AesCbcInit K W L H x).2.1.aes_decrypt.isSome = true) :=
  ⟨⟨(probe_init_contexts K W c).1, km_AesCfbDecrypt_probe K W c T fuel req hfuel⟩,
    ⟨(probe_init_contexts K W c).2.2.1, km_AesGcmDecrypt_probe K W c T fuel authsize areq hafuel⟩,
    ⟨(probe_init_contexts K W c).2.2.2.2.1, km_AesCbcDecrypt_probe K W c T fuel req hfuel⟩,
    decrypt_ignores_other_state K W P L H T fuel authsize req areq⟩

set_option maxRecDepth 100000 in
/-- Witness for `decrypt_uses_allocated_state`: the 32-byte vector of the
self-tests and the decryption request of the GCM self-test, handed out in views
of 16 bytes.  The object allocated for the encryption pointer has received two
rounds of `wc_AesSetIV` and `wc_AesCfbDecrypt` from `km_AesCfbDecrypt`, and the
GCM decryption sequence with two payload updates from `km_AesGcmDecrypt`, the
decryption pointer staying `NULL`; from `km_AesCbcDecrypt` the object allocated
for the decryption pointer has received two rounds of `wc_AesSetIV` and
`wc_AesCbcDecrypt`, the one behind the encryption pointer nothing. -/
theorem decrypt_uses_allocated_state_witness :
    (splitViews (⟨testVector, testIv⟩ : skcipher_request).src (Transport.cut [16]).split).length
      < 3 ∧
    (splitViews (((sgBytes gcmTestDecrypt.src).drop gcmTestDecrypt.assoclen).take
      (u32sub gcmTestDecrypt.cryptlen 16)) (Transport.cut [16]).split).length < 3 ∧
    (km_AesCfbDecrypt linuxConsts probePrimitive (Transport.cut [16]) 3
      (km_AesCfbInit linuxConsts linuxWc probeLifecycle probeHeap km_AesCtx.null).2.1
      ⟨testVector, testIv⟩).map (fun r => (r.ret, r.ctx.aes_encrypt, r.ctx.aes_decrypt)) =
      some (0, some ⟨Slot.aes_encrypt, [EntryPoint.wc_AesSetIV, EntryPoint.wc_AesCfbDecrypt,
        EntryPoint.wc_AesSetIV, EntryPoint.wc_AesCfbDecrypt]⟩, none) ∧
    (km_AesGcmDecrypt linuxConsts probePrimitive (Transport.cut [16]) 3
      (km_AesGcmInit linuxConsts linuxWc probeLifecycle probeHeap km_AesCtx.null).2.1 16
      gcmTestDecrypt).map (fun r => (r.ret, r.ctx.aes_encrypt, r.ctx.aes_decrypt)) =
      some (0, some ⟨Slot.aes_encrypt, [EntryPoint.wc_AesGcmInit,
        EntryPoint.wc_AesGcmDecryptUpdate, EntryPoint.wc_AesGcmDecryptUpdate,
        EntryPoint.wc_AesGcmDecryptUpdate, EntryPoint.wc_AesGcmDecryptFinal]⟩, none) ∧
    (km_AesCbcDecrypt linuxConsts probePrimitive (Transport.cut [16]) 3
      (km_AesCbcInit linuxConsts linuxWc probeLifecycle probeHeap km_AesCtx.null).2.1
      ⟨testVector, testIv⟩).map (fun r => (r.ret, r.ctx.aes_encrypt, r.ctx.aes_decrypt)) =
      some (0, some ⟨Slot.aes_encrypt, []⟩,
        some ⟨Slot.aes_decrypt, [EntryPoint.wc_AesSetIV, EntryPoint.wc_AesCbcDecrypt,
          EntryPoint.wc_AesSetIV, EntryPoint.wc_AesCbcDecrypt]⟩) ∧
    ∃ r, km_AesCbcDecrypt linuxConsts probePrimitive (Transport.cut [16]) 3
        (km_AesCbcInit linuxConsts linuxWc probeLifecycle probeHeap km_AesCtx.null).2.1
        ⟨testVector, testIv⟩ = some r ∧
      CallsLandOn Slot.aes_decrypt EntryPoint.wc_AesCbcDecrypt EntryPoint.wc_AesCbcDecrypt
        r.ctx.aes_decrypt r.log :=
  ⟨by decide, by decide, by decide, by decide, by decide,
    (decrypt_uses_allocated_state linuxConsts linuxWc probePrimitive probeLifecycle probeHeap
      km_AesCtx.null (Transport.cut [16]) 3 16 ⟨testVector, testIv⟩ gcmTestDecrypt
      (by decide) (by decide)).2.2.1.2.imp fun _ h => ⟨h.1, h.2.2.1⟩⟩

/-! ### C30 -/

/-- One iteration per view. -/
theorem gcmLoopTrace_updates : ∀ views : List Bytes,
    ((gcmLoopTrace views).filter Call.isUpdate).length = views.length := by
  intro views
  induction views with
  | nil => rfl
  | cons v rest ih => simp [gcmLoopTrace, Call.isUpdate, ih]

/-- Every update of the trace advances by the whole view, which is at least one
byte and no more than the counter. -/
theorem gcmLoopTrace_advance : ∀ views : List Bytes, (∀ v ∈ views, v ≠ []) →
    ∀ nbytes owed sz advance err,
      Call.gcm_update nbytes owed sz advance err ∈ gcmLoopTrace views →
      1 ≤ advance ∧ advance = nbytes ∧ advance ≤ owed ∧ err = 0 := by
  intro views
  induction views with
  | nil => intro _ nbytes owed sz advance err h; simp [gcmLoopTrace] at h
  | cons v rest ih =>
    intro hne nbytes owed sz advance err h
    simp only [gcmLoopTrace, List.cons_append, List.nil_append, List.mem_cons] at h
    rcases h with h | h | h
    · injection h with h1 h2 h3 h4 h5
      have hv := length_ne_zero_of_ne_nil v (hne v (List.mem_cons_self _ _))
      have hcl : viewsTotal (v :: rest) = v.length + viewsTotal rest := by
        simp [viewsTotal]
      subst h1 h2 h4 h5
      omega
    · cases h
    · exact ih (fun w hw => hne w (List.mem_cons_of_mem _ hw)) nbytes owed sz advance err h

/-- The payload loop on a walk of non-empty views that holds exactly the bytes
owed, when every update on an allocated object and every commit succeeds. -/
theorem km_AesGcmLoop_trace {σ : Type} (K : Consts)
    (update : Option σ → Bytes → Nat → Bytes → Nat → Int × Option σ × Bytes)
    (T : Transport) (al : Nat)
    (hupd : ∀ a i n, a.isSome = true →
      (update a i n [] 0).1 = 0 ∧ (update a i n [] 0).2.1.isSome = true)
    (hdone : ∀ k, T.done_err k = 0) :
    ∀ (fuel : Nat) (walk : skcipher_walk) (aes : Option σ) (dst : Bytes) (err : Int)
      (log : List Call), aes.isSome = true → (∀ v ∈ walk.views, v ≠ []) →
      walk.views.length < fuel →
      ∃ out, km_AesGcmLoop K update T al fuel walk aes dst (viewsTotal walk.views) err log =
          some out ∧
        out.returned = none ∧ out.cryptLeft = 0 ∧
        out.log = log ++ gcmLoopTrace walk.views := by
  intro fuel
  induction fuel with
  | zero => intro walk aes dst err log _ _ h; omega
  | succ fuel ih =>
    intro walk aes dst err log haes hne hfuel
    obtain ⟨views, iv, off, ndone⟩ := walk
    cases views with
    | nil =>
      exact ⟨⟨none, aes, dst, 0, err, log⟩,
        by simp [km_AesGcmLoop, skcipher_walk.nbytes, viewsTotal], rfl, rfl,
        by simp [gcmLoopTrace]⟩
    | cons v rest =>
      have hv := length_ne_zero_of_ne_nil v (hne v (List.mem_cons_self _ _))
      have hcl : viewsTotal (v :: rest) = v.length + viewsTotal rest := by
        simp [viewsTotal]
      have hcl0 : v.length + viewsTotal rest ≠ 0 := by omega
      have hnlt : ¬ v.length + viewsTotal rest < v.length := by omega
      have hlen : (⟨rest, iv, off + v.length, ndone + 1⟩ : skcipher_walk).views.length
          < fuel := by
        simp only [List.length_cons] at hfuel
        simp only
        omega
      have hu := hupd aes (v.take (v.length + viewsTotal rest)) (v.length + viewsTotal rest) haes
      obtain ⟨out, ho, hret, hleft, hlog⟩ := ih ⟨rest, iv, off + v.length, ndone + 1⟩
        (update aes (v.take (v.length + viewsTotal rest)) (v.length + viewsTotal rest) [] 0).2.1
        (writeAt dst (al + off)
          (update aes (v.take (v.length + viewsTotal rest))
            (v.length + viewsTotal rest) [] 0).2.2)
        0
        (log ++ [Call.gcm_update v.length (v.length + viewsTotal rest)
          (v.length + viewsTotal rest) v.length 0] ++ [Call.walk_done 0 0])
        hu.2 (fun w hw => hne w (List.mem_cons_of_mem _ hw)) hlen
      simp only at ho hlog
      refine ⟨out, ?_, hret, hleft, ?_⟩
      · rw [hcl]
        simp only [List.append_assoc, List.cons_append, List.nil_append] at ho
        simp [km_AesGcmLoop, skcipher_walk.nbytes, skcipher_walk.src, skcipher_walk_done, hv,
          hcl0, hnlt, hu.1, hdone, ho]
      · rw [hlog]
        simp [gcmLoopTrace, hcl]

/-- The walk of an AEAD request whose source holds the associated data and
`total` more bytes covers exactly `total` bytes, in non-empty views. -/
theorem skcipher_walk_aead_covers (T : Transport) (req : aead_request) (total : Nat)
    (hstart : T.start_err = 0) (hlen : req.assoclen + total ≤ (sgBytes req.src).length) :
    (skcipher_walk_aead T req total).2.total = total ∧
    ∀ v ∈ (skcipher_walk_aead T req total).2.views, v ≠ [] := by
  constructor
  · simp only [skcipher_walk_aead, hstart, ne_eq, not_true_eq_false, if_false,
      skcipher_walk.total, splitViews_total, List.length_take, List.length_drop]
    omega
  · intro v hv
    simp only [skcipher_walk_aead, hstart, ne_eq, not_true_eq_false, if_false] at hv
    exact splitViews_nonempty _ _ v hv

/-- C30.  Take a walk whose views are non-empty and whose uncommitted byte
count equals `cryptLeft`, an allocated object, updates that succeed on
allocated objects and commits that succeed, and more fuel than views.  Then the
payload loop of `km_AesGcmEncrypt` / `km_AesGcmDecrypt` ends without returning
from the function, with `cryptLeft` = 0, after the calls of `gcmLoopTrace`:
one update and one commit per view, where the update on a view finds the
counter equal to the bytes not yet committed (that view and all later ones)
and advances by the whole view, at least one byte.  The walks that the two
entry points start satisfy the premise: for a request whose source holds the
associated data and `cryptlen` bytes, the walk of `km_AesGcmEncrypt` covers
`cryptlen` bytes and that of `km_AesGcmDecrypt`, with `authsize <= cryptlen`,
covers `cryptlen - authsize` bytes, the initial values of `cryptLeft`. -/
theorem km_AesGcmLoop_counter_tracks_walk {σ : Type} (K : Consts)
    (update : Option σ → Bytes → Nat → Bytes → Nat → Int × Option σ × Bytes)
    (T : Transport) (al fuel : Nat) (walk : skcipher_walk) (aes : Option σ) (dst : Bytes)
    (cryptLeft : Nat) (err : Int) (log : List Call)
    (hcover : walk.total = cryptLeft) (hne : ∀ v ∈ walk.views, v ≠ [])
    (hfuel : walk.views.length < fuel) (haes : aes.isSome = true)
    (hupd : ∀ a i n, a.isSome = true →
      (update a i n [] 0).1 = 0 ∧ (update a i n [] 0).2.1.isSome = true)
    (hdone : ∀ k, T.done_err k = 0) :
    (∃ out, km_AesGcmLoop K update T al fuel walk aes dst cryptLeft err log = some out ∧
      out.returned = none ∧ out.cryptLeft = 0 ∧
      out.log = log ++ gcmLoopTrace walk.views) ∧
    ((gcmLoopTrace walk.views).filter Call.isUpdate).length = walk.views.length ∧
    (∀ nbytes owed sz advance e,
      Call.gcm_update nbytes owed sz advance e ∈ gcmLoopTrace walk.views →
      1 ≤ advance ∧ advance = nbytes ∧ advance ≤ owed ∧ e = 0) ∧
    (∀ req : aead_request, T.start_err = 0 →
      req.assoclen + req.cryptlen ≤ (sgBytes req.src).length →
      (skcipher_walk_aead_encrypt T req).2.total = req.cryptlen ∧
      ∀ v ∈ (skcipher_walk_aead_encrypt T req).2.views, v ≠ []) ∧
    (∀ (req : aead_request) (authsize : Nat), T.start_err = 0 → authsize ≤ req.cryptlen →
      req.cryptlen < 4294967296 → req.assoclen + req.cryptlen ≤ (sgBytes req.src).length →
      u32sub req.cryptlen authsize = req.cryptlen - authsize ∧
      (skcipher_walk_aead_decrypt T req authsize).2.total = u32sub req.cryptlen authsize ∧
      ∀ v ∈ (skcipher_walk_aead_decrypt T req authsize).2.views, v ≠ []) := by
  refine ⟨?_, gcmLoopTrace_updates _, gcmLoopTrace_advance _ hne, ?_, ?_⟩
  · have h := km_AesGcmLoop_trace K update T al hupd hdone fuel walk aes dst err log haes hne
      hfuel
    have ht : viewsTotal walk.views = cryptLeft := hcover
    rw [ht] at h
    exact h
  · intro req hs hl
    exact skcipher_walk_aead_covers T req req.cryptlen hs hl
  · intro req authsize hs ha hc hl
    have hsub : u32sub req.cryptlen authsize = req.cryptlen - authsize := by
      have := u32sub_add (req.cryptlen - authsize) authsize (by omega)
      rwa [Nat.sub_add_cancel ha] at this
    refine ⟨hsub, ?_⟩
    unfold skcipher_walk_aead_decrypt
    exact skcipher_walk_aead_covers T req (u32sub req.cryptlen authsize) hs
      (by rw [hsub]; omega)

/-- The stand-in primitive's encryption update succeeds on an allocated object. -/
theorem toyPrimitive_update_ok (K : Consts) (a : Option ToyAes) (i : Bytes) (n : Nat)
    (h : a.isSome = true) :
    ((toyPrimitive K).wc_AesGcmEncryptUpdate a i n [] 0).1 = 0 ∧
    ((toyPrimitive K).wc_AesGcmEncryptUpdate a i n [] 0).2.1.isSome = true := by
  cases a with
  | none => simp at h
  | some x => simp [toyPrimitive]

set_option maxRecDepth 100000 in
/-- Witness for `km_AesGcmLoop_counter_tracks_walk`: the payload of the
self-test request, handed out as a view of 10 and a view of 14 bytes. -/
theorem km_AesGcmLoop_counter_tracks_walk_witness :
    (skcipher_walk_aead_encrypt (Transport.cut [10]) gcmTestEncrypt).2.total = 24 ∧
    gcmLoopTrace (skcipher_walk_aead_encrypt (Transport.cut [10]) gcmTestEncrypt).2.views =
      [Call.gcm_update 10 24 24 10 0, Call.walk_done 0 0,
       Call.gcm_update 14 14 14 14 0, Call.walk_done 0 0] ∧
    ∃ out, km_AesGcmLoop linuxConsts (toyPrimitive linuxConsts).wc_AesGcmEncryptUpdate
        (Transport.cut [10]) 20 3
        (skcipher_walk_aead_encrypt (Transport.cut [10]) gcmTestEncrypt).2 toyCtx.aes_encrypt
        gcmTestEncrypt.dst 24 0 [] = some out ∧
      out.returned = none ∧ out.cryptLeft = 0 ∧
      out.log = [] ++
        gcmLoopTrace (skcipher_walk_aead_encrypt (Transport.cut [10]) gcmTestEncrypt).2.views :=
  ⟨by decide, by decide,
    (km_AesGcmLoop_counter_tracks_walk linuxConsts
      (toyPrimitive linuxConsts).wc_AesGcmEncryptUpdate (Transport.cut [10]) 20 3
      (skcipher_walk_aead_encrypt (Transport.cut [10]) gcmTestEncrypt).2 toyCtx.aes_encrypt
      gcmTestEncrypt.dst 24 0 [] (by decide) (by decide) (by decide) (by decide)
      (toyPrimitive_update_ok linuxConsts) (fun _ => rfl)).1⟩

end LkcapiGlue
